import Mathlib

/-!
# Chunk geometry builder of the Nova renderer

A shallow embedding of `src/main/cpp/geometry_cache/builders/chunk_builder.cpp`
(with `texture_manager::texture_location` from `native/src/core/texture_manager.h`).

Conventions of the embedding:

* C++ `int` is `Int`: signed overflow is undefined in C++ and is not represented.
* A `float` is a rational number. The conversion of an `int` to `float` and the sum of two
  floats are rounded to IEEE 754 binary32, round to nearest, ties to even (`to_float`).
  The constants that the code stores (`0`, `1`, `-1`, `size`) are kept as they are.
* A `const char *` is an `Option String`; `none` is the null pointer.
* Reading `chunk.blocks[i]` outside the array, `strcmp` on a null pointer and building
  a `std::string` from a null pointer have no defined result in C++: the embedding
  returns `none` there, and every function that can reach such a step returns an
  `Option`.
* `block_definitions[id]` is `std::unordered_map::operator[]`: for an absent key it
  yields a value-initialised definition. The definition read is a function of the
  table before the call (a key inserted that way reads as the same value later), so
  the functions are first given by the value they return; the functions whose name
  ends in `_st` carry the table as state, and are proved to return the same values.
-/

/-! ## Vectors (glm) -/

/-- The type `glm::ivec2`. -/
structure ivec2 where
  x : Int
  y : Int
deriving DecidableEq

/-- The type `glm::ivec3`. -/
structure ivec3 where
  x : Int
  y : Int
  z : Int
deriving DecidableEq

/-- The type `glm::vec2`. -/
structure vec2 where
  x : ℚ
  y : ℚ
deriving DecidableEq

/-- The type `glm::vec3`. -/
structure vec3 where
  x : ℚ
  y : ℚ
  z : ℚ
deriving DecidableEq

instance : Add ivec2 := ⟨fun a b => ⟨a.x + b.x, a.y + b.y⟩⟩
instance : Sub ivec2 := ⟨fun a b => ⟨a.x - b.x, a.y - b.y⟩⟩
instance : Add ivec3 := ⟨fun a b => ⟨a.x + b.x, a.y + b.y, a.z + b.z⟩⟩

/-! ## Single-precision arithmetic -/

/-- The integer nearest to `y`; a `y` halfway between two integers goes to the even one. -/
def round_half_even (y : ℚ) : Int :=
  if y - ⌊y⌋ < 1 / 2 then ⌊y⌋
  else if 1 / 2 < y - ⌊y⌋ then ⌊y⌋ + 1
  else if ⌊y⌋ % 2 = 0 then ⌊y⌋ else ⌊y⌋ + 1

/-- The binary32 value nearest to `x`, ties to even. A float with `2 ^ e ≤ |x| < 2 ^ (e + 1)`
has 24 significant bits, so the floats around `x` are the multiples of `2 ^ (e - 23)`; the
exponent is not taken below `-126` (subnormal numbers). Magnitudes of `2 ^ 128` and more,
which round to an infinity, are beyond every sum of two converted 32-bit integers and are
not represented. -/
def to_float (x : ℚ) : ℚ :=
  let e := max (Int.log 2 |x|) (-126)
  let ulp : ℚ := 2 ^ (e - 23)
  (round_half_even (x / ulp) : ℚ) * ulp

/-- Conversion `glm::vec2(glm::ivec2)`: each `int` is converted to `float`. -/
def ivec2.to_vec2 (v : ivec2) : vec2 := ⟨to_float (v.x : ℚ), to_float (v.y : ℚ)⟩

/-- Conversion `glm::vec3{block_pos}` of an integer vector (line 45): each `int` is
converted to `float`. -/
def ivec3.to_float_vec3 (v : ivec3) : vec3 :=
  ⟨to_float (v.x : ℚ), to_float (v.y : ℚ), to_float (v.z : ℚ)⟩

/-- The sum of two `glm::vec2`: each component is the float sum. -/
def vec2.float_add (a b : vec2) : vec2 := ⟨to_float (a.x + b.x), to_float (a.y + b.y)⟩

/-- The sum of two `glm::vec3`, as in `position += block_offset` (line 61): each component
is the float sum. -/
def vec3.float_add (a b : vec3) : vec3 :=
  ⟨to_float (a.x + b.x), to_float (a.y + b.y), to_float (a.z + b.z)⟩

/-! ## Data model -/

/-- Modelled from the spec: the declaration of `mc_block_definition` is missing from the
sources. The record has a display name, a texture name, an `is_cube` flag and a
transparency flag (what `is_transparent()` answers). -/
structure mc_block_definition where
  name : Option String
  texture_name : Option String
  is_cube : Bool
  is_transparent : Bool
deriving DecidableEq

/-- The value-initialised definition that `operator[]` yields for an absent key:
null strings and cleared flags. -/
def mc_block_definition.value_initialized : mc_block_definition :=
  { name := none, texture_name := none, is_cube := false, is_transparent := false }

/-- A block entry of a chunk; only its `id` is read by the builder. -/
structure mc_block where
  id : Int
deriving DecidableEq

/-- A chunk: the array `blocks` and the chunk coordinate `(x, z)`. -/
structure mc_chunk where
  blocks : List mc_block
  x : Int
  z : Int
deriving DecidableEq

/-- The struct `texture_manager::texture_location` (texture_manager.h, lines 75-79). -/
structure texture_location where
  atlas_id : Nat
  min : ivec2
  max : ivec2
deriving DecidableEq

/-- The enumeration `face_id` of the six directions. -/
inductive face_id where
  | TOP
  | BOTTOM
  | LEFT
  | RIGHT
  | FRONT
  | BACK
deriving DecidableEq

/-- Modelled from the spec: the declaration of `block_vertex` is missing from the sources;
its fields are those printed by `operator<<` (chunk_builder.cpp, lines 280-285), in the
order of the vertex format position, UV, lightmap UV, normal, tangent. -/
structure block_vertex where
  position : vec3
  uv : vec2
  lightmap_uv : vec2
  normal : vec3
  tangent : vec3
deriving DecidableEq

/-- A face quad `block_face`: the array `block_vertex vertices[4]`. -/
structure block_face where
  vertices : Fin 4 → block_vertex

/-- The vertex format tags; the builder only uses one. -/
inductive format where
  | POS
  | POS_UV
  | POS_UV_LIGHTMAPUV_NORMAL_TANGENT
deriving DecidableEq

/-- The struct `mesh_definition` filled by `make_mesh_for_blocks`. -/
structure mesh_definition where
  vertex_format : format
  vertex_data : List ℚ
  indices : List Nat
  position : ivec3
deriving DecidableEq

/-- The state of a `chunk_builder` together with the compile-time chunk dimensions
(`CHUNK_WIDTH`, `CHUNK_HEIGHT`, `CHUNK_DEPTH` are macros whose values are not in the
sources) and the texture manager's `get_texture_location`. -/
structure chunk_builder where
  CHUNK_WIDTH : Int
  CHUNK_HEIGHT : Int
  CHUNK_DEPTH : Int
  block_definitions : List (Int × mc_block_definition)
  get_texture_location : String → texture_location

/-! ## Primitive reads -/

/-- The read `block_definitions[id]`. -/
def chunk_builder.definition (cb : chunk_builder) (id : Int) : mc_block_definition :=
  match cb.block_definitions.lookup id with
  | some d => d
  | none => mc_block_definition.value_initialized

/-- The read `chunk.blocks[i]`; `none` outside the array. -/
def mc_chunk.block (chunk : mc_chunk) (i : Int) : Option mc_block :=
  if 0 ≤ i then chunk.blocks[i.toNat]? else none

/-- The test `strcmp(a, b) == 0`; `none` when a pointer is null. -/
def strcmp_is_zero (a b : Option String) : Option Bool :=
  match a, b with
  | some s, some t => some (decide (s = t))
  | _, _ => none

/-! ## chunk_builder.cpp -/

/-- Lines 162-164. -/
def pos_to_idx (cb : chunk_builder) (pos : ivec3) : Int :=
  pos.x + pos.y * cb.CHUNK_WIDTH + pos.z * cb.CHUNK_WIDTH * cb.CHUNK_HEIGHT

/-- Lines 120-138. -/
def block_at_pos_is_opaque (cb : chunk_builder) (block_pos : ivec3) (chunk : mc_chunk) :
    Option Bool :=
  if block_pos.x < 0 ∨ block_pos.x ≥ cb.CHUNK_WIDTH then some false
  else if block_pos.y < 0 ∨ block_pos.y ≥ cb.CHUNK_HEIGHT then some false
  else if block_pos.z < 0 ∨ block_pos.z ≥ cb.CHUNK_DEPTH then some false
  else
    let block_idx := pos_to_idx cb block_pos
    match chunk.block block_idx with
    | none => none
    | some block => some (!(cb.definition block.id).is_transparent)

/-- Lines 140-160. -/
def block_at_offset_is_same (cb : chunk_builder) (block_pos offset : ivec3) (chunk : mc_chunk) :
    Option Bool :=
  if block_pos.x + offset.x < 0 ∨ block_pos.x + offset.x ≥ cb.CHUNK_WIDTH then some false
  else if block_pos.y + offset.y < 0 ∨ block_pos.y + offset.y ≥ cb.CHUNK_HEIGHT then some false
  else if block_pos.z + offset.z < 0 ∨ block_pos.z + offset.z ≥ cb.CHUNK_DEPTH then some false
  else
    let block_idx := pos_to_idx cb block_pos
    match chunk.block block_idx with
    | none => none
    | some b =>
      let block := cb.definition b.id
      let block_idx2 := pos_to_idx cb (block_pos + offset)
      match chunk.block block_idx2 with
      | none => none
      | some b2 =>
        let block2 := cb.definition b2.id
        strcmp_is_zero block.name block2.name

/-- The C array initialised with four entries, read by index. -/
def array4 {α : Type} (a0 a1 a2 a3 : α) : Fin 4 → α
  | 0 => a0
  | 1 => a1
  | 2 => a2
  | 3 => a3

/-- Lines 166-266. The four positions, four UVs, normal and tangent are assigned by the
branch of the face; `block_face{}` is value-initialised, so `lightmap_uv` stays zero.
`tex_extents` is a difference of integer vectors (line 167). The UVs are floats: `min` and
`max` are converted, `glm::vec2{0, tex_extents.y}` converts the extent, and the sum with
`min` is a float sum (lines 177-179, the same in every branch). -/
def make_quad (which_face : face_id) (size : ℚ) (tex_location : texture_location) : block_face :=
  let tex_extents := tex_location.max - tex_location.min
  let tmin := tex_location.min.to_vec2
  let tmax := tex_location.max.to_vec2
  let uv1 : vec2 := vec2.float_add tmin ⟨0, to_float (tex_extents.y : ℚ)⟩
  let uv2 : vec2 := vec2.float_add tmin ⟨to_float (tex_extents.x : ℚ), 0⟩
  let (positions, uvs, normal, tangent) : (Fin 4 → vec3) × (Fin 4 → vec2) × vec3 × vec3 :=
    match which_face with
    | face_id.LEFT =>
      (array4 ⟨0, 0, 0⟩ ⟨0, 0, size⟩ ⟨0, size, 0⟩ ⟨0, size, size⟩,
        array4 tmin uv1 uv2 tmax, ⟨-1, 0, 0⟩, ⟨0, 0, 1⟩)
    | face_id.RIGHT =>
      (array4 ⟨size, 0, 0⟩ ⟨size, 0, size⟩ ⟨size, size, 0⟩ ⟨size, size, size⟩,
        array4 tmin uv1 uv2 tmax, ⟨1, 0, 0⟩, ⟨0, 0, -1⟩)
    | face_id.BOTTOM =>
      (array4 ⟨0, 0, 0⟩ ⟨0, 0, size⟩ ⟨size, 0, 0⟩ ⟨size, 0, size⟩,
        array4 tmin uv1 uv2 tmax, ⟨0, -1, 0⟩, ⟨-1, 0, 0⟩)
    | face_id.TOP =>
      (array4 ⟨0, size, 0⟩ ⟨0, size, size⟩ ⟨size, size, 0⟩ ⟨size, size, size⟩,
        array4 tmin uv1 uv2 tmax, ⟨0, 1, 0⟩, ⟨1, 0, 0⟩)
    | face_id.BACK =>
      (array4 ⟨0, 0, 0⟩ ⟨0, size, 0⟩ ⟨size, 0, 0⟩ ⟨size, size, 0⟩,
        array4 tmin uv1 uv2 tmax, ⟨0, 0, -1⟩, ⟨-1, 0, 0⟩)
    | face_id.FRONT =>
      (array4 ⟨0, 0, size⟩ ⟨0, size, size⟩ ⟨size, 0, size⟩ ⟨size, size, size⟩,
        array4 tmin uv1 uv2 tmax, ⟨0, 0, 1⟩, ⟨1, 0, 0⟩)
  { vertices := fun i =>
      { position := positions i, uv := uvs i, lightmap_uv := ⟨0, 0⟩,
        normal := normal, tangent := tangent } }

/-- Lines 272-274: the ambient occlusion stub. -/
def get_ao_in_direction (_position : vec3) (_face_to_check : face_id) (_chunk : mc_chunk) : ℚ := 0

/-- The condition of each `if` of lines 84-107,
`!block_at_pos_is_opaque(block_pos + offset, chunk) && !block_at_offset_is_same(block_pos, offset, chunk)`;
the right operand of `&&` is evaluated only when the left one is true. -/
def face_is_needed (cb : chunk_builder) (block_pos offset : ivec3) (chunk : mc_chunk) :
    Option Bool :=
  match block_at_pos_is_opaque cb (block_pos + offset) chunk with
  | none => none
  | some true => some false
  | some false =>
    match block_at_offset_is_same cb block_pos offset chunk with
    | none => none
    | some same => some (!same)

/-- Lines 83-107: the list `faces_to_make`, filled by six tests in the order
TOP, BOTTOM, RIGHT, LEFT, FRONT, BACK. -/
def faces_to_make (cb : chunk_builder) (block_pos : ivec3) (chunk : mc_chunk) :
    Option (List face_id) := do
  let top ← face_is_needed cb block_pos ⟨0, 1, 0⟩ chunk
  let bottom ← face_is_needed cb block_pos ⟨0, -1, 0⟩ chunk
  let right ← face_is_needed cb block_pos ⟨1, 0, 0⟩ chunk
  let left ← face_is_needed cb block_pos ⟨-1, 0, 0⟩ chunk
  let front ← face_is_needed cb block_pos ⟨0, 0, 1⟩ chunk
  let back ← face_is_needed cb block_pos ⟨0, 0, -1⟩ chunk
  pure ((if top then [face_id.TOP] else []) ++ (if bottom then [face_id.BOTTOM] else [])
    ++ (if right then [face_id.RIGHT] else []) ++ (if left then [face_id.LEFT] else [])
    ++ (if front then [face_id.FRONT] else []) ++ (if back then [face_id.BACK] else []))

/-- Lines 82-118. `std::string(texture_name)` needs a non-null pointer; the value `ao` of
`get_ao_in_direction` is computed and not used. -/
def make_geometry_for_block (cb : chunk_builder) (block_pos : ivec3) (chunk : mc_chunk)
    (texture_name : Option String) : Option (List block_face) := do
  let faces ← faces_to_make cb block_pos chunk
  let name ← texture_name
  let tex_location := cb.get_texture_location name
  pure (faces.map (fun face =>
    let _ao := get_ao_in_direction block_pos.to_float_vec3 face chunk
    make_quad face 1 tex_location))

/-- The floats of one vertex, `sizeof(block_vertex) / sizeof(float)` of them starting at
`position.x` (line 62). -/
def block_vertex.floats (v : block_vertex) : List ℚ :=
  [v.position.x, v.position.y, v.position.z, v.uv.x, v.uv.y, v.lightmap_uv.x, v.lightmap_uv.y,
    v.normal.x, v.normal.y, v.normal.z, v.tangent.x, v.tangent.y, v.tangent.z]

/-- The locals `vertices`, `indices` and `cur_index` of `make_mesh_for_blocks`
(lines 40-42); `cur_index` starts at zero and only grows. -/
structure mesh_buffers where
  vertices : List ℚ
  indices : List Nat
  cur_index : Nat
deriving DecidableEq

/-- Lines 59-72: the body of the loop over `faces_for_block`; `position += block_offset` is
a float sum in each component. -/
def put_face (block_offset : vec3) (buf : mesh_buffers) (face : block_face) : mesh_buffers :=
  { vertices := buf.vertices ++ (List.finRange 4).flatMap (fun vert_idx =>
      ({ face.vertices vert_idx with
          position := vec3.float_add (face.vertices vert_idx).position block_offset }).floats)
    indices := buf.indices ++ [0 + buf.cur_index, 1 + buf.cur_index, 2 + buf.cur_index,
      1 + buf.cur_index, 2 + buf.cur_index, 3 + buf.cur_index]
    cur_index := buf.cur_index + 4 }

/-- Lines 45-72: the body of the loop over `blocks`. -/
def put_block (cb : chunk_builder) (chunk : mc_chunk) (buf : mesh_buffers) (block_pos : ivec3) :
    Option mesh_buffers := do
  let block_offset := block_pos.to_float_vec3
  let block_idx := pos_to_idx cb block_pos
  let b ← chunk.block block_idx
  let block := cb.definition b.id
  let faces_for_block ←
    if !(!block.is_cube) then make_geometry_for_block cb block_pos chunk block.texture_name
    else pure []
  pure (faces_for_block.foldl (put_face block_offset) buf)

/-- Lines 44-73: the loop over `blocks`. -/
def put_blocks (cb : chunk_builder) (chunk : mc_chunk) : List ivec3 → mesh_buffers →
    Option mesh_buffers
  | [], buf => some buf
  | block_pos :: rest, buf =>
    match put_block cb chunk buf block_pos with
    | none => none
    | some buf1 => put_blocks cb chunk rest buf1

/-- Lines 36-80. -/
def make_mesh_for_blocks (cb : chunk_builder) (blocks : List ivec3) (chunk : mc_chunk) :
    Option mesh_definition :=
  match put_blocks cb chunk blocks { vertices := [], indices := [], cur_index := 0 } with
  | none => none
  | some buf =>
    some { vertex_format := format.POS_UV_LIGHTMAPUV_NORMAL_TANGENT
           vertex_data := buf.vertices
           indices := buf.indices
           position := ⟨chunk.x, 0, chunk.z⟩ }


/-- The values taken by the counter of a loop `for(int i = 0; i < n; i++)`. -/
def loop_range (n : Int) : List Int := (List.range n.toNat).map (fun (k : Nat) => (k : Int))

/-- Lines 23-29: the body of the innermost loop of `get_blocks_that_match_filter`;
`filter` stands for `filter->matches`. -/
def filter_cell (cb : chunk_builder) (chunk : mc_chunk) (filter : mc_block_definition → Bool)
    (z y : Int) (blocks_that_match_filter : List ivec3) (x : Int) : Option (List ivec3) :=
  let i := x + y * cb.CHUNK_WIDTH + z * cb.CHUNK_WIDTH * cb.CHUNK_HEIGHT
  match chunk.block i with
  | none => none
  | some cur_block =>
    let cur_block_definition := cb.definition cur_block.id
    if filter cur_block_definition then some (blocks_that_match_filter ++ [⟨x, y, z⟩])
    else some blocks_that_match_filter

/-- Lines 18-34: `z` runs below `CHUNK_WIDTH`, `y` below `CHUNK_HEIGHT` and `x` below
`CHUNK_DEPTH`. -/
def get_blocks_that_match_filter (cb : chunk_builder) (chunk : mc_chunk)
    (filter : mc_block_definition → Bool) : Option (List ivec3) :=
  (loop_range cb.CHUNK_WIDTH).foldlM (fun acc z =>
    (loop_range cb.CHUNK_HEIGHT).foldlM (fun acc y =>
      (loop_range cb.CHUNK_DEPTH).foldlM (fun acc x => filter_cell cb chunk filter z y acc x)
        acc) acc) []

/-! ## The definition table as state

The functions above give the value that each call returns. The functions below are the
same code with the effect of `block_definitions[id]` on the table made explicit: each
returns its value together with the builder after the call. -/

/-- The read `block_definitions[id]` and the table after it: an absent key is inserted with
a value-initialised definition. -/
def chunk_builder.definition_st (cb : chunk_builder) (id : Int) :
    mc_block_definition × chunk_builder :=
  match cb.block_definitions.lookup id with
  | some d => (d, cb)
  | none =>
    (mc_block_definition.value_initialized,
      { cb with block_definitions :=
          cb.block_definitions ++ [(id, mc_block_definition.value_initialized)] })

/-- Lines 23-29 with the table as state. -/
def filter_cell_st (chunk : mc_chunk) (filter : mc_block_definition → Bool) (z y : Int)
    (state : List ivec3 × chunk_builder) (x : Int) : Option (List ivec3 × chunk_builder) :=
  let i := x + y * state.2.CHUNK_WIDTH + z * state.2.CHUNK_WIDTH * state.2.CHUNK_HEIGHT
  match chunk.block i with
  | none => none
  | some cur_block =>
    let r := state.2.definition_st cur_block.id
    if filter r.1 then some (state.1 ++ [⟨x, y, z⟩], r.2) else some (state.1, r.2)

/-- Lines 18-34 with the table as state. The macros that bound the loops are constants. -/
def get_blocks_that_match_filter_st (cb : chunk_builder) (chunk : mc_chunk)
    (filter : mc_block_definition → Bool) : Option (List ivec3 × chunk_builder) :=
  (loop_range cb.CHUNK_WIDTH).foldlM (fun state z =>
    (loop_range cb.CHUNK_HEIGHT).foldlM (fun state y =>
      (loop_range cb.CHUNK_DEPTH).foldlM (fun state x => filter_cell_st chunk filter z y state x)
        state) state) ([], cb)

/-- Lines 120-138 with the table as state. -/
def block_at_pos_is_opaque_st (cb : chunk_builder) (block_pos : ivec3) (chunk : mc_chunk) :
    Option (Bool × chunk_builder) :=
  if block_pos.x < 0 ∨ block_pos.x ≥ cb.CHUNK_WIDTH then some (false, cb)
  else if block_pos.y < 0 ∨ block_pos.y ≥ cb.CHUNK_HEIGHT then some (false, cb)
  else if block_pos.z < 0 ∨ block_pos.z ≥ cb.CHUNK_DEPTH then some (false, cb)
  else
    let block_idx := pos_to_idx cb block_pos
    match chunk.block block_idx with
    | none => none
    | some block =>
      let r := cb.definition_st block.id
      some (!r.1.is_transparent, r.2)

/-- Lines 140-160 with the table as state. -/
def block_at_offset_is_same_st (cb : chunk_builder) (block_pos offset : ivec3)
    (chunk : mc_chunk) : Option (Bool × chunk_builder) :=
  if block_pos.x + offset.x < 0 ∨ block_pos.x + offset.x ≥ cb.CHUNK_WIDTH then some (false, cb)
  else if block_pos.y + offset.y < 0 ∨ block_pos.y + offset.y ≥ cb.CHUNK_HEIGHT then
    some (false, cb)
  else if block_pos.z + offset.z < 0 ∨ block_pos.z + offset.z ≥ cb.CHUNK_DEPTH then
    some (false, cb)
  else
    let block_idx := pos_to_idx cb block_pos
    match chunk.block block_idx with
    | none => none
    | some b =>
      let r := cb.definition_st b.id
      let block_idx2 := pos_to_idx cb (block_pos + offset)
      match chunk.block block_idx2 with
      | none => none
      | some b2 =>
        let r2 := r.2.definition_st b2.id
        match strcmp_is_zero r.1.name r2.1.name with
        | none => none
        | some same => some (same, r2.2)

/-- The condition of each `if` of lines 84-107 with the table as state. -/
def face_is_needed_st (cb : chunk_builder) (block_pos offset : ivec3) (chunk : mc_chunk) :
    Option (Bool × chunk_builder) :=
  match block_at_pos_is_opaque_st cb (block_pos + offset) chunk with
  | none => none
  | some (true, cb1) => some (false, cb1)
  | some (false, cb1) =>
    match block_at_offset_is_same_st cb1 block_pos offset chunk with
    | none => none
    | some (same, cb2) => some (!same, cb2)

/-- Lines 83-107 with the table as state. -/
def faces_to_make_st (cb : chunk_builder) (block_pos : ivec3) (chunk : mc_chunk) :
    Option (List face_id × chunk_builder) := do
  let top ← face_is_needed_st cb block_pos ⟨0, 1, 0⟩ chunk
  let bottom ← face_is_needed_st top.2 block_pos ⟨0, -1, 0⟩ chunk
  let right ← face_is_needed_st bottom.2 block_pos ⟨1, 0, 0⟩ chunk
  let left ← face_is_needed_st right.2 block_pos ⟨-1, 0, 0⟩ chunk
  let front ← face_is_needed_st left.2 block_pos ⟨0, 0, 1⟩ chunk
  let back ← face_is_needed_st front.2 block_pos ⟨0, 0, -1⟩ chunk
  pure ((if top.1 then [face_id.TOP] else []) ++ (if bottom.1 then [face_id.BOTTOM] else [])
    ++ (if right.1 then [face_id.RIGHT] else []) ++ (if left.1 then [face_id.LEFT] else [])
    ++ (if front.1 then [face_id.FRONT] else []) ++ (if back.1 then [face_id.BACK] else []),
    back.2)

/-- Lines 82-118 with the table as state. -/
def make_geometry_for_block_st (cb : chunk_builder) (block_pos : ivec3) (chunk : mc_chunk)
    (texture_name : Option String) : Option (List block_face × chunk_builder) := do
  let faces ← faces_to_make_st cb block_pos chunk
  let name ← texture_name
  let tex_location := faces.2.get_texture_location name
  pure (faces.1.map (fun face =>
    let _ao := get_ao_in_direction block_pos.to_float_vec3 face chunk
    make_quad face 1 tex_location), faces.2)

/-- Lines 45-72 with the table as state. -/
def put_block_st (chunk : mc_chunk) (state : mesh_buffers × chunk_builder) (block_pos : ivec3) :
    Option (mesh_buffers × chunk_builder) := do
  let block_offset := block_pos.to_float_vec3
  let block_idx := pos_to_idx state.2 block_pos
  let b ← chunk.block block_idx
  let r := state.2.definition_st b.id
  let faces_for_block ←
    if !(!r.1.is_cube) then make_geometry_for_block_st r.2 block_pos chunk r.1.texture_name
    else pure ([], r.2)
  pure (faces_for_block.1.foldl (put_face block_offset) state.1, faces_for_block.2)

/-- Lines 36-80 with the table as state. -/
def make_mesh_for_blocks_st (cb : chunk_builder) (blocks : List ivec3) (chunk : mc_chunk) :
    Option (mesh_definition × chunk_builder) :=
  match blocks.foldlM (put_block_st chunk)
      ({ vertices := [], indices := [], cur_index := 0 }, cb) with
  | none => none
  | some (buf, cb1) =>
    some ({ vertex_format := format.POS_UV_LIGHTMAPUV_NORMAL_TANGENT
            vertex_data := buf.vertices
            indices := buf.indices
            position := ⟨chunk.x, 0, chunk.z⟩ }, cb1)
/-! ## Vocabulary of the statements -/

/-- The position passes the three bounds checks of lines 122-132. -/
def chunk_builder.in_bounds (cb : chunk_builder) (pos : ivec3) : Prop :=
  (0 ≤ pos.x ∧ pos.x < cb.CHUNK_WIDTH) ∧ (0 ≤ pos.y ∧ pos.y < cb.CHUNK_HEIGHT) ∧
    (0 ≤ pos.z ∧ pos.z < cb.CHUNK_DEPTH)

instance (cb : chunk_builder) (pos : ivec3) : Decidable (cb.in_bounds pos) := by
  unfold chunk_builder.in_bounds; infer_instance

/-- The neighbour offset that lines 84-107 test for each face. -/
def face_id.offset : face_id → ivec3
  | face_id.TOP => ⟨0, 1, 0⟩
  | face_id.BOTTOM => ⟨0, -1, 0⟩
  | face_id.RIGHT => ⟨1, 0, 0⟩
  | face_id.LEFT => ⟨-1, 0, 0⟩
  | face_id.FRONT => ⟨0, 0, 1⟩
  | face_id.BACK => ⟨0, 0, -1⟩

/-- The definition of the block stored at a position,
`block_definitions[chunk.blocks[pos_to_idx(pos)].id]` (lines 47, 134-137, 154-157). -/
def definition_at (cb : chunk_builder) (chunk : mc_chunk) (pos : ivec3) :
    Option mc_block_definition :=
  match chunk.block (pos_to_idx cb pos) with
  | none => none
  | some b => some (cb.definition b.id)

/-- What the C++ types promise of a chunk: the array `blocks` has
`CHUNK_WIDTH * CHUNK_HEIGHT * CHUNK_DEPTH` entries, and the definition of each stored block
has a name that is a string (not a null pointer), and so is the texture name of a cube. -/
def mc_chunk.well_formed (chunk : mc_chunk) (cb : chunk_builder) : Prop :=
  (chunk.blocks.length : Int) = cb.CHUNK_WIDTH * cb.CHUNK_HEIGHT * cb.CHUNK_DEPTH ∧
    ∀ b ∈ chunk.blocks, (cb.definition b.id).name ≠ none ∧
      ((cb.definition b.id).is_cube = true → (cb.definition b.id).texture_name ≠ none)

instance (chunk : mc_chunk) (cb : chunk_builder) : Decidable (chunk.well_formed cb) := by
  unfold mc_chunk.well_formed; infer_instance

/-- The block stored at a position has a transparent definition. -/
def transparent_at (cb : chunk_builder) (chunk : mc_chunk) (pos : ivec3) : Prop :=
  ∃ d, definition_at cb chunk pos = some d ∧ d.is_transparent = true

/-- The blocks stored at two positions have definitions with equal name strings. -/
def same_name_at (cb : chunk_builder) (chunk : mc_chunk) (pos pos2 : ivec3) : Prop :=
  ∃ d d2, definition_at cb chunk pos = some d ∧ definition_at cb chunk pos2 = some d2 ∧
    d.name = d2.name

/-- The face on the other side of the boundary that a face touches. -/
def face_id.opposite : face_id → face_id
  | face_id.TOP => face_id.BOTTOM
  | face_id.BOTTOM => face_id.TOP
  | face_id.RIGHT => face_id.LEFT
  | face_id.LEFT => face_id.RIGHT
  | face_id.FRONT => face_id.BACK
  | face_id.BACK => face_id.FRONT

/-- The index buffer of `Q` quads laid out one after the other: the quad of rank `k` has
the six entries `4k, 4k+1, 4k+2, 4k+1, 4k+2, 4k+3`. -/
def quad_indices (Q : Nat) : List Nat :=
  (List.range Q).flatMap (fun k => [4 * k, 4 * k + 1, 4 * k + 2, 4 * k + 1, 4 * k + 2, 4 * k + 3])

/-- The number of visible faces of a cell: the length of `faces_to_make`. -/
def visible_faces (cb : chunk_builder) (chunk : mc_chunk) (pos : ivec3) : Nat :=
  match faces_to_make cb pos chunk with
  | some faces => faces.length
  | none => 0

/-- The number of quads of a listed block: its visible faces when its definition is a cube,
none otherwise. -/
def quads_of_block (cb : chunk_builder) (chunk : mc_chunk) (pos : ivec3) : Nat :=
  match definition_at cb chunk pos with
  | some d => if d.is_cube then visible_faces cb chunk pos else 0
  | none => 0

/-- The sum over the listed blocks of their numbers of quads. -/
def quad_count (cb : chunk_builder) (chunk : mc_chunk) (blocks : List ivec3) : Nat :=
  (blocks.map (quads_of_block cb chunk)).sum

/-- The three buffers agree on `Q` quads. -/
def mesh_buffers.holds (buf : mesh_buffers) (Q : Nat) : Prop :=
  buf.cur_index = 4 * Q ∧ buf.vertices.length = 4 * Q * 13 ∧ buf.indices = quad_indices Q

instance (cb : chunk_builder) (chunk : mc_chunk) (pos : ivec3) :
    Decidable (transparent_at cb chunk pos) :=
  match h : definition_at cb chunk pos with
  | some d =>
    if ht : d.is_transparent = true then isTrue ⟨d, h, ht⟩
    else isFalse (by
      rintro ⟨e, he, hte⟩
      rw [h] at he
      cases he
      exact ht hte)
  | none => isFalse (by
      rintro ⟨e, he, -⟩
      rw [h] at he
      cases he)

instance (cb : chunk_builder) (chunk : mc_chunk) (pos pos2 : ivec3) :
    Decidable (same_name_at cb chunk pos pos2) :=
  match h : definition_at cb chunk pos, h2 : definition_at cb chunk pos2 with
  | some d, some d2 =>
    if hn : d.name = d2.name then isTrue ⟨d, d2, h, h2, hn⟩
    else isFalse (by
      rintro ⟨e, e2, he, he2, hne⟩
      rw [h] at he
      rw [h2] at he2
      cases he
      cases he2
      exact hn hne)
  | none, _ => isFalse (by
      rintro ⟨e, e2, he, -, -⟩
      rw [h] at he
      cases he)
  | some _, none => isFalse (by
      rintro ⟨e, e2, -, he2, -⟩
      rw [h2] at he2
      cases he2)

/-! ### Vector operations used in the statements

These are the operations of exact arithmetic on rational vectors, without rounding; the
code's own float operations are `ivec3.to_float_vec3`, `vec2.float_add` and
`vec3.float_add`. -/

instance : Add vec3 := ⟨fun a b => ⟨a.x + b.x, a.y + b.y, a.z + b.z⟩⟩

instance : Sub vec3 := ⟨fun a b => ⟨a.x - b.x, a.y - b.y, a.z - b.z⟩⟩

/-- The integer vector read as a vector of rationals, exactly. -/
def ivec3.to_vec3 (v : ivec3) : vec3 := ⟨(v.x : ℚ), (v.y : ℚ), (v.z : ℚ)⟩

/-- The product of a scalar and a vector. -/
def vec3.scale (c : ℚ) (a : vec3) : vec3 := ⟨c * a.x, c * a.y, c * a.z⟩

/-- The dot product. -/
def vec3.dot (a b : vec3) : ℚ := a.x * b.x + a.y * b.y + a.z * b.z

/-- The cross product. -/
def vec3.cross (a b : vec3) : vec3 :=
  ⟨a.y * b.z - a.z * b.y, a.z * b.x - a.x * b.z, a.x * b.y - a.y * b.x⟩

/-- The position of the vertex `i` of `make_quad`. -/
def quad_position (d : face_id) (s : ℚ) (t : texture_location) (i : Fin 4) : vec3 :=
  ((make_quad d s t).vertices i).position

/-! ### Vocabulary for the contents of the mesh -/

/-- The integer is at most `2 ^ 24` in absolute value; every such integer is a binary32
value. -/
def int_fits_float (n : Int) : Prop := -16777216 ≤ n ∧ n ≤ 16777216

instance (n : Int) : Decidable (int_fits_float n) := by
  unfold int_fits_float; infer_instance

/-- The four coordinates of the texture location and its two extents fit a float. -/
def texture_location.fits_float (t : texture_location) : Prop :=
  int_fits_float t.min.x ∧ int_fits_float t.min.y ∧ int_fits_float t.max.x ∧ int_fits_float t.max.y ∧
    int_fits_float (t.max.x - t.min.x) ∧ int_fits_float (t.max.y - t.min.y)

instance (t : texture_location) : Decidable t.fits_float := by
  unfold texture_location.fits_float; infer_instance

/-- The block stored at a position has a definition that is not a cube. -/
def is_non_cube_at (cb : chunk_builder) (chunk : mc_chunk) (pos : ivec3) : Bool :=
  match definition_at cb chunk pos with
  | some d => !d.is_cube
  | none => false

/-- The 13 floats of a vertex whose position is moved by the grid coordinate `p`, as the
code computes them: `p` is converted to float and each sum is a float sum; the other
attributes are kept. -/
def translated_floats (v : block_vertex) (p : ivec3) : List ℚ :=
  [to_float (v.position.x + to_float (p.x : ℚ)), to_float (v.position.y + to_float (p.y : ℚ)),
    to_float (v.position.z + to_float (p.z : ℚ)),
    v.uv.x, v.uv.y, v.lightmap_uv.x, v.lightmap_uv.y,
    v.normal.x, v.normal.y, v.normal.z, v.tangent.x, v.tangent.y, v.tangent.z]

/-- The floats of the four vertices of `make_quad(face, 1, tex)`, translated by `p`. -/
def translated_quad (face : face_id) (tex : texture_location) (p : ivec3) : List ℚ :=
  (List.finRange 4).flatMap (fun i => translated_floats ((make_quad face 1 tex).vertices i) p)

/-- The translated quads of the visible faces of a listed block, in the order of
`faces_to_make`; nothing for a block that is not a cube. -/
def block_vertex_data (cb : chunk_builder) (chunk : mc_chunk) (p : ivec3) : List ℚ :=
  match definition_at cb chunk p with
  | some d =>
    if d.is_cube then
      match d.texture_name, faces_to_make cb p chunk with
      | some name, some faces =>
        faces.flatMap (fun face => translated_quad face (cb.get_texture_location name) p)
      | _, _ => []
    else []
  | none => []

/-! ### Vocabulary for the selector and the definition table -/

/-- The definition of the block stored at `(x, y, z)` satisfies the predicate. -/
def filter_matches_at (cb : chunk_builder) (chunk : mc_chunk)
    (filter : mc_block_definition → Bool) (x y z : Int) : Bool :=
  match definition_at cb chunk ⟨x, y, z⟩ with
  | some d => filter d
  | none => false

/-- The array `blocks` of the chunk has `CHUNK_WIDTH * CHUNK_HEIGHT * CHUNK_DEPTH` entries. -/
def mc_chunk.sized (chunk : mc_chunk) (cb : chunk_builder) : Prop :=
  (chunk.blocks.length : Int) = cb.CHUNK_WIDTH * cb.CHUNK_HEIGHT * cb.CHUNK_DEPTH

instance (chunk : mc_chunk) (cb : chunk_builder) : Decidable (chunk.sized cb) := by
  unfold mc_chunk.sized; infer_instance

/-- The builder `cb1` is `cb` after lookups of ids of blocks of the chunk: the same constants
and texture manager, and the table of `cb` followed by value-initialised entries for ids
that `cb` does not define and that some block of the chunk carries. -/
def table_grows (chunk : mc_chunk) (cb cb1 : chunk_builder) : Prop :=
  cb1.CHUNK_WIDTH = cb.CHUNK_WIDTH ∧ cb1.CHUNK_HEIGHT = cb.CHUNK_HEIGHT ∧
    cb1.CHUNK_DEPTH = cb.CHUNK_DEPTH ∧ cb1.get_texture_location = cb.get_texture_location ∧
    ∃ extra : List (Int × mc_block_definition),
      cb1.block_definitions = cb.block_definitions ++ extra ∧
        ∀ e ∈ extra, e.2 = mc_block_definition.value_initialized ∧
          cb.block_definitions.lookup e.1 = none ∧ ∃ b ∈ chunk.blocks, b.id = e.1

/-- The result of a function with the table as state agrees with the value `v` computed
from the builder `cb`: both fail, or the values are equal and the table has only grown. -/
def refines {α : Type} (chunk : mc_chunk) (cb : chunk_builder)
    (st : Option (α × chunk_builder)) (v : Option α) : Prop :=
  match st with
  | none => v = none
  | some r => v = some r.1 ∧ table_grows chunk cb r.2

/-- The table of `cb1` has an entry for the id of the block stored at index `i` of the chunk,
and the entry is the definition that `cb` reads for that id: the entry of the table of `cb`,
or the value-initialised definition when `cb` has none. -/
def entry_at (chunk : mc_chunk) (cb cb1 : chunk_builder) (i : Int) : Prop :=
  ∃ b, chunk.block i = some b ∧
    cb1.block_definitions.lookup b.id = some (cb.definition b.id) ∧
    (cb.block_definitions.lookup b.id = none →
      cb1.block_definitions.lookup b.id = some mc_block_definition.value_initialized)

instance : Neg vec3 := ⟨fun a => ⟨-a.x, -a.y, -a.z⟩⟩

/-- The normal of `make_quad`, the same at its four vertices; read at vertex 0. -/
def quad_normal (d : face_id) (s : ℚ) (t : texture_location) : vec3 :=
  ((make_quad d s t).vertices 0).normal

/-- The tangent of `make_quad`, the same at its four vertices; read at vertex 0. -/
def quad_tangent (d : face_id) (s : ℚ) (t : texture_location) : vec3 :=
  ((make_quad d s t).vertices 0).tangent

/-- The vector is plus or minus a vector of the canonical basis. -/
def vec3.is_unit_axis (a : vec3) : Prop :=
  a = ⟨1, 0, 0⟩ ∨ a = ⟨-1, 0, 0⟩ ∨ a = ⟨0, 1, 0⟩ ∨ a = ⟨0, -1, 0⟩ ∨ a = ⟨0, 0, 1⟩ ∨
    a = ⟨0, 0, -1⟩

/-- The strict lexicographic order on `(z, y, x)`. -/
def zyx_lt (a b : ivec3) : Prop :=
  a.z < b.z ∨ (a.z = b.z ∧ (a.y < b.y ∨ (a.y = b.y ∧ a.x < b.x)))

instance (a b : ivec3) : Decidable (zyx_lt a b) := by
  unfold zyx_lt; infer_instance

/-- The number of faces of the cell `p` that lie on the boundary of the chunk: one for
each direction in which the next cell leaves the bounds. -/
def hull_faces (cb : chunk_builder) (p : ivec3) : Nat :=
  (if cb.CHUNK_HEIGHT ≤ p.y + 1 then 1 else 0) + (if p.y - 1 < 0 then 1 else 0)
    + (if cb.CHUNK_WIDTH ≤ p.x + 1 then 1 else 0) + (if p.x - 1 < 0 then 1 else 0)
    + (if cb.CHUNK_DEPTH ≤ p.z + 1 then 1 else 0) + (if p.z - 1 < 0 then 1 else 0)

/-! ## Example data -/

/-- An opaque cube named stone. -/
def stone : mc_block_definition :=
  { name := some "stone", texture_name := some "stone", is_cube := true, is_transparent := false }

/-- An opaque cube named dirt. -/
def dirt : mc_block_definition :=
  { name := some "dirt", texture_name := some "dirt", is_cube := true, is_transparent := false }

/-- A transparent cube named glass. -/
def glass : mc_block_definition :=
  { name := some "glass", texture_name := some "glass", is_cube := true, is_transparent := true }

/-- A transparent cube named water. -/
def water : mc_block_definition :=
  { name := some "water", texture_name := some "water", is_cube := true, is_transparent := true }

/-- A builder for chunks of two cells along x, with four definitions and an atlas whose
textures all cover the unit square. -/
def pair_builder : chunk_builder :=
  { CHUNK_WIDTH := 2, CHUNK_HEIGHT := 1, CHUNK_DEPTH := 1
    block_definitions := [(1, stone), (2, dirt), (3, glass), (4, water)]
    get_texture_location := fun _ => { atlas_id := 0, min := ⟨0, 0⟩, max := ⟨1, 1⟩ } }

/-- Stone at x = 0 and glass at x = 1. -/
def stone_glass_chunk : mc_chunk := { blocks := [⟨1⟩, ⟨3⟩], x := 0, z := 0 }

/-- Stone in both cells. -/
def stone_stone_chunk : mc_chunk := { blocks := [⟨1⟩, ⟨1⟩], x := 0, z := 0 }

/-- Stone at x = 0 and dirt at x = 1. -/
def stone_dirt_chunk : mc_chunk := { blocks := [⟨1⟩, ⟨2⟩], x := 0, z := 0 }

/-- Glass at x = 0 and water at x = 1. -/
def glass_water_chunk : mc_chunk := { blocks := [⟨3⟩, ⟨4⟩], x := 0, z := 0 }

/-- A builder for chunks of 3 x 3 x 3 cells with 27 opaque cube definitions of pairwise
different names. -/
def cube27_builder : chunk_builder :=
  { CHUNK_WIDTH := 3, CHUNK_HEIGHT := 3, CHUNK_DEPTH := 3
    block_definitions := [
      (0, { name := some "b0", texture_name := some "b0", is_cube := true, is_transparent := false }),
      (1, { name := some "b1", texture_name := some "b1", is_cube := true, is_transparent := false }),
      (2, { name := some "b2", texture_name := some "b2", is_cube := true, is_transparent := false }),
      (3, { name := some "b3", texture_name := some "b3", is_cube := true, is_transparent := false }),
      (4, { name := some "b4", texture_name := some "b4", is_cube := true, is_transparent := false }),
      (5, { name := some "b5", texture_name := some "b5", is_cube := true, is_transparent := false }),
      (6, { name := some "b6", texture_name := some "b6", is_cube := true, is_transparent := false }),
      (7, { name := some "b7", texture_name := some "b7", is_cube := true, is_transparent := false }),
      (8, { name := some "b8", texture_name := some "b8", is_cube := true, is_transparent := false }),
      (9, { name := some "b9", texture_name := some "b9", is_cube := true, is_transparent := false }),
      (10, { name := some "b10", texture_name := some "b10", is_cube := true, is_transparent := false }),
      (11, { name := some "b11", texture_name := some "b11", is_cube := true, is_transparent := false }),
      (12, { name := some "b12", texture_name := some "b12", is_cube := true, is_transparent := false }),
      (13, { name := some "b13", texture_name := some "b13", is_cube := true, is_transparent := false }),
      (14, { name := some "b14", texture_name := some "b14", is_cube := true, is_transparent := false }),
      (15, { name := some "b15", texture_name := some "b15", is_cube := true, is_transparent := false }),
      (16, { name := some "b16", texture_name := some "b16", is_cube := true, is_transparent := false }),
      (17, { name := some "b17", texture_name := some "b17", is_cube := true, is_transparent := false }),
      (18, { name := some "b18", texture_name := some "b18", is_cube := true, is_transparent := false }),
      (19, { name := some "b19", texture_name := some "b19", is_cube := true, is_transparent := false }),
      (20, { name := some "b20", texture_name := some "b20", is_cube := true, is_transparent := false }),
      (21, { name := some "b21", texture_name := some "b21", is_cube := true, is_transparent := false }),
      (22, { name := some "b22", texture_name := some "b22", is_cube := true, is_transparent := false }),
      (23, { name := some "b23", texture_name := some "b23", is_cube := true, is_transparent := false }),
      (24, { name := some "b24", texture_name := some "b24", is_cube := true, is_transparent := false }),
      (25, { name := some "b25", texture_name := some "b25", is_cube := true, is_transparent := false }),
      (26, { name := some "b26", texture_name := some "b26", is_cube := true, is_transparent := false })]
    get_texture_location := fun _ => { atlas_id := 0, min := ⟨0, 0⟩, max := ⟨1, 1⟩ } }

/-- The chunk whose cell of index `i` holds the block of id `i`; the cell `(1, 1, 1)` has
index 13 and all its six neighbours are in bounds. -/
def cube27_chunk : mc_chunk :=
  { blocks := [⟨0⟩, ⟨1⟩, ⟨2⟩, ⟨3⟩, ⟨4⟩, ⟨5⟩, ⟨6⟩, ⟨7⟩, ⟨8⟩, ⟨9⟩, ⟨10⟩, ⟨11⟩, ⟨12⟩, ⟨13⟩, ⟨14⟩, ⟨15⟩, ⟨16⟩, ⟨17⟩, ⟨18⟩, ⟨19⟩, ⟨20⟩, ⟨21⟩, ⟨22⟩, ⟨23⟩, ⟨24⟩, ⟨25⟩, ⟨26⟩], x := 0, z := 0 }

/-- A builder for chunks of a single cell. -/
def single_builder : chunk_builder :=
  { CHUNK_WIDTH := 1, CHUNK_HEIGHT := 1, CHUNK_DEPTH := 1
    block_definitions := [(1, stone), (2, dirt), (3, glass), (4, water)]
    get_texture_location := fun _ => { atlas_id := 0, min := ⟨0, 0⟩, max := ⟨1, 1⟩ } }

/-- The chunk of one stone block. -/
def single_stone_chunk : mc_chunk := { blocks := [⟨1⟩], x := 0, z := 0 }

/-- The texture location that covers the unit square of the atlas. -/
def unit_texture : texture_location := { atlas_id := 0, min := ⟨0, 0⟩, max := ⟨1, 1⟩ }

/-- A texture location whose height `1 - (-16777216) = 16777217` is not a binary32 value. -/
def tall_texture : texture_location :=
  { atlas_id := 0, min := ⟨0, -16777216⟩, max := ⟨1, 1⟩ }

/-- A definition that is not a cube. -/
def torch : mc_block_definition :=
  { name := some "torch", texture_name := some "torch", is_cube := false, is_transparent := true }

/-- A builder for chunks of two cells along x that knows stone and the torch. -/
def torch_builder : chunk_builder :=
  { CHUNK_WIDTH := 2, CHUNK_HEIGHT := 1, CHUNK_DEPTH := 1
    block_definitions := [(1, stone), (5, torch)]
    get_texture_location := fun _ => { atlas_id := 0, min := ⟨0, 0⟩, max := ⟨1, 1⟩ } }

/-- Stone at x = 0 and a torch at x = 1. -/
def stone_torch_chunk : mc_chunk := { blocks := [⟨1⟩, ⟨5⟩], x := 0, z := 0 }

/-- A builder for chunks of one cell along x and two cells along z. -/
def deep_builder : chunk_builder :=
  { CHUNK_WIDTH := 1, CHUNK_HEIGHT := 1, CHUNK_DEPTH := 2
    block_definitions := [(1, stone), (2, dirt), (3, glass), (4, water)]
    get_texture_location := fun _ => { atlas_id := 0, min := ⟨0, 0⟩, max := ⟨1, 1⟩ } }

/-- Stone at z = 0 and dirt at z = 1. -/
def deep_chunk : mc_chunk := { blocks := [⟨1⟩, ⟨2⟩], x := 0, z := 0 }

/-- A chunk of one cell whose block id 99 has no definition in `single_builder`. -/
def unknown_block_chunk : mc_chunk := { blocks := [⟨99⟩], x := 0, z := 0 }

/-! ## Auxiliary lemmas -/

/-! ### Single-precision arithmetic -/

theorem round_half_even_int (m : Int) : round_half_even (m : ℚ) = m := by
  simp [round_half_even]

theorem round_half_even_half (m : Int) :
    round_half_even ((m : ℚ) + 1 / 2) = if m % 2 = 0 then m else m + 1 := by
  have hf : ⌊(m : ℚ) + 1 / 2⌋ = m := by
    rw [Int.floor_eq_iff]; constructor <;> norm_num
  unfold round_half_even
  rw [hf]
  norm_num

theorem to_float_of_multiple (x : ℚ) (m : Int)
    (h : x = (m : ℚ) * 2 ^ (max (Int.log 2 |x|) (-126) - 23)) : to_float x = x := by
  unfold to_float
  have hp : (2 : ℚ) ^ (max (Int.log 2 |x|) (-126) - 23) ≠ 0 := zpow_ne_zero _ (by norm_num)
  have hd : x / 2 ^ (max (Int.log 2 |x|) (-126) - 23) = (m : ℚ) := by
    rw [div_eq_iff hp]; exact h
  simp only [hd, round_half_even_int]
  exact h.symm

theorem float_log_int (n : Int) (hn : n ≠ 0) (hb : |n| ≤ 16777216) :
    0 ≤ Int.log 2 |(n : ℚ)| ∧ Int.log 2 |(n : ℚ)| ≤ 24 := by
  have hpos : (0 : ℚ) < |(n : ℚ)| := abs_pos.mpr (by exact_mod_cast hn)
  have h1 : (1 : ℚ) ≤ |(n : ℚ)| := by
    have : (1 : Int) ≤ |n| := Int.one_le_abs hn
    exact_mod_cast this
  constructor
  · rw [← Int.zpow_le_iff_le_log (by norm_num) hpos]; simpa using h1
  · have : Int.log 2 |(n : ℚ)| < 25 := by
      rw [← Int.lt_zpow_iff_log_lt (by norm_num) hpos]
      have : |(n : ℚ)| ≤ 16777216 := by exact_mod_cast hb
      norm_num
      linarith
    omega

theorem to_float_int (n : Int) (hb : |n| ≤ 16777216) : to_float (n : ℚ) = (n : ℚ) := by
  by_cases hn : n = 0
  · subst hn; simp [to_float, round_half_even]
  obtain ⟨h0, h24⟩ := float_log_int n hn hb
  have hpos : (0 : ℚ) < |(n : ℚ)| := abs_pos.mpr (by exact_mod_cast hn)
  have hmax : max (Int.log 2 |(n : ℚ)|) (-126) = Int.log 2 |(n : ℚ)| := by omega
  by_cases h23 : Int.log 2 |(n : ℚ)| ≤ 23
  · apply to_float_of_multiple _ (n * 2 ^ (23 - Int.log 2 |(n : ℚ)|).toNat)
    rw [hmax]
    have e1 : ((23 - Int.log 2 |(n : ℚ)|).toNat : Int) = 23 - Int.log 2 |(n : ℚ)| :=
      Int.toNat_of_nonneg (by omega)
    push_cast
    rw [← zpow_natCast, e1, mul_assoc, ← zpow_add₀ (by norm_num)]
    simp
  · have h24e : Int.log 2 |(n : ℚ)| = 24 := by omega
    have hle : (2 : ℚ) ^ (24 : Int) ≤ |(n : ℚ)| := by
      have := Int.zpow_log_le_self (b := 2) (by norm_num) hpos
      rw [h24e] at this
      exact_mod_cast this
    have habs : |n| = 16777216 := by
      have : (16777216 : ℚ) ≤ |(n : ℚ)| := by norm_num at hle; exact hle
      have : (16777216 : Int) ≤ |n| := by exact_mod_cast this
      omega
    apply to_float_of_multiple _ (n / 2)
    rw [hmax, h24e]
    have hdvd : (2 : Int) ∣ n := by
      rcases abs_eq (by norm_num : (0 : Int) ≤ 16777216) |>.mp habs with h | h <;>
        (rw [h]; decide)
    obtain ⟨k, hk⟩ := hdvd
    subst hk
    simp [mul_comm]

theorem to_float_16777217 : to_float 16777217 = 16777216 := by
  have hl : Int.log 2 |(16777217 : ℚ)| = 24 := by
    have : |(16777217 : ℚ)| = ((16777217 : Nat) : ℚ) := by norm_num
    rw [this, Int.log_natCast]
    have : Nat.log 2 16777217 = 24 := by
      rw [Nat.log_eq_iff (by norm_num)]; norm_num
    simp [this]
  unfold to_float
  rw [hl]
  have : (16777217 : ℚ) / 2 ^ (max (24 : Int) (-126) - 23) = ((8388608 : Int) : ℚ) + 1 / 2 := by
    norm_num
  simp only [this, round_half_even_half]
  norm_num

theorem to_float_neg_16777217 : to_float (-16777217) = -16777216 := by
  have hl : Int.log 2 |(-16777217 : ℚ)| = 24 := by
    have : |(-16777217 : ℚ)| = ((16777217 : Nat) : ℚ) := by norm_num
    rw [this, Int.log_natCast]
    have : Nat.log 2 16777217 = 24 := by
      rw [Nat.log_eq_iff (by norm_num)]; norm_num
    simp [this]
  unfold to_float
  rw [hl]
  have : (-16777217 : ℚ) / 2 ^ (max (24 : Int) (-126) - 23) = ((-8388609 : Int) : ℚ) + 1 / 2 := by
    norm_num
  simp only [this, round_half_even_half]
  norm_num

theorem to_float_zero : to_float 0 = 0 := by simp [to_float, round_half_even]

theorem to_float_one : to_float 1 = 1 := by simpa using to_float_int 1 (by decide)

theorem to_float_int_add (s n : Int) (h1 : |n| ≤ 16777216) (h2 : |s + n| ≤ 16777216) :
    to_float ((s : ℚ) + to_float (n : ℚ)) = (s : ℚ) + (n : ℚ) := by
  rw [to_float_int n h1]
  have := to_float_int (s + n) h2
  push_cast at this
  exact this

theorem to_float_fits (n : Int) (h : int_fits_float n) : to_float (n : ℚ) = (n : ℚ) :=
  to_float_int n (abs_le.mpr h)

theorem to_float_shift_zero (n : Int) (h1 : -16777216 ≤ n) (h2 : n < 16777216) :
    to_float (0 + to_float (n : ℚ)) = 0 + (n : ℚ) := by
  have := to_float_int_add 0 n (abs_le.mpr ⟨by omega, by omega⟩)
    (abs_le.mpr ⟨by omega, by omega⟩)
  simpa using this

theorem to_float_shift_one (n : Int) (h1 : -16777216 ≤ n) (h2 : n < 16777216) :
    to_float (1 + to_float (n : ℚ)) = 1 + (n : ℚ) := by
  have := to_float_int_add 1 n (abs_le.mpr ⟨by omega, by omega⟩)
    (abs_le.mpr ⟨by omega, by omega⟩)
  simpa using this

theorem ivec2_sub_x (a b : ivec2) : (a - b).x = a.x - b.x := rfl

theorem ivec2_sub_y (a b : ivec2) : (a - b).y = a.y - b.y := rfl

/-! ### Cells and faces -/

theorem pos_to_idx_range (cb : chunk_builder) (pos : ivec3) (h : cb.in_bounds pos) :
    0 ≤ pos_to_idx cb pos ∧
      pos_to_idx cb pos < cb.CHUNK_WIDTH * cb.CHUNK_HEIGHT * cb.CHUNK_DEPTH := by
  obtain ⟨⟨hx0, hx1⟩, ⟨hy0, hy1⟩, ⟨hz0, hz1⟩⟩ := h
  unfold pos_to_idx
  have hW : 0 ≤ cb.CHUNK_WIDTH := by omega
  have hH : 0 ≤ cb.CHUNK_HEIGHT := by omega
  have hWH : 0 ≤ cb.CHUNK_WIDTH * cb.CHUNK_HEIGHT := mul_nonneg hW hH
  have h1 : 0 ≤ pos.y * cb.CHUNK_WIDTH := mul_nonneg hy0 hW
  have h2 : 0 ≤ pos.z * cb.CHUNK_WIDTH * cb.CHUNK_HEIGHT := by
    rw [mul_assoc]; exact mul_nonneg hz0 hWH
  have h3 : pos.y * cb.CHUNK_WIDTH ≤ (cb.CHUNK_HEIGHT - 1) * cb.CHUNK_WIDTH :=
    mul_le_mul_of_nonneg_right (by omega) hW
  have h4 : pos.z * (cb.CHUNK_WIDTH * cb.CHUNK_HEIGHT) ≤
      (cb.CHUNK_DEPTH - 1) * (cb.CHUNK_WIDTH * cb.CHUNK_HEIGHT) :=
    mul_le_mul_of_nonneg_right (by omega) hWH
  constructor
  · omega
  · nlinarith

theorem block_of_in_bounds (cb : chunk_builder) (chunk : mc_chunk) (pos : ivec3)
    (hwf : chunk.well_formed cb) (h : cb.in_bounds pos) :
    ∃ b, chunk.block (pos_to_idx cb pos) = some b ∧ b ∈ chunk.blocks := by
  obtain ⟨h0, h1⟩ := pos_to_idx_range cb pos h
  have hlt : (pos_to_idx cb pos).toNat < chunk.blocks.length := by
    have := hwf.1
    omega
  refine ⟨chunk.blocks[(pos_to_idx cb pos).toNat], ?_, List.getElem_mem _⟩
  simp [mc_chunk.block, h0, List.getElem?_eq_getElem hlt]

theorem definition_of_in_bounds (cb : chunk_builder) (chunk : mc_chunk) (pos : ivec3)
    (hwf : chunk.well_formed cb) (h : cb.in_bounds pos) :
    ∃ d s, definition_at cb chunk pos = some d ∧ d.name = some s := by
  obtain ⟨b, hb, hmem⟩ := block_of_in_bounds cb chunk pos hwf h
  have hn := (hwf.2 b hmem).1
  obtain ⟨s, hs⟩ := Option.ne_none_iff_exists'.mp hn
  exact ⟨cb.definition b.id, s, by simp [definition_at, hb], hs⟩

theorem ivec3_add_x (a b : ivec3) : (a + b).x = a.x + b.x := rfl

theorem ivec3_add_y (a b : ivec3) : (a + b).y = a.y + b.y := rfl

theorem ivec3_add_z (a b : ivec3) : (a + b).z = a.z + b.z := rfl

theorem is_opaque_out_of_bounds (cb : chunk_builder) (chunk : mc_chunk) (q : ivec3)
    (h : ¬ cb.in_bounds q) : block_at_pos_is_opaque cb q chunk = some false := by
  unfold block_at_pos_is_opaque
  unfold chunk_builder.in_bounds at h
  split_ifs with h1 h2 h3
  · rfl
  · rfl
  · rfl
  · exfalso; apply h; omega

theorem is_opaque_in_bounds (cb : chunk_builder) (chunk : mc_chunk) (q : ivec3)
    (d : mc_block_definition) (h : cb.in_bounds q) (hd : definition_at cb chunk q = some d) :
    block_at_pos_is_opaque cb q chunk = some (!d.is_transparent) := by
  unfold block_at_pos_is_opaque
  unfold chunk_builder.in_bounds at h
  unfold definition_at at hd
  rw [if_neg (by omega), if_neg (by omega), if_neg (by omega)]
  cases hb : chunk.block (pos_to_idx cb q) with
  | none => simp [hb] at hd
  | some b =>
    simp only [hb, Option.some.injEq] at hd
    simp [hb, hd]

theorem is_same_out_of_bounds (cb : chunk_builder) (chunk : mc_chunk) (p off : ivec3)
    (h : ¬ cb.in_bounds (p + off)) : block_at_offset_is_same cb p off chunk = some false := by
  unfold block_at_offset_is_same
  unfold chunk_builder.in_bounds at h
  simp only [ivec3_add_x, ivec3_add_y, ivec3_add_z] at h
  split_ifs with h1 h2 h3
  · rfl
  · rfl
  · rfl
  · exfalso; apply h; omega

theorem is_same_in_bounds (cb : chunk_builder) (chunk : mc_chunk) (p off : ivec3)
    (d d2 : mc_block_definition) (h : cb.in_bounds (p + off))
    (hd : definition_at cb chunk p = some d) (hd2 : definition_at cb chunk (p + off) = some d2) :
    block_at_offset_is_same cb p off chunk = strcmp_is_zero d.name d2.name := by
  unfold block_at_offset_is_same
  unfold chunk_builder.in_bounds at h
  simp only [ivec3_add_x, ivec3_add_y, ivec3_add_z] at h
  unfold definition_at at hd hd2
  rw [if_neg (by omega), if_neg (by omega), if_neg (by omega)]
  cases hb : chunk.block (pos_to_idx cb p) with
  | none => simp [hb] at hd
  | some b =>
    cases hb2 : chunk.block (pos_to_idx cb (p + off)) with
    | none => simp [hb2] at hd2
    | some b2 =>
      simp only [hb, hb2, Option.some.injEq] at hd hd2
      simp [hb, hb2, hd, hd2]

/-- The visibility test of one face, in terms of the definitions of the two cells. -/
theorem face_is_needed_spec (cb : chunk_builder) (chunk : mc_chunk) (p off : ivec3)
    (hwf : chunk.well_formed cb) (hp : cb.in_bounds p) :
    ∃ b, face_is_needed cb p off chunk = some b ∧
      (b = true ↔
        ((¬ cb.in_bounds (p + off) ∨
            ∃ dn, definition_at cb chunk (p + off) = some dn ∧ dn.is_transparent = true) ∧
          ¬ (cb.in_bounds (p + off) ∧
              ∃ dn dp, definition_at cb chunk (p + off) = some dn ∧
                definition_at cb chunk p = some dp ∧ dn.name = dp.name))) := by
  unfold face_is_needed
  by_cases hq : cb.in_bounds (p + off)
  · obtain ⟨dn, sn, hdn, hsn⟩ := definition_of_in_bounds cb chunk (p + off) hwf hq
    obtain ⟨dp, sp, hdp, hsp⟩ := definition_of_in_bounds cb chunk p hwf hp
    rw [is_opaque_in_bounds cb chunk (p + off) dn hq hdn,
      is_same_in_bounds cb chunk p off dp dn hq hdp hdn]
    cases ht : dn.is_transparent
    · refine ⟨false, by simp, ?_⟩
      simp [hq, hdn, ht]
    · refine ⟨!decide (sp = sn), by simp [hsn, hsp, strcmp_is_zero], ?_⟩
      have hc : (sn = sp) ↔ (sp = sn) := eq_comm
      simp [hq, hdn, hdp, ht, hsn, hsp, hc]
  · rw [is_opaque_out_of_bounds cb chunk (p + off) hq,
      is_same_out_of_bounds cb chunk p off hq]
    exact ⟨true, rfl, by simp [hq]⟩

/-- The list `faces_to_make` when the six tests have a result. -/
theorem faces_to_make_eq (cb : chunk_builder) (chunk : mc_chunk) (p : ivec3)
    (b1 b2 b3 b4 b5 b6 : Bool)
    (h1 : face_is_needed cb p ⟨0, 1, 0⟩ chunk = some b1)
    (h2 : face_is_needed cb p ⟨0, -1, 0⟩ chunk = some b2)
    (h3 : face_is_needed cb p ⟨1, 0, 0⟩ chunk = some b3)
    (h4 : face_is_needed cb p ⟨-1, 0, 0⟩ chunk = some b4)
    (h5 : face_is_needed cb p ⟨0, 0, 1⟩ chunk = some b5)
    (h6 : face_is_needed cb p ⟨0, 0, -1⟩ chunk = some b6) :
    faces_to_make cb p chunk =
      some ((if b1 then [face_id.TOP] else []) ++ (if b2 then [face_id.BOTTOM] else [])
        ++ (if b3 then [face_id.RIGHT] else []) ++ (if b4 then [face_id.LEFT] else [])
        ++ (if b5 then [face_id.FRONT] else []) ++ (if b6 then [face_id.BACK] else [])) := by
  simp only [faces_to_make, h1, h2, h3, h4, h5, h6, Option.bind_eq_bind,
    Option.some_bind, Option.pure_def]

/-- The faces chosen for an in-bounds cell of a well-formed chunk: the list exists, has no
repetition, and holds exactly the faces whose test succeeds. -/
theorem faces_to_make_spec (cb : chunk_builder) (chunk : mc_chunk) (p : ivec3)
    (hwf : chunk.well_formed cb) (hp : cb.in_bounds p) :
    ∃ l, faces_to_make cb p chunk = some l ∧ l.Nodup ∧
      ∀ d : face_id, d ∈ l ↔ face_is_needed cb p d.offset chunk = some true := by
  obtain ⟨b1, h1, -⟩ := face_is_needed_spec cb chunk p ⟨0, 1, 0⟩ hwf hp
  obtain ⟨b2, h2, -⟩ := face_is_needed_spec cb chunk p ⟨0, -1, 0⟩ hwf hp
  obtain ⟨b3, h3, -⟩ := face_is_needed_spec cb chunk p ⟨1, 0, 0⟩ hwf hp
  obtain ⟨b4, h4, -⟩ := face_is_needed_spec cb chunk p ⟨-1, 0, 0⟩ hwf hp
  obtain ⟨b5, h5, -⟩ := face_is_needed_spec cb chunk p ⟨0, 0, 1⟩ hwf hp
  obtain ⟨b6, h6, -⟩ := face_is_needed_spec cb chunk p ⟨0, 0, -1⟩ hwf hp
  refine ⟨_, faces_to_make_eq cb chunk p b1 b2 b3 b4 b5 b6 h1 h2 h3 h4 h5 h6, ?_, ?_⟩
  · cases b1 <;> cases b2 <;> cases b3 <;> cases b4 <;> cases b5 <;> cases b6 <;> decide
  · intro d
    cases d <;> simp only [face_id.offset, h1, h2, h3, h4, h5, h6] <;>
      cases b1 <;> cases b2 <;> cases b3 <;> cases b4 <;> cases b5 <;> cases b6 <;> simp

theorem make_quad_normal (d : face_id) (s : ℚ) (t : texture_location) (i : Fin 4) :
    ((make_quad d s t).vertices i).normal = d.offset.to_vec3 := by
  cases d <;> simp [make_quad, face_id.offset, ivec3.to_vec3]

theorem offset_to_vec3_injective (d e : face_id) (h : d.offset.to_vec3 = e.offset.to_vec3) :
    d = e := by
  cases d <;> cases e <;> first | rfl | (exfalso; revert h; simp [face_id.offset, ivec3.to_vec3]; try norm_num)

theorem make_quad_injective (d e : face_id) (s : ℚ) (t : texture_location)
    (h : make_quad d s t = make_quad e s t) : d = e := by
  apply offset_to_vec3_injective
  rw [← make_quad_normal d s t 0, ← make_quad_normal e s t 0, h]

/-- What `make_geometry_for_block` returns for an in-bounds cell of a well-formed chunk:
the quads of the faces whose test succeeds, each once. -/
theorem geometry_spec (cb : chunk_builder) (chunk : mc_chunk) (p : ivec3) (name : String)
    (hwf : chunk.well_formed cb) (hp : cb.in_bounds p) :
    ∃ faces, faces_to_make cb p chunk = some faces ∧ faces.Nodup ∧
      make_geometry_for_block cb p chunk (some name) =
        some (faces.map (fun face => make_quad face 1 (cb.get_texture_location name))) ∧
      ∀ d : face_id, (d ∈ faces ↔
        ((¬ cb.in_bounds (p + d.offset) ∨ transparent_at cb chunk (p + d.offset)) ∧
          ¬ (cb.in_bounds (p + d.offset) ∧ same_name_at cb chunk (p + d.offset) p))) := by
  obtain ⟨l, hl, hnd, hmem⟩ := faces_to_make_spec cb chunk p hwf hp
  refine ⟨l, hl, hnd, by simp [make_geometry_for_block, hl], ?_⟩
  intro d
  obtain ⟨b, hb, hiff⟩ := face_is_needed_spec cb chunk p d.offset hwf hp
  rw [hmem d, hb]
  unfold transparent_at same_name_at
  rw [← hiff]
  simp

theorem mem_map_make_quad (faces : List face_id) (d : face_id) (s : ℚ) (t : texture_location) :
    make_quad d s t ∈ faces.map (fun face => make_quad face s t) ↔ d ∈ faces := by
  constructor
  · intro h
    obtain ⟨e, he, heq⟩ := List.mem_map.mp h
    rw [make_quad_injective d e s t heq.symm]
    exact he
  · intro h
    exact List.mem_map.mpr ⟨d, h, rfl⟩

theorem ivec3_eq (a b : ivec3) (hx : a.x = b.x) (hy : a.y = b.y) (hz : a.z = b.z) : a = b := by
  cases a; cases b; simp_all

theorem add_offset_opposite (p : ivec3) (d : face_id) :
    p + d.offset + d.opposite.offset = p := by
  apply ivec3_eq <;> cases d <;>
    simp [ivec3_add_x, ivec3_add_y, ivec3_add_z, face_id.offset, face_id.opposite]

theorem same_name_at_symm (cb : chunk_builder) (chunk : mc_chunk) (p q : ivec3)
    (h : same_name_at cb chunk p q) : same_name_at cb chunk q p := by
  obtain ⟨d, d2, h1, h2, h3⟩ := h
  exact ⟨d2, d, h2, h1, h3.symm⟩

theorem block_mem_of_definition_at (cb : chunk_builder) (chunk : mc_chunk) (q : ivec3)
    (d : mc_block_definition) (h : definition_at cb chunk q = some d) :
    ∃ b ∈ chunk.blocks, cb.definition b.id = d := by
  unfold definition_at mc_chunk.block at h
  split at h
  · exact absurd h (by simp)
  · rename_i b hb
    split_ifs at hb
    exact ⟨b, List.getElem?_mem hb, by simpa using h⟩

/-! ### The index layout -/

theorem quad_indices_succ (Q : Nat) :
    quad_indices (Q + 1) =
      quad_indices Q ++ [4 * Q, 4 * Q + 1, 4 * Q + 2, 4 * Q + 1, 4 * Q + 2, 4 * Q + 3] := by
  simp [quad_indices, List.range_succ, List.flatMap_append]

theorem quad_indices_length (Q : Nat) : (quad_indices Q).length = 6 * Q := by
  induction Q with
  | zero => simp [quad_indices]
  | succ n ih => rw [quad_indices_succ, List.length_append, ih]; simp; omega

theorem quad_indices_lt (Q i : Nat) (h : i ∈ quad_indices Q) : i < 4 * Q := by
  unfold quad_indices at h
  obtain ⟨k, hk, hi⟩ := List.mem_flatMap.mp h
  have hk1 := List.mem_range.mp hk
  simp at hi
  omega

theorem quad_indices_block (Q k : Nat) (h : k < Q) :
    ((quad_indices Q).drop (6 * k)).take 6 =
      [4 * k, 4 * k + 1, 4 * k + 2, 4 * k + 1, 4 * k + 2, 4 * k + 3] := by
  induction Q with
  | zero => omega
  | succ n ih =>
    rw [quad_indices_succ]
    by_cases hk : k < n
    · have hlen := quad_indices_length n
      rw [List.drop_append_of_le_length (by omega),
        List.take_append_of_le_length (by rw [List.length_drop]; omega)]
      exact ih hk
    · have hkn : k = n := by omega
      subst hkn
      have hlen := quad_indices_length k
      rw [List.drop_append_eq_append_drop, List.drop_of_length_le (by omega), hlen]
      simp

/-! ### The buffers of `make_mesh_for_blocks` -/

theorem floats_length (v : block_vertex) : v.floats.length = 13 := rfl

theorem put_face_holds (off : vec3) (buf : mesh_buffers) (face : block_face) (Q : Nat)
    (h : buf.holds Q) : (put_face off buf face).holds (Q + 1) := by
  obtain ⟨h1, h2, h3⟩ := h
  refine ⟨?_, ?_, ?_⟩
  · simp only [put_face, h1]; omega
  · simp only [put_face, List.length_append, h2]
    simp [List.finRange, List.flatMap, floats_length]
    omega
  · simp only [put_face, h1, h3, quad_indices_succ]
    congr 1
    simp
    omega

theorem foldl_put_face_holds (off : vec3) (faces : List block_face) (buf : mesh_buffers)
    (Q : Nat) (h : buf.holds Q) : (faces.foldl (put_face off) buf).holds (Q + faces.length) := by
  induction faces generalizing buf Q with
  | nil => simpa using h
  | cons f rest ih =>
    have := ih (put_face off buf f) (Q + 1) (put_face_holds off buf f Q h)
    simp only [List.foldl_cons, List.length_cons]
    have e : Q + (rest.length + 1) = Q + 1 + rest.length := by omega
    rw [e]
    exact this

theorem geometry_length (cb : chunk_builder) (chunk : mc_chunk) (p : ivec3)
    (texture_name : Option String) (quads : List block_face)
    (h : make_geometry_for_block cb p chunk texture_name = some quads) :
    quads.length = visible_faces cb chunk p := by
  unfold make_geometry_for_block at h
  unfold visible_faces
  cases hf : faces_to_make cb p chunk with
  | none => simp [hf] at h
  | some faces =>
    cases texture_name with
    | none => simp [hf] at h
    | some name =>
      simp [hf] at h
      simp [← h]

theorem put_block_holds (cb : chunk_builder) (chunk : mc_chunk) (buf buf1 : mesh_buffers)
    (p : ivec3) (Q : Nat) (hput : put_block cb chunk buf p = some buf1) (h : buf.holds Q) :
    buf1.holds (Q + quads_of_block cb chunk p) := by
  unfold put_block at hput
  unfold quads_of_block definition_at
  cases hb : chunk.block (pos_to_idx cb p) with
  | none => simp [hb] at hput
  | some b =>
    simp only [hb, Option.bind_eq_bind, Option.some_bind, Bool.not_not] at hput
    cases hc : (cb.definition b.id).is_cube with
    | false =>
      simp [hc] at hput
      simp [hc, ← hput, h]
    | true =>
      simp only [hc, if_true] at hput
      cases hg : make_geometry_for_block cb p chunk (cb.definition b.id).texture_name with
      | none => simp [hg] at hput
      | some quads =>
        simp [hg] at hput
        have hl := geometry_length cb chunk p _ quads hg
        simp only [hc, if_true, ← hl, ← hput]
        exact foldl_put_face_holds _ quads buf Q h

theorem put_blocks_holds (cb : chunk_builder) (chunk : mc_chunk) (blocks : List ivec3)
    (buf buf1 : mesh_buffers) (Q : Nat) (hput : put_blocks cb chunk blocks buf = some buf1)
    (h : buf.holds Q) : buf1.holds (Q + quad_count cb chunk blocks) := by
  induction blocks generalizing buf Q with
  | nil =>
    simp only [put_blocks, Option.some.injEq] at hput
    simpa [quad_count, ← hput] using h
  | cons p rest ih =>
    simp only [put_blocks] at hput
    cases hp : put_block cb chunk buf p with
    | none => simp [hp] at hput
    | some buf2 =>
      simp only [hp] at hput
      have := ih buf2 (Q + quads_of_block cb chunk p) hput (put_block_holds cb chunk buf buf2 p Q hp h)
      have e : Q + quad_count cb chunk (p :: rest) =
          Q + quads_of_block cb chunk p + quad_count cb chunk rest := by
        simp [quad_count]; omega
      rw [e]
      exact this

theorem put_block_defined (cb : chunk_builder) (chunk : mc_chunk) (buf : mesh_buffers)
    (p : ivec3) (hwf : chunk.well_formed cb) (hp : cb.in_bounds p) :
    ∃ buf1, put_block cb chunk buf p = some buf1 := by
  obtain ⟨b, hb, hmem⟩ := block_of_in_bounds cb chunk p hwf hp
  unfold put_block
  simp only [hb, Option.bind_eq_bind, Option.some_bind, Bool.not_not]
  cases hc : (cb.definition b.id).is_cube with
  | false => simp
  | true =>
    obtain ⟨name, hname⟩ := Option.ne_none_iff_exists'.mp ((hwf.2 b hmem).2 hc)
    obtain ⟨faces, -, -, hq, -⟩ := geometry_spec cb chunk p name hwf hp
    simp [hname, hq]

theorem put_blocks_defined (cb : chunk_builder) (chunk : mc_chunk) (blocks : List ivec3)
    (buf : mesh_buffers) (hwf : chunk.well_formed cb) (hin : ∀ p ∈ blocks, cb.in_bounds p) :
    ∃ buf1, put_blocks cb chunk blocks buf = some buf1 := by
  induction blocks generalizing buf with
  | nil => exact ⟨buf, rfl⟩
  | cons p rest ih =>
    obtain ⟨buf2, h2⟩ := put_block_defined cb chunk buf p hwf (hin p (List.mem_cons_self _ _))
    obtain ⟨buf3, h3⟩ := ih buf2 (fun q hq => hin q (List.mem_cons_of_mem _ hq))
    exact ⟨buf3, by simp [put_blocks, h2, h3]⟩

theorem empty_buffers_hold :
    ({ vertices := [], indices := [], cur_index := 0 } : mesh_buffers).holds 0 := by
  simp [mesh_buffers.holds, quad_indices]

/-- The buffers of the mesh that `make_mesh_for_blocks` returns. -/
theorem mesh_buffers_spec (cb : chunk_builder) (blocks : List ivec3) (chunk : mc_chunk)
    (mesh : mesh_definition) (h : make_mesh_for_blocks cb blocks chunk = some mesh) :
    mesh.vertex_data.length = 4 * quad_count cb chunk blocks * 13 ∧
      mesh.indices = quad_indices (quad_count cb chunk blocks) := by
  unfold make_mesh_for_blocks at h
  cases hb : put_blocks cb chunk blocks { vertices := [], indices := [], cur_index := 0 } with
  | none => simp [hb] at h
  | some buf =>
    simp only [hb, Option.some.injEq] at h
    have := put_blocks_holds cb chunk blocks _ buf 0 hb empty_buffers_hold
    rw [Nat.zero_add] at this
    rw [← h]
    exact ⟨this.2.1, this.2.2⟩

theorem mesh_defined (cb : chunk_builder) (blocks : List ivec3) (chunk : mc_chunk)
    (hwf : chunk.well_formed cb) (hin : ∀ p ∈ blocks, cb.in_bounds p) :
    ∃ mesh, make_mesh_for_blocks cb blocks chunk = some mesh := by
  obtain ⟨buf, hb⟩ := put_blocks_defined cb chunk blocks
    { vertices := [], indices := [], cur_index := 0 } hwf hin
  unfold make_mesh_for_blocks
  rw [hb]
  exact ⟨_, rfl⟩

/-! ### Cells with six or no visible faces -/

theorem face_is_needed_true (cb : chunk_builder) (chunk : mc_chunk) (p off : ivec3)
    (hwf : chunk.well_formed cb) (hp : cb.in_bounds p)
    (h : ¬ cb.in_bounds (p + off) ∨
      (transparent_at cb chunk (p + off) ∧ ¬ same_name_at cb chunk (p + off) p)) :
    face_is_needed cb p off chunk = some true := by
  obtain ⟨b, hb, hiff⟩ := face_is_needed_spec cb chunk p off hwf hp
  rw [hb]
  congr 1
  rw [hiff]
  unfold transparent_at same_name_at at h
  rcases h with h | ⟨h1, h2⟩
  · exact ⟨Or.inl h, fun h3 => h h3.1⟩
  · exact ⟨Or.inr h1, fun h3 => h2 h3.2⟩

theorem face_is_needed_false (cb : chunk_builder) (chunk : mc_chunk) (p off : ivec3)
    (hwf : chunk.well_formed cb) (hp : cb.in_bounds p)
    (h : cb.in_bounds (p + off) ∧ ¬ transparent_at cb chunk (p + off)) :
    face_is_needed cb p off chunk = some false := by
  obtain ⟨b, hb, hiff⟩ := face_is_needed_spec cb chunk p off hwf hp
  rw [hb]
  congr 1
  cases b with
  | false => rfl
  | true =>
    exfalso
    obtain ⟨h1 | h1, -⟩ := hiff.mp rfl
    · exact h1 h.1
    · exact h.2 h1

theorem all_faces (cb : chunk_builder) (chunk : mc_chunk) (p : ivec3)
    (hwf : chunk.well_formed cb) (hp : cb.in_bounds p)
    (h : ∀ d : face_id, ¬ cb.in_bounds (p + d.offset) ∨
      (transparent_at cb chunk (p + d.offset) ∧ ¬ same_name_at cb chunk (p + d.offset) p)) :
    faces_to_make cb p chunk = some [face_id.TOP, face_id.BOTTOM, face_id.RIGHT, face_id.LEFT,
      face_id.FRONT, face_id.BACK] :=
  faces_to_make_eq cb chunk p true true true true true true
    (face_is_needed_true cb chunk p _ hwf hp (h face_id.TOP))
    (face_is_needed_true cb chunk p _ hwf hp (h face_id.BOTTOM))
    (face_is_needed_true cb chunk p _ hwf hp (h face_id.RIGHT))
    (face_is_needed_true cb chunk p _ hwf hp (h face_id.LEFT))
    (face_is_needed_true cb chunk p _ hwf hp (h face_id.FRONT))
    (face_is_needed_true cb chunk p _ hwf hp (h face_id.BACK))

theorem no_faces (cb : chunk_builder) (chunk : mc_chunk) (p : ivec3)
    (hwf : chunk.well_formed cb) (hp : cb.in_bounds p)
    (h : ∀ d : face_id, cb.in_bounds (p + d.offset) ∧ ¬ transparent_at cb chunk (p + d.offset)) :
    faces_to_make cb p chunk = some [] :=
  faces_to_make_eq cb chunk p false false false false false false
    (face_is_needed_false cb chunk p _ hwf hp (h face_id.TOP))
    (face_is_needed_false cb chunk p _ hwf hp (h face_id.BOTTOM))
    (face_is_needed_false cb chunk p _ hwf hp (h face_id.RIGHT))
    (face_is_needed_false cb chunk p _ hwf hp (h face_id.LEFT))
    (face_is_needed_false cb chunk p _ hwf hp (h face_id.FRONT))
    (face_is_needed_false cb chunk p _ hwf hp (h face_id.BACK))

theorem foldl_put_face_lengths (off : vec3) (faces : List block_face) (buf : mesh_buffers) :
    (faces.foldl (put_face off) buf).vertices.length
        = buf.vertices.length + 4 * faces.length * 13 ∧
      (faces.foldl (put_face off) buf).indices.length = buf.indices.length + 6 * faces.length ∧
      (faces.foldl (put_face off) buf).cur_index = buf.cur_index + 4 * faces.length := by
  induction faces generalizing buf with
  | nil => simp
  | cons f rest ih =>
    obtain ⟨h1, h2, h3⟩ := ih (put_face off buf f)
    simp only [List.foldl_cons, List.length_cons, h1, h2, h3]
    simp [put_face, List.finRange, List.flatMap, floats_length]
    omega

theorem put_block_of_faces (cb : chunk_builder) (chunk : mc_chunk) (buf : mesh_buffers)
    (p : ivec3) (d : mc_block_definition) (name : String) (faces : List face_id)
    (hd : definition_at cb chunk p = some d) (hc : d.is_cube = true)
    (hn : d.texture_name = some name) (hf : faces_to_make cb p chunk = some faces) :
    make_geometry_for_block cb p chunk d.texture_name =
        some (faces.map (fun face => make_quad face 1 (cb.get_texture_location name))) ∧
      put_block cb chunk buf p =
        some ((faces.map (fun face => make_quad face 1 (cb.get_texture_location name))).foldl
          (put_face p.to_float_vec3) buf) := by
  have hg : make_geometry_for_block cb p chunk d.texture_name =
      some (faces.map (fun face => make_quad face 1 (cb.get_texture_location name))) := by
    simp [make_geometry_for_block, hf, hn]
  refine ⟨hg, ?_⟩
  unfold definition_at at hd
  unfold put_block
  cases hb : chunk.block (pos_to_idx cb p) with
  | none => simp [hb] at hd
  | some b =>
    simp only [hb, Option.some.injEq] at hd
    simp [hb, hd, hc, hg]

/-- A cube whose six faces are all visible adds six quads to the buffers. -/
theorem put_block_six (cb : chunk_builder) (chunk : mc_chunk) (buf : mesh_buffers) (p : ivec3)
    (hwf : chunk.well_formed cb) (hp : cb.in_bounds p)
    (hcube : ∃ d, definition_at cb chunk p = some d ∧ d.is_cube = true)
    (h : ∀ d : face_id, ¬ cb.in_bounds (p + d.offset) ∨
      (transparent_at cb chunk (p + d.offset) ∧ ¬ same_name_at cb chunk (p + d.offset) p)) :
    (∃ d quads, definition_at cb chunk p = some d ∧
        make_geometry_for_block cb p chunk d.texture_name = some quads ∧ quads.length = 6) ∧
      ∃ buf1, put_block cb chunk buf p = some buf1 ∧
        buf1.vertices.length = buf.vertices.length + 4 * 6 * 13 ∧
        buf1.indices.length = buf.indices.length + 6 * 6 ∧
        buf1.cur_index = buf.cur_index + 4 * 6 := by
  obtain ⟨d, hd, hc⟩ := hcube
  obtain ⟨b, hb, hbd⟩ := block_mem_of_definition_at cb chunk p d hd
  have hne := (hwf.2 b hb).2
  rw [hbd] at hne
  obtain ⟨name, hname⟩ := Option.ne_none_iff_exists'.mp (hne hc)
  have hf := all_faces cb chunk p hwf hp h
  obtain ⟨hg, hput⟩ := put_block_of_faces cb chunk buf p d name _ hd hc hname hf
  refine ⟨⟨d, _, hd, hg, by simp⟩, _, hput, ?_⟩
  have := foldl_put_face_lengths p.to_float_vec3
    ([face_id.TOP, face_id.BOTTOM, face_id.RIGHT, face_id.LEFT, face_id.FRONT, face_id.BACK].map
      (fun face => make_quad face 1 (cb.get_texture_location name))) buf
  simpa using this

theorem single_cell_neighbours (cb : chunk_builder) (hW : cb.CHUNK_WIDTH = 1)
    (hH : cb.CHUNK_HEIGHT = 1) (hD : cb.CHUNK_DEPTH = 1) (d : face_id) :
    cb.in_bounds ⟨0, 0, 0⟩ ∧ ¬ cb.in_bounds (⟨0, 0, 0⟩ + d.offset) := by
  unfold chunk_builder.in_bounds
  rw [hW, hH, hD]
  cases d <;> simp [ivec3_add_x, ivec3_add_y, ivec3_add_z, face_id.offset]

/-! ### The six quads -/

theorem vec3_add_def (a b : vec3) : a + b = ⟨a.x + b.x, a.y + b.y, a.z + b.z⟩ := rfl

theorem vec3_sub_def (a b : vec3) : a - b = ⟨a.x - b.x, a.y - b.y, a.z - b.z⟩ := rfl

theorem quad_positions (s : ℚ) (t : texture_location) :
    (quad_position face_id.LEFT s t 0 = ⟨0, 0, 0⟩ ∧ quad_position face_id.LEFT s t 1 = ⟨0, 0, s⟩ ∧
      quad_position face_id.LEFT s t 2 = ⟨0, s, 0⟩ ∧ quad_position face_id.LEFT s t 3 = ⟨0, s, s⟩) ∧
    (quad_position face_id.RIGHT s t 0 = ⟨s, 0, 0⟩ ∧ quad_position face_id.RIGHT s t 1 = ⟨s, 0, s⟩ ∧
      quad_position face_id.RIGHT s t 2 = ⟨s, s, 0⟩ ∧ quad_position face_id.RIGHT s t 3 = ⟨s, s, s⟩) ∧
    (quad_position face_id.BOTTOM s t 0 = ⟨0, 0, 0⟩ ∧ quad_position face_id.BOTTOM s t 1 = ⟨0, 0, s⟩ ∧
      quad_position face_id.BOTTOM s t 2 = ⟨s, 0, 0⟩ ∧ quad_position face_id.BOTTOM s t 3 = ⟨s, 0, s⟩) ∧
    (quad_position face_id.TOP s t 0 = ⟨0, s, 0⟩ ∧ quad_position face_id.TOP s t 1 = ⟨0, s, s⟩ ∧
      quad_position face_id.TOP s t 2 = ⟨s, s, 0⟩ ∧ quad_position face_id.TOP s t 3 = ⟨s, s, s⟩) ∧
    (quad_position face_id.BACK s t 0 = ⟨0, 0, 0⟩ ∧ quad_position face_id.BACK s t 1 = ⟨0, s, 0⟩ ∧
      quad_position face_id.BACK s t 2 = ⟨s, 0, 0⟩ ∧ quad_position face_id.BACK s t 3 = ⟨s, s, 0⟩) ∧
    (quad_position face_id.FRONT s t 0 = ⟨0, 0, s⟩ ∧ quad_position face_id.FRONT s t 1 = ⟨0, s, s⟩ ∧
      quad_position face_id.FRONT s t 2 = ⟨s, 0, s⟩ ∧ quad_position face_id.FRONT s t 3 = ⟨s, s, s⟩) := by
  simp [quad_position, make_quad, array4]

/-! ### Blocks that are not cubes -/

theorem put_block_non_cube (cb : chunk_builder) (chunk : mc_chunk) (buf : mesh_buffers)
    (p : ivec3) (h : is_non_cube_at cb chunk p = true) : put_block cb chunk buf p = some buf := by
  unfold is_non_cube_at definition_at at h
  unfold put_block
  cases hb : chunk.block (pos_to_idx cb p) with
  | none => simp [hb] at h
  | some b =>
    simp only [hb, Bool.not_eq_true'] at h
    simp [hb, h]

theorem put_blocks_filter (cb : chunk_builder) (chunk : mc_chunk) (blocks : List ivec3)
    (buf : mesh_buffers) :
    put_blocks cb chunk blocks buf =
      put_blocks cb chunk (blocks.filter (fun p => !is_non_cube_at cb chunk p)) buf := by
  induction blocks generalizing buf with
  | nil => rfl
  | cons p rest ih =>
    cases h : is_non_cube_at cb chunk p with
    | true =>
      simp only [List.filter_cons, h, Bool.not_true, Bool.false_eq_true, if_false, put_blocks,
        put_block_non_cube cb chunk buf p h]
      exact ih buf
    | false =>
      simp only [List.filter_cons, h, Bool.not_false, if_true, put_blocks]
      cases put_block cb chunk buf p with
      | none => rfl
      | some buf1 => exact ih buf1

/-! ### The contents of the vertex buffer -/

theorem put_face_vertices (p : ivec3) (buf : mesh_buffers) (face : face_id)
    (tex : texture_location) :
    (put_face p.to_float_vec3 buf (make_quad face 1 tex)).vertices =
      buf.vertices ++ translated_quad face tex p := by
  simp only [put_face, translated_quad]
  rfl

theorem foldl_put_face_vertices (p : ivec3) (tex : texture_location) (faces : List face_id)
    (buf : mesh_buffers) :
    ((faces.map (fun face => make_quad face 1 tex)).foldl (put_face p.to_float_vec3) buf).vertices =
      buf.vertices ++ faces.flatMap (fun face => translated_quad face tex p) := by
  induction faces generalizing buf with
  | nil => simp
  | cons f rest ih =>
    simp only [List.map_cons, List.foldl_cons, List.flatMap_cons]
    rw [ih, put_face_vertices, List.append_assoc]

/-- Each coordinate of a corner of a quad of size 1 is 0 or 1. -/
theorem quad_corner (face : face_id) (tex : texture_location) (i : Fin 4) :
    (((make_quad face 1 tex).vertices i).position.x = 0 ∨
        ((make_quad face 1 tex).vertices i).position.x = 1) ∧
      (((make_quad face 1 tex).vertices i).position.y = 0 ∨
        ((make_quad face 1 tex).vertices i).position.y = 1) ∧
      (((make_quad face 1 tex).vertices i).position.z = 0 ∨
        ((make_quad face 1 tex).vertices i).position.z = 1) := by
  cases face <;> fin_cases i <;> simp [make_quad, array4]

/-- The float sum of a coordinate 0 or 1 and a converted integer in `[-2 ^ 24, 2 ^ 24)` is
the exact sum. -/
theorem to_float_shift (c : ℚ) (n : Int) (hc : c = 0 ∨ c = 1) (h1 : -16777216 ≤ n)
    (h2 : n < 16777216) : to_float (c + to_float (n : ℚ)) = c + (n : ℚ) := by
  rcases hc with h | h <;> subst h
  · exact to_float_shift_zero n h1 h2
  · exact to_float_shift_one n h1 h2

theorem translated_floats_exact (face : face_id) (tex : texture_location) (p : ivec3)
    (i : Fin 4) (hx : -16777216 ≤ p.x ∧ p.x < 16777216) (hy : -16777216 ≤ p.y ∧ p.y < 16777216)
    (hz : -16777216 ≤ p.z ∧ p.z < 16777216) :
    translated_floats ((make_quad face 1 tex).vertices i) p =
      [((make_quad face 1 tex).vertices i).position.x + (p.x : ℚ),
        ((make_quad face 1 tex).vertices i).position.y + (p.y : ℚ),
        ((make_quad face 1 tex).vertices i).position.z + (p.z : ℚ),
        ((make_quad face 1 tex).vertices i).uv.x,
        ((make_quad face 1 tex).vertices i).uv.y,
        ((make_quad face 1 tex).vertices i).lightmap_uv.x,
        ((make_quad face 1 tex).vertices i).lightmap_uv.y,
        ((make_quad face 1 tex).vertices i).normal.x,
        ((make_quad face 1 tex).vertices i).normal.y,
        ((make_quad face 1 tex).vertices i).normal.z,
        ((make_quad face 1 tex).vertices i).tangent.x,
        ((make_quad face 1 tex).vertices i).tangent.y,
        ((make_quad face 1 tex).vertices i).tangent.z] := by
  obtain ⟨cx, cy, cz⟩ := quad_corner face tex i
  unfold translated_floats
  rw [to_float_shift _ p.x cx hx.1 hx.2, to_float_shift _ p.y cy hy.1 hy.2,
    to_float_shift _ p.z cz hz.1 hz.2]

theorem put_block_vertices (cb : chunk_builder) (chunk : mc_chunk) (buf buf1 : mesh_buffers)
    (p : ivec3) (h : put_block cb chunk buf p = some buf1) :
    buf1.vertices = buf.vertices ++ block_vertex_data cb chunk p := by
  unfold put_block at h
  unfold block_vertex_data definition_at
  cases hb : chunk.block (pos_to_idx cb p) with
  | none => simp [hb] at h
  | some b =>
    simp only [hb, Option.bind_eq_bind, Option.some_bind, Bool.not_not] at h
    cases hc : (cb.definition b.id).is_cube with
    | false =>
      simp [hc] at h
      simp [hc, ← h]
    | true =>
      simp only [hc, if_true] at h
      unfold make_geometry_for_block at h
      cases hf : faces_to_make cb p chunk with
      | none => simp [hf] at h
      | some faces =>
        cases hn : (cb.definition b.id).texture_name with
        | none => simp [hf, hn] at h
        | some name =>
          simp [hf, hn] at h
          simp only [hc, hn, if_true, ← h]
          exact foldl_put_face_vertices p (cb.get_texture_location name) faces buf

theorem put_blocks_vertices (cb : chunk_builder) (chunk : mc_chunk) (blocks : List ivec3)
    (buf buf1 : mesh_buffers) (h : put_blocks cb chunk blocks buf = some buf1) :
    buf1.vertices = buf.vertices ++ blocks.flatMap (block_vertex_data cb chunk) := by
  induction blocks generalizing buf with
  | nil =>
    simp only [put_blocks, Option.some.injEq] at h
    simp [← h]
  | cons p rest ih =>
    simp only [put_blocks] at h
    cases hp : put_block cb chunk buf p with
    | none => simp [hp] at h
    | some buf2 =>
      simp only [hp] at h
      rw [ih buf2 h, put_block_vertices cb chunk buf buf2 p hp, List.flatMap_cons,
        List.append_assoc]

/-! ### Loops -/

theorem mem_loop_range (n i : Int) : i ∈ loop_range n ↔ 0 ≤ i ∧ i < n := by
  unfold loop_range
  simp only [List.mem_map, List.mem_range]
  constructor
  · rintro ⟨k, hk, rfl⟩
    omega
  · rintro ⟨h0, h1⟩
    exact ⟨i.toNat, by omega, by omega⟩

theorem foldlM_defined {σ ι : Type} (f : σ → ι → Option σ) (l : List ι)
    (hdef : ∀ s i, i ∈ l → ∃ r, f s i = some r) (s : σ) : ∃ r, l.foldlM f s = some r := by
  induction l generalizing s with
  | nil => exact ⟨s, rfl⟩
  | cons a rest ih =>
    obtain ⟨s1, h1⟩ := hdef s a (List.mem_cons_self _ _)
    obtain ⟨r, hr⟩ := ih (fun s i hi => hdef s i (List.mem_cons_of_mem _ hi)) s1
    exact ⟨r, by simp [List.foldlM_cons, h1, hr]⟩

theorem foldlM_append_spec {ι β : Type} (f : List β → ι → Option (List β)) (g : ι → List β)
    (l : List ι) (hstep : ∀ acc i r, i ∈ l → f acc i = some r → r = acc ++ g i)
    (acc r : List β) (h : l.foldlM f acc = some r) : r = acc ++ l.flatMap g := by
  induction l generalizing acc with
  | nil =>
    simp only [List.foldlM_nil, Option.pure_def, Option.some.injEq] at h
    simp [← h]
  | cons a rest ih =>
    simp only [List.foldlM_cons, Option.bind_eq_bind] at h
    cases h1 : f acc a with
    | none => simp [h1] at h
    | some acc1 =>
      simp only [h1, Option.some_bind] at h
      have e1 := hstep acc a acc1 (List.mem_cons_self _ _) h1
      have e2 := ih (fun acc i r hi => hstep acc i r (List.mem_cons_of_mem _ hi)) acc1 h
      rw [e2, e1, List.flatMap_cons, List.append_assoc]

/-! ### The selector -/

theorem filter_cell_spec (cb : chunk_builder) (chunk : mc_chunk)
    (filter : mc_block_definition → Bool) (z y x : Int) (acc r : List ivec3)
    (h : filter_cell cb chunk filter z y acc x = some r) :
    r = acc ++ (if filter_matches_at cb chunk filter x y z then [⟨x, y, z⟩] else []) := by
  unfold filter_cell at h
  unfold filter_matches_at definition_at pos_to_idx
  cases hb : chunk.block (x + y * cb.CHUNK_WIDTH + z * cb.CHUNK_WIDTH * cb.CHUNK_HEIGHT) with
  | none => simp [hb] at h
  | some b =>
    simp only [hb] at h
    by_cases hf : filter (cb.definition b.id) = true
    · simp only [hf, if_true, Option.some.injEq] at h
      simp [hb, hf, ← h]
    · simp [hf] at h
      simp [hb, hf, ← h]

/-- The list returned by `get_blocks_that_match_filter`, as the loops build it. -/
theorem get_blocks_spec (cb : chunk_builder) (chunk : mc_chunk)
    (filter : mc_block_definition → Bool) (l : List ivec3)
    (h : get_blocks_that_match_filter cb chunk filter = some l) :
    l = (loop_range cb.CHUNK_WIDTH).flatMap (fun z =>
      (loop_range cb.CHUNK_HEIGHT).flatMap (fun y =>
        (loop_range cb.CHUNK_DEPTH).flatMap (fun x =>
          if filter_matches_at cb chunk filter x y z then [(⟨x, y, z⟩ : ivec3)] else []))) := by
  unfold get_blocks_that_match_filter at h
  have := foldlM_append_spec _ (fun z =>
      (loop_range cb.CHUNK_HEIGHT).flatMap (fun y =>
        (loop_range cb.CHUNK_DEPTH).flatMap (fun x =>
          if filter_matches_at cb chunk filter x y z then [(⟨x, y, z⟩ : ivec3)] else [])))
    (loop_range cb.CHUNK_WIDTH) ?_ [] l h
  · simpa using this
  · intro acc z r _ hz
    refine foldlM_append_spec _ (fun y =>
        (loop_range cb.CHUNK_DEPTH).flatMap (fun x =>
          if filter_matches_at cb chunk filter x y z then [(⟨x, y, z⟩ : ivec3)] else []))
      (loop_range cb.CHUNK_HEIGHT) ?_ acc r hz
    intro acc1 y r1 _ hy
    refine foldlM_append_spec _ (fun x =>
          if filter_matches_at cb chunk filter x y z then [(⟨x, y, z⟩ : ivec3)] else [])
      (loop_range cb.CHUNK_DEPTH) ?_ acc1 r1 hy
    intro acc2 x r2 _ hx
    exact filter_cell_spec cb chunk filter z y x acc2 r2 hx

theorem selector_index_range (cb : chunk_builder) (x y z : Int)
    (hWD : cb.CHUNK_WIDTH ≤ cb.CHUNK_DEPTH) (hx : 0 ≤ x ∧ x < cb.CHUNK_DEPTH)
    (hy : 0 ≤ y ∧ y < cb.CHUNK_HEIGHT) (hz : 0 ≤ z ∧ z < cb.CHUNK_WIDTH) :
    0 ≤ x + y * cb.CHUNK_WIDTH + z * cb.CHUNK_WIDTH * cb.CHUNK_HEIGHT ∧
      x + y * cb.CHUNK_WIDTH + z * cb.CHUNK_WIDTH * cb.CHUNK_HEIGHT <
        cb.CHUNK_WIDTH * cb.CHUNK_HEIGHT * cb.CHUNK_DEPTH := by
  obtain ⟨hx0, hx1⟩ := hx
  obtain ⟨hy0, hy1⟩ := hy
  obtain ⟨hz0, hz1⟩ := hz
  have hW : 0 < cb.CHUNK_WIDTH := by omega
  have hH : 0 < cb.CHUNK_HEIGHT := by omega
  have hWH : 0 < cb.CHUNK_WIDTH * cb.CHUNK_HEIGHT := mul_pos hW hH
  have h1 : 0 ≤ y * cb.CHUNK_WIDTH := mul_nonneg hy0 (le_of_lt hW)
  have h2 : 0 ≤ z * cb.CHUNK_WIDTH * cb.CHUNK_HEIGHT := by
    rw [mul_assoc]; exact mul_nonneg hz0 (le_of_lt hWH)
  have h3 : y * cb.CHUNK_WIDTH ≤ (cb.CHUNK_HEIGHT - 1) * cb.CHUNK_WIDTH :=
    mul_le_mul_of_nonneg_right (by omega) (le_of_lt hW)
  have h4 : z * (cb.CHUNK_WIDTH * cb.CHUNK_HEIGHT) ≤
      (cb.CHUNK_WIDTH - 1) * (cb.CHUNK_WIDTH * cb.CHUNK_HEIGHT) :=
    mul_le_mul_of_nonneg_right (by omega) (le_of_lt hWH)
  have h5 : 0 ≤ (cb.CHUNK_WIDTH * cb.CHUNK_HEIGHT - 1) * (cb.CHUNK_DEPTH - cb.CHUNK_WIDTH) :=
    mul_nonneg (by omega) (by omega)
  constructor
  · omega
  · nlinarith

/-- The selector returns a list when the reads stay in the array: the chunk has its
`CHUNK_WIDTH * CHUNK_HEIGHT * CHUNK_DEPTH` blocks and `CHUNK_WIDTH ≤ CHUNK_DEPTH`. -/
theorem get_blocks_defined (cb : chunk_builder) (chunk : mc_chunk)
    (filter : mc_block_definition → Bool) (hs : chunk.sized cb)
    (hWD : cb.CHUNK_WIDTH ≤ cb.CHUNK_DEPTH) :
    ∃ l, get_blocks_that_match_filter cb chunk filter = some l := by
  unfold get_blocks_that_match_filter
  apply foldlM_defined
  intro acc z hz
  apply foldlM_defined
  intro acc1 y hy
  apply foldlM_defined
  intro acc2 x hx
  rw [mem_loop_range] at hx hy hz
  obtain ⟨h0, h1⟩ := selector_index_range cb x y z hWD hx hy hz
  unfold mc_chunk.sized at hs
  have hlt : (x + y * cb.CHUNK_WIDTH + z * cb.CHUNK_WIDTH * cb.CHUNK_HEIGHT).toNat
      < chunk.blocks.length := by omega
  unfold filter_cell
  simp only [mc_chunk.block, h0, if_true, List.getElem?_eq_getElem hlt]
  split_ifs
  · exact ⟨_, rfl⟩
  · exact ⟨_, rfl⟩

/-! ### The table as state -/

theorem table_grows_refl (chunk : mc_chunk) (cb : chunk_builder) : table_grows chunk cb cb :=
  ⟨rfl, rfl, rfl, rfl, [], by simp, by simp⟩

theorem table_grows_trans (chunk : mc_chunk) (cb cb1 cb2 : chunk_builder)
    (h1 : table_grows chunk cb cb1) (h2 : table_grows chunk cb1 cb2) :
    table_grows chunk cb cb2 := by
  obtain ⟨a1, a2, a3, a4, e1, ht1, he1⟩ := h1
  obtain ⟨b1, b2, b3, b4, e2, ht2, he2⟩ := h2
  refine ⟨b1.trans a1, b2.trans a2, b3.trans a3, b4.trans a4, e1 ++ e2, ?_, ?_⟩
  · rw [ht2, ht1, List.append_assoc]
  · intro e he
    rcases List.mem_append.mp he with h | h
    · exact he1 e h
    · obtain ⟨c1, c2, c3⟩ := he2 e h
      refine ⟨c1, ?_, c3⟩
      rw [ht1, List.lookup_append] at c2
      cases hl : cb.block_definitions.lookup e.1 with
      | none => rfl
      | some d => simp [hl] at c2

theorem table_grows_definition (chunk : mc_chunk) (cb cb1 : chunk_builder)
    (h : table_grows chunk cb cb1) (id : Int) : cb1.definition id = cb.definition id := by
  obtain ⟨-, -, -, -, extra, ht, he⟩ := h
  unfold chunk_builder.definition
  rw [ht, List.lookup_append]
  cases hl : cb.block_definitions.lookup id with
  | some d => simp
  | none =>
    cases hx : extra.lookup id with
    | none => simp
    | some d =>
      obtain ⟨l1, l2, hsplit, -⟩ := List.lookup_eq_some_iff.mp hx
      have hmem : (id, d) ∈ extra := by rw [hsplit]; simp
      have := (he (id, d) hmem).1
      simp only at this
      simp [this]

theorem definition_st_fst (cb : chunk_builder) (id : Int) :
    (cb.definition_st id).1 = cb.definition id := by
  unfold chunk_builder.definition_st chunk_builder.definition
  cases cb.block_definitions.lookup id <;> rfl

theorem definition_st_grows (chunk : mc_chunk) (cb : chunk_builder) (b : mc_block)
    (hb : b ∈ chunk.blocks) : table_grows chunk cb (cb.definition_st b.id).2 := by
  unfold chunk_builder.definition_st
  cases hl : cb.block_definitions.lookup b.id with
  | some d => exact table_grows_refl chunk cb
  | none =>
    refine ⟨rfl, rfl, rfl, rfl, [(b.id, mc_block_definition.value_initialized)], rfl, ?_⟩
    intro e he
    simp only [List.mem_singleton] at he
    subst he
    exact ⟨rfl, hl, b, hb, rfl⟩

theorem table_grows_eq (chunk : mc_chunk) (cb cb1 : chunk_builder)
    (h : table_grows chunk cb cb1)
    (hdef : ∀ b ∈ chunk.blocks, cb.block_definitions.lookup b.id ≠ none) : cb1 = cb := by
  obtain ⟨a1, a2, a3, a4, extra, ht, he⟩ := h
  have hnil : extra = [] := by
    apply List.eq_nil_iff_forall_not_mem.mpr
    intro e hmem
    obtain ⟨-, c2, b, hb, hid⟩ := he e hmem
    exact hdef b hb (by rw [hid]; exact c2)
  rw [hnil, List.append_nil] at ht
  cases cb
  cases cb1
  simp_all

theorem block_mem (chunk : mc_chunk) (i : Int) (b : mc_block) (h : chunk.block i = some b) :
    b ∈ chunk.blocks := by
  unfold mc_chunk.block at h
  split_ifs at h
  exact List.getElem?_mem h

theorem refines_of_grows {α : Type} (chunk : mc_chunk) (cb cb1 : chunk_builder)
    (st : Option (α × chunk_builder)) (v : Option α) (hg : table_grows chunk cb cb1)
    (h : refines chunk cb1 st v) : refines chunk cb st v := by
  unfold refines at *
  cases st with
  | none => exact h
  | some r => exact ⟨h.1, table_grows_trans chunk cb cb1 r.2 hg h.2⟩

theorem refines_bind {α β : Type} (chunk : mc_chunk) (cb : chunk_builder)
    (m : Option (α × chunk_builder)) (v : Option α)
    (k : α × chunk_builder → Option (β × chunk_builder)) (g : α → Option β)
    (hm : refines chunk cb m v)
    (hk : ∀ a cb1, table_grows chunk cb cb1 → refines chunk cb (k (a, cb1)) (g a)) :
    refines chunk cb (m.bind k) (v.bind g) := by
  cases m with
  | none =>
    simp only [refines] at hm
    simp [refines, hm]
  | some r =>
    obtain ⟨hv, hg⟩ := hm
    rw [hv]
    simpa using hk r.1 r.2 hg

theorem refines_foldlM {σ ι : Type} (chunk : mc_chunk) (cb : chunk_builder)
    (f_st : σ × chunk_builder → ι → Option (σ × chunk_builder)) (f : σ → ι → Option σ)
    (l : List ι)
    (hstep : ∀ s i cb1, i ∈ l → table_grows chunk cb cb1 →
      refines chunk cb (f_st (s, cb1) i) (f s i))
    (s : σ) (cb1 : chunk_builder) (hg : table_grows chunk cb cb1) :
    refines chunk cb (l.foldlM f_st (s, cb1)) (l.foldlM f s) := by
  induction l generalizing s cb1 with
  | nil => exact ⟨rfl, hg⟩
  | cons a rest ih =>
    simp only [List.foldlM_cons, Option.bind_eq_bind]
    apply refines_bind chunk cb _ _ _ _ (hstep s a cb1 (List.mem_cons_self _ _) hg)
    intro s1 cb2 hg2
    exact ih (fun s i cb3 hi h3 => hstep s i cb3 (List.mem_cons_of_mem _ hi) h3) s1 cb2 hg2

theorem is_opaque_respects (chunk : mc_chunk) (cb cb1 : chunk_builder)
    (h : table_grows chunk cb cb1) (p : ivec3) :
    block_at_pos_is_opaque cb1 p chunk = block_at_pos_is_opaque cb p chunk := by
  have hd := table_grows_definition chunk cb cb1 h
  obtain ⟨a1, a2, a3, -, -⟩ := h
  simp only [ block_at_pos_is_opaque, pos_to_idx, a1, a2, a3, hd]

theorem is_same_respects (chunk : mc_chunk) (cb cb1 : chunk_builder)
    (h : table_grows chunk cb cb1) (p off : ivec3) :
    block_at_offset_is_same cb1 p off chunk = block_at_offset_is_same cb p off chunk := by
  have hd := table_grows_definition chunk cb cb1 h
  obtain ⟨a1, a2, a3, -, -⟩ := h
  simp only [block_at_offset_is_same, pos_to_idx, a1, a2, a3, hd]

theorem face_is_needed_respects (chunk : mc_chunk) (cb cb1 : chunk_builder)
    (h : table_grows chunk cb cb1) (p off : ivec3) :
    face_is_needed cb1 p off chunk = face_is_needed cb p off chunk := by
  simp only [face_is_needed, is_opaque_respects chunk cb cb1 h,
    is_same_respects chunk cb cb1 h]

theorem faces_to_make_respects (chunk : mc_chunk) (cb cb1 : chunk_builder)
    (h : table_grows chunk cb cb1) (p : ivec3) :
    faces_to_make cb1 p chunk = faces_to_make cb p chunk := by
  simp only [faces_to_make, face_is_needed_respects chunk cb cb1 h]

theorem make_geometry_respects (chunk : mc_chunk) (cb cb1 : chunk_builder)
    (h : table_grows chunk cb cb1) (p : ivec3) (name : Option String) :
    make_geometry_for_block cb1 p chunk name = make_geometry_for_block cb p chunk name := by
  simp only [make_geometry_for_block, faces_to_make_respects chunk cb cb1 h, h.2.2.2.1]

theorem put_block_respects (chunk : mc_chunk) (cb cb1 : chunk_builder)
    (h : table_grows chunk cb cb1) (buf : mesh_buffers) (p : ivec3) :
    put_block cb1 chunk buf p = put_block cb chunk buf p := by
  have hd := table_grows_definition chunk cb cb1 h
  simp only [put_block, make_geometry_respects chunk cb cb1 h, pos_to_idx, h.1, h.2.1, hd]

theorem filter_cell_respects (chunk : mc_chunk) (cb cb1 : chunk_builder)
    (h : table_grows chunk cb cb1) (filter : mc_block_definition → Bool) (z y x : Int)
    (acc : List ivec3) :
    filter_cell cb1 chunk filter z y acc x = filter_cell cb chunk filter z y acc x := by
  have hd := table_grows_definition chunk cb cb1 h
  simp only [filter_cell, h.1, h.2.1, hd]

theorem is_opaque_st_refines (chunk : mc_chunk) (cb : chunk_builder) (p : ivec3) :
    refines chunk cb (block_at_pos_is_opaque_st cb p chunk)
      ( block_at_pos_is_opaque cb p chunk) := by
  unfold block_at_pos_is_opaque_st block_at_pos_is_opaque
  split_ifs
  · exact ⟨rfl, table_grows_refl chunk cb⟩
  · exact ⟨rfl, table_grows_refl chunk cb⟩
  · exact ⟨rfl, table_grows_refl chunk cb⟩
  · cases hb : chunk.block (pos_to_idx cb p) with
    | none => simp [refines, hb]
    | some b =>
      simp only [refines, hb, definition_st_fst]
      exact ⟨trivial, definition_st_grows chunk cb b (block_mem chunk _ b hb)⟩

theorem is_same_st_refines (chunk : mc_chunk) (cb : chunk_builder) (p off : ivec3) :
    refines chunk cb (block_at_offset_is_same_st cb p off chunk)
      (block_at_offset_is_same cb p off chunk) := by
  unfold block_at_offset_is_same_st block_at_offset_is_same
  split_ifs
  · exact ⟨rfl, table_grows_refl chunk cb⟩
  · exact ⟨rfl, table_grows_refl chunk cb⟩
  · exact ⟨rfl, table_grows_refl chunk cb⟩
  · cases hb : chunk.block (pos_to_idx cb p) with
    | none => simp [refines, hb]
    | some b =>
      cases hb2 : chunk.block (pos_to_idx cb (p + off)) with
      | none => simp [refines, hb, hb2]
      | some b2 =>
        have g1 := definition_st_grows chunk cb b (block_mem chunk _ b hb)
        have g2 := definition_st_grows chunk (cb.definition_st b.id).2 b2
          (block_mem chunk _ b2 hb2)
        have e2 : (cb.definition_st b.id).2.definition b2.id = cb.definition b2.id :=
          table_grows_definition chunk cb _ g1 b2.id
        simp only [hb, hb2, definition_st_fst, e2]
        cases hs : strcmp_is_zero (cb.definition b.id).name (cb.definition b2.id).name with
        | none => simp [refines]
        | some same =>
          simp only [refines]
          exact ⟨trivial, table_grows_trans chunk cb _ _ g1 g2⟩

theorem face_is_needed_st_refines (chunk : mc_chunk) (cb cb1 : chunk_builder)
    (hg : table_grows chunk cb cb1) (p off : ivec3) :
    refines chunk cb (face_is_needed_st cb1 p off chunk) (face_is_needed cb p off chunk) := by
  apply refines_of_grows chunk cb cb1 _ _ hg
  rw [← face_is_needed_respects chunk cb cb1 hg]
  unfold face_is_needed_st face_is_needed
  have h1 := is_opaque_st_refines chunk cb1 (p + off)
  cases ho : block_at_pos_is_opaque_st cb1 (p + off) chunk with
  | none =>
    rw [ho] at h1
    simp only [refines] at h1
    simp [refines, h1]
  | some r =>
    rw [ho] at h1
    obtain ⟨hv, hg1⟩ := h1
    rw [hv]
    obtain ⟨o, cb2⟩ := r
    cases o with
    | true => exact ⟨rfl, hg1⟩
    | false =>
      simp only
      have h2 := is_same_st_refines chunk cb2 p off
      rw [is_same_respects chunk cb1 cb2 hg1] at h2
      cases hs : block_at_offset_is_same_st cb2 p off chunk with
      | none =>
        rw [hs] at h2
        simp only [refines] at h2
        simp [refines, h2]
      | some r2 =>
        rw [hs] at h2
        obtain ⟨hv2, hg2⟩ := h2
        rw [hv2]
        exact ⟨rfl, table_grows_trans chunk cb1 cb2 r2.2 hg1 hg2⟩

theorem faces_to_make_st_refines (chunk : mc_chunk) (cb cb1 : chunk_builder)
    (hg : table_grows chunk cb cb1) (p : ivec3) :
    refines chunk cb (faces_to_make_st cb1 p chunk) (faces_to_make cb p chunk) := by
  unfold faces_to_make_st faces_to_make
  simp only [Option.bind_eq_bind, Option.pure_def]
  apply refines_bind chunk cb _ _ _ _ (face_is_needed_st_refines chunk cb cb1 hg p _)
  intro a1 c1 g1
  beta_reduce
  apply refines_bind chunk cb _ _ _ _ (face_is_needed_st_refines chunk cb c1 g1 p _)
  intro a2 c2 g2
  beta_reduce
  apply refines_bind chunk cb _ _ _ _ (face_is_needed_st_refines chunk cb c2 g2 p _)
  intro a3 c3 g3
  beta_reduce
  apply refines_bind chunk cb _ _ _ _ (face_is_needed_st_refines chunk cb c3 g3 p _)
  intro a4 c4 g4
  beta_reduce
  apply refines_bind chunk cb _ _ _ _ (face_is_needed_st_refines chunk cb c4 g4 p _)
  intro a5 c5 g5
  beta_reduce
  apply refines_bind chunk cb _ _ _ _ (face_is_needed_st_refines chunk cb c5 g5 p _)
  intro a6 c6 g6
  exact ⟨rfl, g6⟩

theorem make_geometry_st_refines (chunk : mc_chunk) (cb cb1 : chunk_builder)
    (hg : table_grows chunk cb cb1) (p : ivec3) (name : Option String) :
    refines chunk cb (make_geometry_for_block_st cb1 p chunk name)
      (make_geometry_for_block cb p chunk name) := by
  unfold make_geometry_for_block_st make_geometry_for_block
  simp only [Option.bind_eq_bind, Option.pure_def]
  apply refines_bind chunk cb _ _ _ _ (faces_to_make_st_refines chunk cb cb1 hg p)
  intro faces c1 g1
  cases name with
  | none => simp [refines]
  | some s =>
    simp only [Option.some_bind, refines, g1.2.2.2.1]
    exact ⟨trivial, g1⟩

theorem put_block_st_refines (chunk : mc_chunk) (cb cb1 : chunk_builder)
    (hg : table_grows chunk cb cb1) (buf : mesh_buffers) (p : ivec3) :
    refines chunk cb (put_block_st chunk (buf, cb1) p) (put_block cb chunk buf p) := by
  apply refines_of_grows chunk cb cb1 _ _ hg
  rw [← put_block_respects chunk cb cb1 hg]
  unfold put_block_st put_block
  simp only [Option.bind_eq_bind, Option.pure_def]
  cases hb : chunk.block (pos_to_idx cb1 p) with
  | none => simp [refines]
  | some b =>
    have g1 := definition_st_grows chunk cb1 b (block_mem chunk _ b hb)
    simp only [Option.some_bind, definition_st_fst]
    cases hc : (cb1.definition b.id).is_cube with
    | false =>
      simp only [Bool.not_false, Bool.not_true, Bool.false_eq_true, if_false, Option.some_bind,
        refines, List.foldl_nil]
      exact ⟨trivial, g1⟩
    | true =>
      simp only [Bool.not_true, Bool.not_false, if_true]
      apply refines_bind chunk cb1 _ _ _ _
        (make_geometry_st_refines chunk cb1 _ g1 p (cb1.definition b.id).texture_name)
      intro quads c2 g2
      exact ⟨rfl, g2⟩

theorem put_blocks_eq_foldlM (cb : chunk_builder) (chunk : mc_chunk) (blocks : List ivec3)
    (buf : mesh_buffers) :
    put_blocks cb chunk blocks buf = blocks.foldlM (put_block cb chunk) buf := by
  induction blocks generalizing buf with
  | nil => rfl
  | cons p rest ih =>
    simp only [put_blocks, List.foldlM_cons, Option.bind_eq_bind]
    cases put_block cb chunk buf p with
    | none => rfl
    | some buf1 => simpa using ih buf1

/-- The state-passing mesh builder returns the mesh of `make_mesh_for_blocks`, and a table
that has only grown. -/
theorem make_mesh_st_refines (chunk : mc_chunk) (cb : chunk_builder) (blocks : List ivec3) :
    refines chunk cb (make_mesh_for_blocks_st cb blocks chunk)
      (make_mesh_for_blocks cb blocks chunk) := by
  unfold make_mesh_for_blocks_st make_mesh_for_blocks
  rw [put_blocks_eq_foldlM]
  have h := refines_foldlM chunk cb (put_block_st chunk) (put_block cb chunk) blocks
    (fun s i cb1 _ hg => put_block_st_refines chunk cb cb1 hg s i)
    { vertices := [], indices := [], cur_index := 0 } cb (table_grows_refl chunk cb)
  cases hf : blocks.foldlM (put_block_st chunk)
      ({ vertices := [], indices := [], cur_index := 0 }, cb) with
  | none =>
    rw [hf] at h
    simp only [refines] at h
    simp [refines, h]
  | some r =>
    rw [hf] at h
    obtain ⟨hv, hg⟩ := h
    simp only [refines, hv]
    exact ⟨trivial, hg⟩

theorem filter_cell_st_refines (chunk : mc_chunk) (cb cb1 : chunk_builder)
    (hg : table_grows chunk cb cb1) (filter : mc_block_definition → Bool) (z y x : Int)
    (acc : List ivec3) :
    refines chunk cb (filter_cell_st chunk filter z y (acc, cb1) x)
      (filter_cell cb chunk filter z y acc x) := by
  apply refines_of_grows chunk cb cb1 _ _ hg
  rw [← filter_cell_respects chunk cb cb1 hg]
  unfold filter_cell_st filter_cell
  cases hb : chunk.block (x + y * cb1.CHUNK_WIDTH + z * cb1.CHUNK_WIDTH * cb1.CHUNK_HEIGHT) with
  | none => simp [refines, hb]
  | some b =>
    have g1 := definition_st_grows chunk cb1 b (block_mem chunk _ b hb)
    simp only [hb, definition_st_fst]
    split_ifs
    · exact ⟨rfl, g1⟩
    · exact ⟨rfl, g1⟩

/-- The state-passing selector returns the list of `get_blocks_that_match_filter`, and a
table that has only grown. -/
theorem get_blocks_st_refines (chunk : mc_chunk) (cb : chunk_builder)
    (filter : mc_block_definition → Bool) :
    refines chunk cb (get_blocks_that_match_filter_st cb chunk filter)
      (get_blocks_that_match_filter cb chunk filter) := by
  unfold get_blocks_that_match_filter_st get_blocks_that_match_filter
  apply refines_foldlM chunk cb _ _ _ _ [] cb (table_grows_refl chunk cb)
  intro acc z c1 _ g1
  apply refines_foldlM chunk cb _ _ _ _ acc c1 g1
  intro acc1 y c2 _ g2
  apply refines_foldlM chunk cb _ _ _ _ acc1 c2 g2
  intro acc2 x c3 _ g3
  exact filter_cell_st_refines chunk cb c3 g3 filter z y x acc2

theorem st_of_refines {α : Type} (chunk : mc_chunk) (cb : chunk_builder)
    (st : Option (α × chunk_builder)) (v : Option α) (h : refines chunk cb st v) :
    (∀ a cb1, st = some (a, cb1) → v = some a ∧ table_grows chunk cb cb1) ∧
      (∀ a, v = some a → ∃ cb1, st = some (a, cb1)) := by
  cases st with
  | none =>
    simp only [refines] at h
    exact ⟨fun a cb1 h1 => by simp at h1, fun a h1 => by rw [h] at h1; simp at h1⟩
  | some r =>
    obtain ⟨hv, hg⟩ := h
    constructor
    · intro a cb1 h1
      simp only [Option.some.injEq] at h1
      rw [h1] at hv hg
      exact ⟨hv, hg⟩
    · intro a h1
      rw [hv] at h1
      simp only [Option.some.injEq] at h1
      exact ⟨r.2, by rw [← h1]⟩

/-! ### Entries inserted by the lookups -/

theorem lookup_of_grows (chunk : mc_chunk) (cb cb1 : chunk_builder)
    (h : table_grows chunk cb cb1) (id : Int) (d : mc_block_definition)
    (hl : cb.block_definitions.lookup id = some d) :
    cb1.block_definitions.lookup id = some d := by
  obtain ⟨-, -, -, -, extra, ht, -⟩ := h
  rw [ht, List.lookup_append, hl]
  rfl

theorem definition_st_lookup (cb : chunk_builder) (id : Int) :
    (cb.definition_st id).2.block_definitions.lookup id = some (cb.definition id) := by
  unfold chunk_builder.definition_st chunk_builder.definition
  cases hl : cb.block_definitions.lookup id with
  | some d => simp [hl]
  | none => simp [List.lookup_append, hl, List.lookup]

theorem definition_none (cb : chunk_builder) (id : Int)
    (h : cb.block_definitions.lookup id = none) :
    cb.definition id = mc_block_definition.value_initialized := by
  unfold chunk_builder.definition
  rw [h]

theorem entry_at_grows (chunk : mc_chunk) (cb c c1 : chunk_builder) (i : Int)
    (hg : table_grows chunk c c1) (h : entry_at chunk cb c i) : entry_at chunk cb c1 i := by
  obtain ⟨b, hb, h1, h2⟩ := h
  exact ⟨b, hb, lookup_of_grows chunk c c1 hg _ _ h1,
    fun hn => lookup_of_grows chunk c c1 hg _ _ (h2 hn)⟩

theorem entry_at_definition_st (chunk : mc_chunk) (cb c : chunk_builder) (i : Int)
    (b : mc_block) (hg : table_grows chunk cb c) (hb : chunk.block i = some b) :
    entry_at chunk cb (c.definition_st b.id).2 i := by
  have h := definition_st_lookup c b.id
  rw [table_grows_definition chunk cb c hg] at h
  refine ⟨b, hb, h, fun hn => ?_⟩
  rw [h, definition_none cb b.id hn]

/-- A loop whose steps only let the table grow, and each of which establishes a property of
the table that growth preserves, establishes the property for every element of the list. -/
theorem foldlM_entries {σ ι : Type} (chunk : mc_chunk) (cb : chunk_builder)
    (f : σ × chunk_builder → ι → Option (σ × chunk_builder)) (Q : ι → chunk_builder → Prop)
    (hmono : ∀ i c c1, table_grows chunk c c1 → Q i c → Q i c1)
    (l : List ι)
    (hstep : ∀ s i r, i ∈ l → table_grows chunk cb s.2 → f s i = some r →
      table_grows chunk s.2 r.2 ∧ Q i r.2)
    (s r : σ × chunk_builder) (hs : table_grows chunk cb s.2) (h : l.foldlM f s = some r) :
    table_grows chunk s.2 r.2 ∧ ∀ i ∈ l, Q i r.2 := by
  induction l generalizing s with
  | nil =>
    simp only [List.foldlM_nil, Option.pure_def, Option.some.injEq] at h
    subst h
    exact ⟨table_grows_refl chunk s.2, fun i hi => by simp at hi⟩
  | cons a rest ih =>
    simp only [List.foldlM_cons, Option.bind_eq_bind] at h
    cases hf : f s a with
    | none => simp [hf] at h
    | some s1 =>
      simp only [hf, Option.some_bind] at h
      obtain ⟨g1, q1⟩ := hstep s a s1 (List.mem_cons_self _ _) hs hf
      obtain ⟨g2, q2⟩ := ih (fun s i r hi => hstep s i r (List.mem_cons_of_mem _ hi)) s1
        (table_grows_trans chunk cb s.2 s1.2 hs g1) h
      refine ⟨table_grows_trans chunk s.2 s1.2 r.2 g1 g2, ?_⟩
      intro i hi
      rcases List.mem_cons.mp hi with e | e
      · subst e
        exact hmono _ _ _ g2 q1
      · exact q2 i e

theorem filter_cell_st_entry (chunk : mc_chunk) (cb : chunk_builder)
    (filter : mc_block_definition → Bool) (z y x : Int) (s r : List ivec3 × chunk_builder)
    (hs : table_grows chunk cb s.2) (h : filter_cell_st chunk filter z y s x = some r) :
    table_grows chunk s.2 r.2 ∧
      entry_at chunk cb r.2 (x + y * cb.CHUNK_WIDTH + z * cb.CHUNK_WIDTH * cb.CHUNK_HEIGHT) := by
  unfold filter_cell_st at h
  rw [hs.1, hs.2.1] at h
  cases hb : chunk.block (x + y * cb.CHUNK_WIDTH + z * cb.CHUNK_WIDTH * cb.CHUNK_HEIGHT) with
  | none => simp [hb] at h
  | some b =>
    simp only [hb] at h
    have hr : r.2 = (s.2.definition_st b.id).2 := by
      split_ifs at h <;> (simp only [Option.some.injEq] at h; rw [← h])
    rw [hr]
    exact ⟨definition_st_grows chunk s.2 b (block_mem chunk _ b hb),
      entry_at_definition_st chunk cb s.2 _ b hs hb⟩

/-- After the selector has returned, the table has an entry for the id of every block that
its loops have read. -/
theorem get_blocks_st_entries (chunk : mc_chunk) (cb : chunk_builder)
    (filter : mc_block_definition → Bool) (l : List ivec3) (cb1 : chunk_builder)
    (h : get_blocks_that_match_filter_st cb chunk filter = some (l, cb1)) :
    ∀ z ∈ loop_range cb.CHUNK_WIDTH, ∀ y ∈ loop_range cb.CHUNK_HEIGHT,
      ∀ x ∈ loop_range cb.CHUNK_DEPTH,
        entry_at chunk cb cb1 (x + y * cb.CHUNK_WIDTH + z * cb.CHUNK_WIDTH * cb.CHUNK_HEIGHT) := by
  unfold get_blocks_that_match_filter_st at h
  have hz := foldlM_entries chunk cb _
    (fun z c => ∀ y ∈ loop_range cb.CHUNK_HEIGHT, ∀ x ∈ loop_range cb.CHUNK_DEPTH,
      entry_at chunk cb c (x + y * cb.CHUNK_WIDTH + z * cb.CHUNK_WIDTH * cb.CHUNK_HEIGHT))
    (fun z c c1 hg hq y hy x hx => entry_at_grows chunk cb c c1 _ hg (hq y hy x hx))
    (loop_range cb.CHUNK_WIDTH) ?_ ([], cb) (l, cb1) (table_grows_refl chunk cb) h
  · exact hz.2
  · intro s z r _ hs hr
    refine foldlM_entries chunk cb _
      (fun y c => ∀ x ∈ loop_range cb.CHUNK_DEPTH,
        entry_at chunk cb c (x + y * cb.CHUNK_WIDTH + z * cb.CHUNK_WIDTH * cb.CHUNK_HEIGHT))
      (fun y c c1 hg hq x hx => entry_at_grows chunk cb c c1 _ hg (hq x hx))
      (loop_range cb.CHUNK_HEIGHT) ?_ s r hs hr
    intro s1 y r1 _ hs1 hr1
    refine foldlM_entries chunk cb _
      (fun x c =>
        entry_at chunk cb c (x + y * cb.CHUNK_WIDTH + z * cb.CHUNK_WIDTH * cb.CHUNK_HEIGHT))
      (fun x c c1 hg hq => entry_at_grows chunk cb c c1 _ hg hq)
      (loop_range cb.CHUNK_DEPTH) ?_ s1 r1 hs1 hr1
    intro s2 x r2 _ hs2 hr2
    exact filter_cell_st_entry chunk cb filter z y x s2 r2 hs2 hr2

theorem put_block_st_entry (chunk : mc_chunk) (cb : chunk_builder) (p : ivec3)
    (s r : mesh_buffers × chunk_builder) (hs : table_grows chunk cb s.2)
    (h : put_block_st chunk s p = some r) :
    table_grows chunk s.2 r.2 ∧ entry_at chunk cb r.2 (pos_to_idx cb p) := by
  have hgrow : table_grows chunk s.2 r.2 :=
    ((st_of_refines chunk s.2 _ _
      (put_block_st_refines chunk s.2 s.2 (table_grows_refl chunk s.2) s.1 p)).1 r.1 r.2 h).2
  refine ⟨hgrow, ?_⟩
  have hidx : pos_to_idx s.2 p = pos_to_idx cb p := by
    unfold pos_to_idx
    rw [hs.1, hs.2.1]
  unfold put_block_st at h
  simp only [Option.bind_eq_bind, Option.pure_def, hidx] at h
  cases hb : chunk.block (pos_to_idx cb p) with
  | none => simp [hb] at h
  | some b =>
    simp only [hb, Option.some_bind] at h
    have he := entry_at_definition_st chunk cb s.2 _ b hs hb
    cases hc : (s.2.definition_st b.id).1.is_cube with
    | false =>
      simp only [hc, Bool.not_false, Bool.not_true, Bool.false_eq_true, if_false,
        Option.some_bind, Option.some.injEq] at h
      rw [← h]
      exact he
    | true =>
      simp only [hc, Bool.not_true, Bool.not_false, if_true] at h
      cases hm : make_geometry_for_block_st (s.2.definition_st b.id).2 p chunk
          (s.2.definition_st b.id).1.texture_name with
      | none => simp [hm] at h
      | some fb =>
        simp only [hm, Option.some_bind, Option.some.injEq] at h
        have hg2 : table_grows chunk (s.2.definition_st b.id).2 fb.2 :=
          ((st_of_refines chunk _ _ _
            (make_geometry_st_refines chunk _ _ (table_grows_refl chunk _) p
              (s.2.definition_st b.id).1.texture_name)).1 fb.1 fb.2 hm).2
        rw [← h]
        exact entry_at_grows chunk cb _ _ _ hg2 he

/-- After the mesh builder has returned, the table has an entry for the id of every listed
block. -/
theorem make_mesh_st_entries (chunk : mc_chunk) (cb : chunk_builder) (blocks : List ivec3)
    (mesh : mesh_definition) (cb1 : chunk_builder)
    (h : make_mesh_for_blocks_st cb blocks chunk = some (mesh, cb1)) :
    ∀ p ∈ blocks, entry_at chunk cb cb1 (pos_to_idx cb p) := by
  unfold make_mesh_for_blocks_st at h
  cases hf : blocks.foldlM (put_block_st chunk)
      ({ vertices := [], indices := [], cur_index := 0 }, cb) with
  | none => simp [hf] at h
  | some r =>
    simp only [hf, Option.some.injEq, Prod.mk.injEq] at h
    have := (foldlM_entries chunk cb (put_block_st chunk)
      (fun p c => entry_at chunk cb c (pos_to_idx cb p))
      (fun p c c1 hg hq => entry_at_grows chunk cb c c1 _ hg hq) blocks
      (fun s p r1 _ hs hr => put_block_st_entry chunk cb p s r1 hs hr)
      _ r (table_grows_refl chunk cb) hf).2
    rw [h.2] at this
    exact this

theorem put_block_missing (cb : chunk_builder) (chunk : mc_chunk) (buf : mesh_buffers)
    (p : ivec3) (b : mc_block) (hb : chunk.block (pos_to_idx cb p) = some b)
    (hl : cb.block_definitions.lookup b.id = none) : put_block cb chunk buf p = some buf := by
  apply put_block_non_cube
  simp [is_non_cube_at, definition_at, hb, chunk_builder.definition, hl,
    mc_block_definition.value_initialized]

theorem vec3_neg_def (a : vec3) : -a = ⟨-a.x, -a.y, -a.z⟩ := rfl

/-! ### The index of a cell -/

theorem digits_unique (m r q r1 q1 : Int) (hr : 0 ≤ r ∧ r < m) (hr1 : 0 ≤ r1 ∧ r1 < m)
    (h : r + q * m = r1 + q1 * m) : r = r1 ∧ q = q1 := by
  have hq : q = q1 := by
    rcases lt_trichotomy q q1 with hlt | heq | hgt
    · exfalso
      have h1 : (q + 1) * m ≤ q1 * m := mul_le_mul_of_nonneg_right (by omega) (by omega)
      nlinarith
    · exact heq
    · exfalso
      have h1 : (q1 + 1) * m ≤ q * m := mul_le_mul_of_nonneg_right (by omega) (by omega)
      nlinarith
  subst hq
  exact ⟨by linarith, rfl⟩

theorem pos_to_idx_injective (cb : chunk_builder) (p q : ivec3) (hp : cb.in_bounds p)
    (hq : cb.in_bounds q) (h : pos_to_idx cb p = pos_to_idx cb q) : p = q := by
  obtain ⟨hpx, hpy, -⟩ := hp
  obtain ⟨hqx, hqy, -⟩ := hq
  unfold pos_to_idx at h
  have h1 : p.x + (p.y + p.z * cb.CHUNK_HEIGHT) * cb.CHUNK_WIDTH =
      q.x + (q.y + q.z * cb.CHUNK_HEIGHT) * cb.CHUNK_WIDTH := by
    linarith
  obtain ⟨ex, e1⟩ := digits_unique cb.CHUNK_WIDTH _ _ _ _ hpx hqx h1
  obtain ⟨ey, ez⟩ := digits_unique cb.CHUNK_HEIGHT _ _ _ _ hpy hqy e1
  exact ivec3_eq p q ex ey ez

/-! ### The plane of a quad -/

theorem quad_plane (d : face_id) (t : texture_location) (p : ivec3) (i : Fin 4) :
    (d.offset.x = 1 → (quad_position d 1 t i + p.to_vec3).x = (p.x : ℚ) + 1) ∧
      (d.offset.x = -1 → (quad_position d 1 t i + p.to_vec3).x = (p.x : ℚ) + 0) ∧
      (d.offset.y = 1 → (quad_position d 1 t i + p.to_vec3).y = (p.y : ℚ) + 1) ∧
      (d.offset.y = -1 → (quad_position d 1 t i + p.to_vec3).y = (p.y : ℚ) + 0) ∧
      (d.offset.z = 1 → (quad_position d 1 t i + p.to_vec3).z = (p.z : ℚ) + 1) ∧
      (d.offset.z = -1 → (quad_position d 1 t i + p.to_vec3).z = (p.z : ℚ) + 0) := by
  cases d <;> fin_cases i <;>
    simp [quad_position, make_quad, array4, face_id.offset, vec3_add_def, ivec3.to_vec3,
      add_comm]

/-! ### The order of the selector -/

theorem loop_range_pairwise (n : Int) : (loop_range n).Pairwise (fun a b => a < b) := by
  unfold loop_range
  rw [List.pairwise_map]
  exact (List.pairwise_lt_range n.toNat).imp (fun h => by omega)

theorem selector_row_mem (m : Int → Bool) (l : List Int) (y z : Int) (a : ivec3)
    (h : a ∈ l.flatMap (fun x => if m x then [(⟨x, y, z⟩ : ivec3)] else [])) :
    a.x ∈ l ∧ a.y = y ∧ a.z = z := by
  obtain ⟨x, hx, ha⟩ := List.mem_flatMap.mp h
  by_cases hm : m x = true
  · simp only [hm, if_true, List.mem_singleton] at ha
    rw [ha]
    exact ⟨hx, rfl, rfl⟩
  · simp [hm] at ha

theorem selector_row_pairwise (m : Int → Bool) (l : List Int) (y z : Int)
    (hl : l.Pairwise (fun a b => a < b)) :
    (l.flatMap (fun x => if m x then [(⟨x, y, z⟩ : ivec3)] else [])).Pairwise zyx_lt := by
  rw [List.pairwise_flatMap]
  constructor
  · intro x _
    split_ifs <;> simp
  · refine hl.imp ?_
    intro x1 x2 hlt a ha b hb
    split_ifs at ha hb <;> simp at ha hb
    rw [ha, hb]
    exact Or.inr ⟨rfl, Or.inr ⟨rfl, hlt⟩⟩

theorem selector_plane_pairwise (m : Int → Int → Bool) (lx ly : List Int) (z : Int)
    (hx : lx.Pairwise (fun a b => a < b)) (hy : ly.Pairwise (fun a b => a < b)) :
    (ly.flatMap (fun y =>
      lx.flatMap (fun x => if m x y then [(⟨x, y, z⟩ : ivec3)] else []))).Pairwise zyx_lt := by
  rw [List.pairwise_flatMap]
  constructor
  · intro y _
    exact selector_row_pairwise (fun x => m x y) lx y z hx
  · refine hy.imp ?_
    intro y1 y2 hlt a ha b hb
    obtain ⟨-, ha1, ha2⟩ := selector_row_mem (fun x => m x y1) lx y1 z a ha
    obtain ⟨-, hb1, hb2⟩ := selector_row_mem (fun x => m x y2) lx y2 z b hb
    exact Or.inr ⟨by rw [ha2, hb2], Or.inl (by rw [ha1, hb1]; exact hlt)⟩

theorem selector_volume_pairwise (m : Int → Int → Int → Bool) (lx ly lz : List Int)
    (hx : lx.Pairwise (fun a b => a < b)) (hy : ly.Pairwise (fun a b => a < b))
    (hz : lz.Pairwise (fun a b => a < b)) :
    (lz.flatMap (fun z => ly.flatMap (fun y =>
      lx.flatMap (fun x => if m x y z then [(⟨x, y, z⟩ : ivec3)] else [])))).Pairwise
        zyx_lt := by
  rw [List.pairwise_flatMap]
  constructor
  · intro z _
    exact selector_plane_pairwise (fun x y => m x y z) lx ly z hx hy
  · refine hz.imp ?_
    intro z1 z2 hlt a ha b hb
    obtain ⟨y1, -, ha⟩ := List.mem_flatMap.mp ha
    obtain ⟨y2, -, hb⟩ := List.mem_flatMap.mp hb
    obtain ⟨-, -, ha2⟩ := selector_row_mem (fun x => m x y1 z1) lx y1 z1 a ha
    obtain ⟨-, -, hb2⟩ := selector_row_mem (fun x => m x y2 z2) lx y2 z2 b hb
    exact Or.inl (by rw [ha2, hb2]; exact hlt)

/-! ### The hull of a solid chunk -/

theorem hull_sum (W H D : Int) (hW : 0 < W) (hH : 0 < H) (hD : 0 < D) :
    (∑ t ∈ Finset.Ico (0 : Int) W ×ˢ Finset.Ico (0 : Int) H ×ˢ Finset.Ico (0 : Int) D,
      ((if H ≤ t.2.1 + 1 then 1 else 0) + (if t.2.1 - 1 < 0 then 1 else 0)
        + (if W ≤ t.1 + 1 then 1 else 0) + (if t.1 - 1 < 0 then 1 else 0)
        + (if D ≤ t.2.2 + 1 then 1 else 0) + (if t.2.2 - 1 < 0 then 1 else 0) : Nat)) =
      2 * (W.toNat * H.toNat + H.toNat * D.toNat + W.toNat * D.toNat) := by
  simp only [Finset.sum_add_distrib, ← Finset.card_filter]
  have e1 : (Finset.Ico (0 : Int) W ×ˢ Finset.Ico (0 : Int) H ×ˢ Finset.Ico (0 : Int) D).filter
      (fun t => H ≤ t.2.1 + 1) = Finset.Ico (0 : Int) W ×ˢ {H - 1} ×ˢ Finset.Ico (0 : Int) D := by
    ext ⟨x, y, z⟩
    simp only [Finset.mem_filter, Finset.mem_product, Finset.mem_Ico, Finset.mem_singleton]
    omega
  have e2 : (Finset.Ico (0 : Int) W ×ˢ Finset.Ico (0 : Int) H ×ˢ Finset.Ico (0 : Int) D).filter
      (fun t => t.2.1 - 1 < 0) = Finset.Ico (0 : Int) W ×ˢ {0} ×ˢ Finset.Ico (0 : Int) D := by
    ext ⟨x, y, z⟩
    simp only [Finset.mem_filter, Finset.mem_product, Finset.mem_Ico, Finset.mem_singleton]
    omega
  have e3 : (Finset.Ico (0 : Int) W ×ˢ Finset.Ico (0 : Int) H ×ˢ Finset.Ico (0 : Int) D).filter
      (fun t => W ≤ t.1 + 1) = {W - 1} ×ˢ Finset.Ico (0 : Int) H ×ˢ Finset.Ico (0 : Int) D := by
    ext ⟨x, y, z⟩
    simp only [Finset.mem_filter, Finset.mem_product, Finset.mem_Ico, Finset.mem_singleton]
    omega
  have e4 : (Finset.Ico (0 : Int) W ×ˢ Finset.Ico (0 : Int) H ×ˢ Finset.Ico (0 : Int) D).filter
      (fun t => t.1 - 1 < 0) = {0} ×ˢ Finset.Ico (0 : Int) H ×ˢ Finset.Ico (0 : Int) D := by
    ext ⟨x, y, z⟩
    simp only [Finset.mem_filter, Finset.mem_product, Finset.mem_Ico, Finset.mem_singleton]
    omega
  have e5 : (Finset.Ico (0 : Int) W ×ˢ Finset.Ico (0 : Int) H ×ˢ Finset.Ico (0 : Int) D).filter
      (fun t => D ≤ t.2.2 + 1) = Finset.Ico (0 : Int) W ×ˢ Finset.Ico (0 : Int) H ×ˢ {D - 1} := by
    ext ⟨x, y, z⟩
    simp only [Finset.mem_filter, Finset.mem_product, Finset.mem_Ico, Finset.mem_singleton]
    omega
  have e6 : (Finset.Ico (0 : Int) W ×ˢ Finset.Ico (0 : Int) H ×ˢ Finset.Ico (0 : Int) D).filter
      (fun t => t.2.2 - 1 < 0) = Finset.Ico (0 : Int) W ×ˢ Finset.Ico (0 : Int) H ×ˢ {0} := by
    ext ⟨x, y, z⟩
    simp only [Finset.mem_filter, Finset.mem_product, Finset.mem_Ico, Finset.mem_singleton]
    omega
  rw [e1, e2, e3, e4, e5, e6]
  simp only [Finset.card_product, Finset.card_singleton, Int.card_Ico, sub_zero]
  ring

theorem face_is_needed_solid (cb : chunk_builder) (chunk : mc_chunk) (p off : ivec3)
    (hwf : chunk.well_formed cb)
    (hsolid : ∀ b ∈ chunk.blocks, (cb.definition b.id).is_transparent = false)
    (hp : cb.in_bounds p) :
    face_is_needed cb p off chunk = some (decide (¬ cb.in_bounds (p + off))) := by
  by_cases h : cb.in_bounds (p + off)
  · rw [face_is_needed_false cb chunk p off hwf hp ⟨h, ?_⟩]
    · simp [h]
    · rintro ⟨dn, hdn, htr⟩
      obtain ⟨b, hb, hbd⟩ := block_mem_of_definition_at cb chunk _ dn hdn
      have := hsolid b hb
      rw [hbd, htr] at this
      exact absurd this (by simp)
  · rw [face_is_needed_true cb chunk p off hwf hp (Or.inl h)]
    simp [h]

theorem faces_to_make_solid (cb : chunk_builder) (chunk : mc_chunk) (p : ivec3)
    (hwf : chunk.well_formed cb)
    (hsolid : ∀ b ∈ chunk.blocks, (cb.definition b.id).is_transparent = false)
    (hp : cb.in_bounds p) :
    ∃ faces, faces_to_make cb p chunk = some faces ∧ faces.length = hull_faces cb p ∧
      faces.Nodup ∧ ∀ d : face_id, d ∈ faces ↔ ¬ cb.in_bounds (p + d.offset) := by
  have hf := faces_to_make_eq cb chunk p _ _ _ _ _ _
    (face_is_needed_solid cb chunk p ⟨0, 1, 0⟩ hwf hsolid hp)
    (face_is_needed_solid cb chunk p ⟨0, -1, 0⟩ hwf hsolid hp)
    (face_is_needed_solid cb chunk p ⟨1, 0, 0⟩ hwf hsolid hp)
    (face_is_needed_solid cb chunk p ⟨-1, 0, 0⟩ hwf hsolid hp)
    (face_is_needed_solid cb chunk p ⟨0, 0, 1⟩ hwf hsolid hp)
    (face_is_needed_solid cb chunk p ⟨0, 0, -1⟩ hwf hsolid hp)
  obtain ⟨l, hl, hnd, hmem⟩ := faces_to_make_spec cb chunk p hwf hp
  rw [hf] at hl
  have hll := Option.some.inj hl
  subst hll
  refine ⟨_, hf, ?_, hnd, ?_⟩
  · obtain ⟨⟨hx0, hx1⟩, ⟨hy0, hy1⟩, ⟨hz0, hz1⟩⟩ := hp
    have t1 : (¬ cb.in_bounds (p + ⟨0, 1, 0⟩)) ↔ cb.CHUNK_HEIGHT ≤ p.y + 1 := by
      simp only [chunk_builder.in_bounds, ivec3_add_x, ivec3_add_y, ivec3_add_z]; omega
    have t2 : (¬ cb.in_bounds (p + ⟨0, -1, 0⟩)) ↔ p.y - 1 < 0 := by
      simp only [chunk_builder.in_bounds, ivec3_add_x, ivec3_add_y, ivec3_add_z]; omega
    have t3 : (¬ cb.in_bounds (p + ⟨1, 0, 0⟩)) ↔ cb.CHUNK_WIDTH ≤ p.x + 1 := by
      simp only [chunk_builder.in_bounds, ivec3_add_x, ivec3_add_y, ivec3_add_z]; omega
    have t4 : (¬ cb.in_bounds (p + ⟨-1, 0, 0⟩)) ↔ p.x - 1 < 0 := by
      simp only [chunk_builder.in_bounds, ivec3_add_x, ivec3_add_y, ivec3_add_z]; omega
    have t5 : (¬ cb.in_bounds (p + ⟨0, 0, 1⟩)) ↔ cb.CHUNK_DEPTH ≤ p.z + 1 := by
      simp only [chunk_builder.in_bounds, ivec3_add_x, ivec3_add_y, ivec3_add_z]; omega
    have t6 : (¬ cb.in_bounds (p + ⟨0, 0, -1⟩)) ↔ p.z - 1 < 0 := by
      simp only [chunk_builder.in_bounds, ivec3_add_x, ivec3_add_y, ivec3_add_z]; omega
    simp only [hull_faces, List.length_append, decide_eq_true_eq, t1, t2, t3, t4, t5, t6]
    split_ifs <;> rfl
  · intro d
    rw [hmem d, face_is_needed_solid cb chunk p d.offset hwf hsolid hp]
    simp

theorem quads_of_block_solid (cb : chunk_builder) (chunk : mc_chunk) (p : ivec3)
    (hwf : chunk.well_formed cb)
    (hsolid : ∀ b ∈ chunk.blocks, (cb.definition b.id).is_cube = true ∧
      (cb.definition b.id).is_transparent = false)
    (hp : cb.in_bounds p) : quads_of_block cb chunk p = hull_faces cb p := by
  obtain ⟨faces, hf, hlen, -, -⟩ :=
    faces_to_make_solid cb chunk p hwf (fun b hb => (hsolid b hb).2) hp
  obtain ⟨b, hb, hmem⟩ := block_of_in_bounds cb chunk p hwf hp
  simp [quads_of_block, definition_at, hb, (hsolid b hmem).1, visible_faces, hf, hlen]

theorem quad_count_solid (cb : chunk_builder) (chunk : mc_chunk) (blocks : List ivec3)
    (hwf : chunk.well_formed cb)
    (hsolid : ∀ b ∈ chunk.blocks, (cb.definition b.id).is_cube = true ∧
      (cb.definition b.id).is_transparent = false)
    (hW : 0 < cb.CHUNK_WIDTH) (hH : 0 < cb.CHUNK_HEIGHT) (hD : 0 < cb.CHUNK_DEPTH)
    (hnd : blocks.Nodup) (hall : ∀ p, p ∈ blocks ↔ cb.in_bounds p) :
    quad_count cb chunk blocks =
      2 * (cb.CHUNK_WIDTH.toNat * cb.CHUNK_HEIGHT.toNat
        + cb.CHUNK_HEIGHT.toNat * cb.CHUNK_DEPTH.toNat
        + cb.CHUNK_WIDTH.toNat * cb.CHUNK_DEPTH.toNat) := by
  have h1 : quad_count cb chunk blocks = (blocks.map (hull_faces cb)).sum := by
    unfold quad_count
    congr 1
    apply List.map_congr_left
    intro p hp
    exact quads_of_block_solid cb chunk p hwf hsolid ((hall p).mp hp)
  have h2 : (blocks.map (hull_faces cb)).sum = ∑ p ∈ blocks.toFinset, hull_faces cb p :=
    (List.sum_toFinset (hull_faces cb) hnd).symm
  have h3 : blocks.toFinset =
      (Finset.Ico (0 : Int) cb.CHUNK_WIDTH ×ˢ Finset.Ico (0 : Int) cb.CHUNK_HEIGHT ×ˢ
        Finset.Ico (0 : Int) cb.CHUNK_DEPTH).image
          (fun t => (⟨t.1, t.2.1, t.2.2⟩ : ivec3)) := by
    ext p
    simp only [List.mem_toFinset, hall, Finset.mem_image, Finset.mem_product, Finset.mem_Ico,
      chunk_builder.in_bounds]
    constructor
    · intro h
      exact ⟨(p.x, p.y, p.z), h, rfl⟩
    · rintro ⟨t, ht, rfl⟩
      exact ht
  have h4 : ∀ a ∈ Finset.Ico (0 : Int) cb.CHUNK_WIDTH ×ˢ Finset.Ico (0 : Int) cb.CHUNK_HEIGHT ×ˢ
        Finset.Ico (0 : Int) cb.CHUNK_DEPTH,
      ∀ b ∈ Finset.Ico (0 : Int) cb.CHUNK_WIDTH ×ˢ Finset.Ico (0 : Int) cb.CHUNK_HEIGHT ×ˢ
        Finset.Ico (0 : Int) cb.CHUNK_DEPTH,
      (⟨a.1, a.2.1, a.2.2⟩ : ivec3) = ⟨b.1, b.2.1, b.2.2⟩ → a = b := by
    rintro ⟨a1, a2, a3⟩ - ⟨b1, b2, b3⟩ - h
    simp only [ivec3.mk.injEq] at h
    obtain ⟨e1, e2, e3⟩ := h
    rw [e1, e2, e3]
  rw [h1, h2, h3, Finset.sum_image h4]
  exact hull_sum cb.CHUNK_WIDTH cb.CHUNK_HEIGHT cb.CHUNK_DEPTH hW hH hD

/-! ## The claims -/

/-- C1. Face visibility: for an in-bounds cell `p` of a well-formed chunk,
`make_geometry_for_block` returns a list of quads, every one of them the quad of a direction,
and the quad of direction `d` is in the list if and only if the neighbour `p + d` is out of
bounds or transparent, and it is not an in-bounds cell whose definition has the name of the
block at `p`. -/
theorem face_visibility (cb : chunk_builder) (chunk : mc_chunk) (p : ivec3) (name : String)
    (hwf : chunk.well_formed cb) (hp : cb.in_bounds p) :
    ∃ quads, make_geometry_for_block cb p chunk (some name) = some quads ∧
      (∀ q ∈ quads, ∃ d : face_id, q = make_quad d 1 (cb.get_texture_location name)) ∧
      ∀ d : face_id, (make_quad d 1 (cb.get_texture_location name) ∈ quads ↔
        ((¬ cb.in_bounds (p + d.offset) ∨ transparent_at cb chunk (p + d.offset)) ∧
          ¬ (cb.in_bounds (p + d.offset) ∧ same_name_at cb chunk (p + d.offset) p))) := by
  obtain ⟨faces, -, -, hq, hmem⟩ := geometry_spec cb chunk p name hwf hp
  refine ⟨_, hq, ?_, ?_⟩
  · intro q hq
    obtain ⟨d, -, hd⟩ := List.mem_map.mp hq
    exact ⟨d, hd.symm⟩
  · intro d
    rw [mem_map_make_quad, hmem d]

/-- The statement of C1 at the stone cell of the stone and glass chunk. -/
theorem face_visibility_witness :
    ∃ quads, make_geometry_for_block pair_builder ⟨0, 0, 0⟩ stone_glass_chunk (some "stone")
        = some quads ∧
      (∀ q ∈ quads, ∃ d : face_id,
        q = make_quad d 1 (pair_builder.get_texture_location "stone")) ∧
      ∀ d : face_id, (make_quad d 1 (pair_builder.get_texture_location "stone") ∈ quads ↔
        ((¬ pair_builder.in_bounds (⟨0, 0, 0⟩ + d.offset) ∨
            transparent_at pair_builder stone_glass_chunk (⟨0, 0, 0⟩ + d.offset)) ∧
          ¬ (pair_builder.in_bounds (⟨0, 0, 0⟩ + d.offset) ∧
            same_name_at pair_builder stone_glass_chunk (⟨0, 0, 0⟩ + d.offset) ⟨0, 0, 0⟩))) :=
  face_visibility pair_builder stone_glass_chunk ⟨0, 0, 0⟩ "stone" (by decide) (by decide)

/-- C2. Index pattern: `make_mesh_for_blocks` returns a mesh for every list of in-bounds
blocks of a well-formed chunk, and whenever it returns a mesh of `Q` quads (a vertex buffer
of `4 * Q` vertices of 13 floats), the index buffer has `6 * Q` entries and its entries
`6k .. 6k+5` are `4k, 4k+1, 4k+2, 4k+1, 4k+2, 4k+3` for every `k < Q`. -/
theorem index_pattern (cb : chunk_builder) (blocks : List ivec3) (chunk : mc_chunk) :
    (chunk.well_formed cb → (∀ p ∈ blocks, cb.in_bounds p) →
        ∃ mesh, make_mesh_for_blocks cb blocks chunk = some mesh) ∧
      ∀ (mesh : mesh_definition) (Q : Nat), make_mesh_for_blocks cb blocks chunk = some mesh →
        mesh.vertex_data.length = 4 * Q * 13 →
        mesh.indices.length = 6 * Q ∧
          ∀ k, k < Q → (mesh.indices.drop (6 * k)).take 6 =
            [4 * k, 4 * k + 1, 4 * k + 2, 4 * k + 1, 4 * k + 2, 4 * k + 3] := by
  refine ⟨mesh_defined cb blocks chunk, ?_⟩
  intro mesh Q h hv
  obtain ⟨h1, h2⟩ := mesh_buffers_spec cb blocks chunk mesh h
  have hQ : Q = quad_count cb chunk blocks := by omega
  subst hQ
  rw [h2]
  exact ⟨quad_indices_length _, fun k hk => quad_indices_block _ k hk⟩

/-- The statement of C2 for the two cells of the stone and glass chunk, which give 11 quads. -/
theorem index_pattern_witness :
    ∃ mesh, make_mesh_for_blocks pair_builder [⟨0, 0, 0⟩, ⟨1, 0, 0⟩] stone_glass_chunk
        = some mesh ∧
      mesh.vertex_data.length = 4 * 11 * 13 ∧ mesh.indices.length = 6 * 11 ∧
      ∀ k, k < 11 → (mesh.indices.drop (6 * k)).take 6 =
        [4 * k, 4 * k + 1, 4 * k + 2, 4 * k + 1, 4 * k + 2, 4 * k + 3] := by
  obtain ⟨mesh, h⟩ := (index_pattern pair_builder [⟨0, 0, 0⟩, ⟨1, 0, 0⟩] stone_glass_chunk).1
    (by decide) (by decide)
  have hv : mesh.vertex_data.length = 4 * 11 * 13 := by
    rw [(mesh_buffers_spec _ _ _ mesh h).1]
    decide
  exact ⟨mesh, h, hv,
    (index_pattern pair_builder [⟨0, 0, 0⟩, ⟨1, 0, 0⟩] stone_glass_chunk).2 mesh 11 h hv⟩

/-- C3. Buffer consistency: `make_mesh_for_blocks` returns a mesh for every list of in-bounds
blocks of a well-formed chunk, and every mesh it returns has `4 * Q` vertices of 13 floats
and `6 * Q` indices, `Q` being the sum over the listed cube blocks of their numbers of
visible faces; every index is below `4 * Q`, and the six indices of the quad of rank `k`
lie between `4k` and `4k+3`. -/
theorem buffer_consistency (cb : chunk_builder) (blocks : List ivec3) (chunk : mc_chunk) :
    (chunk.well_formed cb → (∀ p ∈ blocks, cb.in_bounds p) →
        ∃ mesh, make_mesh_for_blocks cb blocks chunk = some mesh) ∧
      ∀ mesh : mesh_definition, make_mesh_for_blocks cb blocks chunk = some mesh →
        mesh.vertex_data.length = 4 * quad_count cb chunk blocks * 13 ∧
          (∀ v : block_vertex, v.floats.length = 13) ∧
          mesh.indices.length = 6 * quad_count cb chunk blocks ∧
          (∀ i ∈ mesh.indices, i < 4 * quad_count cb chunk blocks) ∧
          ∀ k, k < quad_count cb chunk blocks →
            ∀ i ∈ (mesh.indices.drop (6 * k)).take 6, 4 * k ≤ i ∧ i ≤ 4 * k + 3 := by
  refine ⟨mesh_defined cb blocks chunk, ?_⟩
  intro mesh h
  obtain ⟨h1, h2⟩ := mesh_buffers_spec cb blocks chunk mesh h
  refine ⟨h1, floats_length, ?_, ?_, ?_⟩
  · rw [h2, quad_indices_length]
  · intro i hi
    rw [h2] at hi
    exact quad_indices_lt _ i hi
  · intro k hk i hi
    rw [h2, quad_indices_block _ k hk] at hi
    simp at hi
    omega

/-- The statement of C3 for the two cells of the stone and glass chunk. -/
theorem buffer_consistency_witness :
    ∃ mesh, make_mesh_for_blocks pair_builder [⟨0, 0, 0⟩, ⟨1, 0, 0⟩] stone_glass_chunk
        = some mesh ∧
      quad_count pair_builder stone_glass_chunk [⟨0, 0, 0⟩, ⟨1, 0, 0⟩] = 11 ∧
      mesh.vertex_data.length
        = 4 * quad_count pair_builder stone_glass_chunk [⟨0, 0, 0⟩, ⟨1, 0, 0⟩] * 13 ∧
      (∀ v : block_vertex, v.floats.length = 13) ∧
      mesh.indices.length = 6 * quad_count pair_builder stone_glass_chunk [⟨0, 0, 0⟩, ⟨1, 0, 0⟩] ∧
      (∀ i ∈ mesh.indices,
        i < 4 * quad_count pair_builder stone_glass_chunk [⟨0, 0, 0⟩, ⟨1, 0, 0⟩]) ∧
      ∀ k, k < quad_count pair_builder stone_glass_chunk [⟨0, 0, 0⟩, ⟨1, 0, 0⟩] →
        ∀ i ∈ (mesh.indices.drop (6 * k)).take 6, 4 * k ≤ i ∧ i ≤ 4 * k + 3 := by
  obtain ⟨mesh, h⟩ :=
    (buffer_consistency pair_builder [⟨0, 0, 0⟩, ⟨1, 0, 0⟩] stone_glass_chunk).1
      (by decide) (by decide)
  exact ⟨mesh, h, by decide,
    (buffer_consistency pair_builder [⟨0, 0, 0⟩, ⟨1, 0, 0⟩] stone_glass_chunk).2 mesh h⟩

/-- C4. Merge by identity: when `p` and its neighbour `p + d` are both in bounds and their
definitions have equal name strings, the quads of `p` do not hold the face of direction `d`
and the quads of `p + d` do not hold the face of the opposite direction; nothing is assumed
of the transparency of either block. -/
theorem merge_by_identity (cb : chunk_builder) (chunk : mc_chunk) (p : ivec3) (d : face_id)
    (name name2 : String) (hwf : chunk.well_formed cb) (hp : cb.in_bounds p)
    (hq : cb.in_bounds (p + d.offset)) (hsame : same_name_at cb chunk p (p + d.offset)) :
    (∃ quads, make_geometry_for_block cb p chunk (some name) = some quads ∧
        make_quad d 1 (cb.get_texture_location name) ∉ quads) ∧
      (∃ quads, make_geometry_for_block cb (p + d.offset) chunk (some name2) = some quads ∧
        make_quad d.opposite 1 (cb.get_texture_location name2) ∉ quads) := by
  constructor
  · obtain ⟨faces, -, -, hq1, hmem⟩ := geometry_spec cb chunk p name hwf hp
    refine ⟨_, hq1, ?_⟩
    rw [mem_map_make_quad, hmem d]
    intro h
    exact h.2 ⟨hq, same_name_at_symm cb chunk _ _ hsame⟩
  · obtain ⟨faces, -, -, hq1, hmem⟩ := geometry_spec cb chunk (p + d.offset) name2 hwf hq
    refine ⟨_, hq1, ?_⟩
    rw [mem_map_make_quad, hmem d.opposite, add_offset_opposite]
    intro h
    exact h.2 ⟨hp, hsame⟩

/-- The statement of C4 for the two stone cells of a chunk. -/
theorem merge_by_identity_witness :
    (∃ quads, make_geometry_for_block pair_builder ⟨0, 0, 0⟩ stone_stone_chunk (some "stone")
          = some quads ∧
        make_quad face_id.RIGHT 1 (pair_builder.get_texture_location "stone") ∉ quads) ∧
      (∃ quads, make_geometry_for_block pair_builder (⟨0, 0, 0⟩ + face_id.RIGHT.offset)
          stone_stone_chunk (some "stone") = some quads ∧
        make_quad face_id.RIGHT.opposite 1 (pair_builder.get_texture_location "stone")
          ∉ quads) :=
  merge_by_identity pair_builder stone_stone_chunk ⟨0, 0, 0⟩ face_id.RIGHT "stone" "stone"
    (by decide) (by decide) (by decide) (by decide)

/-- C5. Boundary faces: when `p` is in bounds and its neighbour `p + d` is not, the quads of
`p` hold the face of direction `d`, whatever the well-formed chunk stores; the neighbour is
reported neither opaque nor the same block. -/
theorem boundary_faces (cb : chunk_builder) (chunk : mc_chunk) (p : ivec3) (d : face_id)
    (name : String) (hwf : chunk.well_formed cb) (hp : cb.in_bounds p)
    (hq : ¬ cb.in_bounds (p + d.offset)) :
    (∃ quads, make_geometry_for_block cb p chunk (some name) = some quads ∧
        make_quad d 1 (cb.get_texture_location name) ∈ quads) ∧
      block_at_pos_is_opaque cb (p + d.offset) chunk = some false ∧
      block_at_offset_is_same cb p d.offset chunk = some false := by
  refine ⟨?_, is_opaque_out_of_bounds cb chunk _ hq, is_same_out_of_bounds cb chunk p _ hq⟩
  obtain ⟨faces, -, -, hq1, hmem⟩ := geometry_spec cb chunk p name hwf hp
  refine ⟨_, hq1, ?_⟩
  rw [mem_map_make_quad, hmem d]
  exact ⟨Or.inl hq, fun h => hq h.1⟩

/-- The statement of C5 for the left face of the stone cell at x = 0. -/
theorem boundary_faces_witness :
    (∃ quads, make_geometry_for_block pair_builder ⟨0, 0, 0⟩ stone_stone_chunk (some "stone")
          = some quads ∧
        make_quad face_id.LEFT 1 (pair_builder.get_texture_location "stone") ∈ quads) ∧
      block_at_pos_is_opaque pair_builder (⟨0, 0, 0⟩ + face_id.LEFT.offset) stone_stone_chunk
        = some false ∧
      block_at_offset_is_same pair_builder ⟨0, 0, 0⟩ face_id.LEFT.offset stone_stone_chunk
        = some false :=
  boundary_faces pair_builder stone_stone_chunk ⟨0, 0, 0⟩ face_id.LEFT "stone"
    (by decide) (by decide) (by decide)

/-- C6. Isolated cube: in a well-formed chunk of 1 x 1 x 1 cells whose block is an opaque
cube, the block has 6 quads and the mesh built for the cell has 24 vertices of 13 floats
and 36 indices; and in any well-formed chunk, a listed in-bounds cube block whose six
neighbours are each out of bounds, or transparent and of a different name, has 6 quads and
adds 24 vertices and 36 indices to the buffers. -/
theorem isolated_cube :
    (∀ (cb : chunk_builder) (chunk : mc_chunk),
        cb.CHUNK_WIDTH = 1 → cb.CHUNK_HEIGHT = 1 → cb.CHUNK_DEPTH = 1 → chunk.well_formed cb →
        (∃ d, definition_at cb chunk ⟨0, 0, 0⟩ = some d ∧ d.is_cube = true ∧
          d.is_transparent = false) →
        (∃ d quads, definition_at cb chunk ⟨0, 0, 0⟩ = some d ∧
          make_geometry_for_block cb ⟨0, 0, 0⟩ chunk d.texture_name = some quads ∧
          quads.length = 6) ∧
        ∃ mesh, make_mesh_for_blocks cb [⟨0, 0, 0⟩] chunk = some mesh ∧
          mesh.vertex_data.length = 24 * 13 ∧ mesh.indices.length = 36) ∧
      (∀ (cb : chunk_builder) (chunk : mc_chunk) (p : ivec3) (buf : mesh_buffers),
        chunk.well_formed cb → cb.in_bounds p →
        (∃ d, definition_at cb chunk p = some d ∧ d.is_cube = true) →
        (∀ d : face_id, ¬ cb.in_bounds (p + d.offset) ∨
          (transparent_at cb chunk (p + d.offset) ∧
            ¬ same_name_at cb chunk (p + d.offset) p)) →
        (∃ d quads, definition_at cb chunk p = some d ∧
          make_geometry_for_block cb p chunk d.texture_name = some quads ∧
          quads.length = 6) ∧
        ∃ buf1, put_block cb chunk buf p = some buf1 ∧
          buf1.vertices.length = buf.vertices.length + 4 * 6 * 13 ∧
          buf1.indices.length = buf.indices.length + 6 * 6 ∧
          buf1.cur_index = buf.cur_index + 4 * 6) := by
  constructor
  · rintro cb chunk hW hH hD hwf ⟨d, hd, hc, -⟩
    obtain ⟨hq, buf1, hput, h1, h2, -⟩ :=
      put_block_six cb chunk { vertices := [], indices := [], cur_index := 0 } ⟨0, 0, 0⟩ hwf
        (single_cell_neighbours cb hW hH hD face_id.TOP).1 ⟨d, hd, hc⟩
        (fun e => Or.inl (single_cell_neighbours cb hW hH hD e).2)
    have hm : make_mesh_for_blocks cb [⟨0, 0, 0⟩] chunk =
        some { vertex_format := format.POS_UV_LIGHTMAPUV_NORMAL_TANGENT
               vertex_data := buf1.vertices
               indices := buf1.indices
               position := ⟨chunk.x, 0, chunk.z⟩ } := by
      simp only [make_mesh_for_blocks, put_blocks, hput]
    refine ⟨hq, _, hm, ?_, ?_⟩
    · simpa using h1
    · simpa using h2
  · intro cb chunk p buf hwf hp hcube h
    exact put_block_six cb chunk buf p hwf hp hcube h

/-- The statement of C6 for the chunk of one stone block, and for the glass block of the
glass and water chunk. -/
theorem isolated_cube_witness :
    ((∃ d quads, definition_at single_builder single_stone_chunk ⟨0, 0, 0⟩ = some d ∧
          make_geometry_for_block single_builder ⟨0, 0, 0⟩ single_stone_chunk d.texture_name
            = some quads ∧ quads.length = 6) ∧
        ∃ mesh, make_mesh_for_blocks single_builder [⟨0, 0, 0⟩] single_stone_chunk = some mesh ∧
          mesh.vertex_data.length = 24 * 13 ∧ mesh.indices.length = 36) ∧
      ((∃ d quads, definition_at pair_builder glass_water_chunk ⟨0, 0, 0⟩ = some d ∧
          make_geometry_for_block pair_builder ⟨0, 0, 0⟩ glass_water_chunk d.texture_name
            = some quads ∧ quads.length = 6) ∧
        ∃ buf1, put_block pair_builder glass_water_chunk
            { vertices := [], indices := [], cur_index := 0 } ⟨0, 0, 0⟩ = some buf1 ∧
          buf1.vertices.length = 0 + 4 * 6 * 13 ∧ buf1.indices.length = 0 + 6 * 6 ∧
          buf1.cur_index = 0 + 4 * 6) :=
  ⟨isolated_cube.1 single_builder single_stone_chunk rfl rfl rfl (by decide)
      ⟨stone, by decide, rfl, rfl⟩,
    isolated_cube.2 pair_builder glass_water_chunk ⟨0, 0, 0⟩
      { vertices := [], indices := [], cur_index := 0 } (by decide) (by decide)
      ⟨glass, by decide, rfl⟩
      (by
        intro d
        cases d
        · exact Or.inl (by decide)
        · exact Or.inl (by decide)
        · exact Or.inl (by decide)
        · exact Or.inr ⟨by decide, by decide⟩
        · exact Or.inl (by decide)
        · exact Or.inl (by decide))⟩

/-- C7, as stated, fails. In the 3 x 3 x 3 chunk of 27 opaque cubes of pairwise different
names, the six neighbours of the cell `(1, 1, 1)` are in bounds, and
`make_geometry_for_block` returns no quad for it, not six. -/
theorem interior_block_counterexample :
    cube27_chunk.well_formed cube27_builder ∧
      (∀ b ∈ cube27_chunk.blocks, (cube27_builder.definition b.id).is_cube = true ∧
        (cube27_builder.definition b.id).is_transparent = false) ∧
      (cube27_chunk.blocks.map (fun b => (cube27_builder.definition b.id).name)).Nodup ∧
      cube27_builder.in_bounds ⟨1, 1, 1⟩ ∧
      (∀ d : face_id, cube27_builder.in_bounds (⟨1, 1, 1⟩ + d.offset)) ∧
      definition_at cube27_builder cube27_chunk ⟨1, 1, 1⟩ =
        some { name := some "b13", texture_name := some "b13", is_cube := true,
               is_transparent := false } ∧
      make_geometry_for_block cube27_builder ⟨1, 1, 1⟩ cube27_chunk (some "b13") = some [] ∧
      ¬ ∃ quads, make_geometry_for_block cube27_builder ⟨1, 1, 1⟩ cube27_chunk (some "b13")
          = some quads ∧ quads.length = 6 := by
  have hf : faces_to_make cube27_builder ⟨1, 1, 1⟩ cube27_chunk = some [] := by decide
  have hg : make_geometry_for_block cube27_builder ⟨1, 1, 1⟩ cube27_chunk (some "b13")
      = some [] := by
    simp [make_geometry_for_block, hf]
  refine ⟨by decide, by decide, by decide, by decide, ?_, by decide, hg, ?_⟩
  · intro d
    cases d <;> decide
  · rintro ⟨quads, h1, h2⟩
    rw [hg] at h1
    rw [← Option.some.inj h1] at h2
    exact absurd h2 (by decide)

/-- C7, amended. In a well-formed chunk, an in-bounds cell whose six neighbours are all in
bounds and opaque gets no quad: `make_geometry_for_block` returns the empty list, whatever
the names of the blocks. -/
theorem interior_block_no_faces (cb : chunk_builder) (chunk : mc_chunk) (p : ivec3)
    (name : String) (hwf : chunk.well_formed cb) (hp : cb.in_bounds p)
    (h : ∀ d : face_id, cb.in_bounds (p + d.offset) ∧ ¬ transparent_at cb chunk (p + d.offset)) :
    make_geometry_for_block cb p chunk (some name) = some [] ∧
      visible_faces cb chunk p = 0 := by
  have hf := no_faces cb chunk p hwf hp h
  constructor
  · simp [make_geometry_for_block, hf]
  · simp [visible_faces, hf]

/-- The amended C7 at the centre of the 3 x 3 x 3 chunk. -/
theorem interior_block_no_faces_witness :
    make_geometry_for_block cube27_builder ⟨1, 1, 1⟩ cube27_chunk (some "b13") = some [] ∧
      visible_faces cube27_builder cube27_chunk ⟨1, 1, 1⟩ = 0 :=
  interior_block_no_faces cube27_builder cube27_chunk ⟨1, 1, 1⟩ "b13" (by decide) (by decide)
    (by intro d; cases d <;> decide)

/-- C8. Opaque volume: in a well-formed chunk none of whose blocks is transparent, the quads
of an in-bounds cell `p` hold the face of direction `d` only if the neighbour `p + d` is out
of the chunk bounds (and they do hold it then). The names of the blocks play no part. -/
theorem opaque_volume_faces (cb : chunk_builder) (chunk : mc_chunk) (p : ivec3) (name : String)
    (hwf : chunk.well_formed cb)
    (hsolid : ∀ b ∈ chunk.blocks, (cb.definition b.id).is_transparent = false)
    (hp : cb.in_bounds p) :
    ∃ quads, make_geometry_for_block cb p chunk (some name) = some quads ∧
      ∀ d : face_id, (make_quad d 1 (cb.get_texture_location name) ∈ quads ↔
        ¬ cb.in_bounds (p + d.offset)) := by
  obtain ⟨faces, -, -, hq1, hmem⟩ := geometry_spec cb chunk p name hwf hp
  refine ⟨_, hq1, ?_⟩
  intro d
  rw [mem_map_make_quad, hmem d]
  constructor
  · rintro ⟨h | ⟨dn, hdn, htr⟩, -⟩
    · exact h
    · obtain ⟨b, hb, hbd⟩ := block_mem_of_definition_at cb chunk _ dn hdn
      have := hsolid b hb
      rw [hbd, htr] at this
      exact absurd this (by simp)
  · intro h
    exact ⟨Or.inl h, fun h2 => h h2.1⟩

/-- The statement of C8 for the stone cell of the stone and dirt chunk. -/
theorem opaque_volume_faces_witness :
    ∃ quads, make_geometry_for_block pair_builder ⟨0, 0, 0⟩ stone_dirt_chunk (some "stone")
        = some quads ∧
      ∀ d : face_id, (make_quad d 1 (pair_builder.get_texture_location "stone") ∈ quads ↔
        ¬ pair_builder.in_bounds (⟨0, 0, 0⟩ + d.offset)) :=
  opaque_volume_faces pair_builder stone_dirt_chunk ⟨0, 0, 0⟩ "stone"
    (by decide) (by decide) (by decide)

/-- C9. Transparent neighbour of a different type: when `p` and `p + d` are in bounds with
definitions of different names and the block at `p + d` is transparent, the quads of `p`
hold the face of direction `d`; when the block at `p` is transparent as well, the quads of
`p + d` hold the face of the opposite direction. -/
theorem transparent_neighbour_face (cb : chunk_builder) (chunk : mc_chunk) (p : ivec3)
    (d : face_id) (name name2 : String) (hwf : chunk.well_formed cb) (hp : cb.in_bounds p)
    (hq : cb.in_bounds (p + d.offset)) (hdiff : ¬ same_name_at cb chunk p (p + d.offset))
    (htr : transparent_at cb chunk (p + d.offset)) :
    (∃ quads, make_geometry_for_block cb p chunk (some name) = some quads ∧
        make_quad d 1 (cb.get_texture_location name) ∈ quads) ∧
      (transparent_at cb chunk p →
        ∃ quads, make_geometry_for_block cb (p + d.offset) chunk (some name2) = some quads ∧
          make_quad d.opposite 1 (cb.get_texture_location name2) ∈ quads) := by
  constructor
  · obtain ⟨faces, -, -, hq1, hmem⟩ := geometry_spec cb chunk p name hwf hp
    refine ⟨_, hq1, ?_⟩
    rw [mem_map_make_quad, hmem d]
    exact ⟨Or.inr htr, fun h => hdiff (same_name_at_symm cb chunk _ _ h.2)⟩
  · intro htp
    obtain ⟨faces, -, -, hq1, hmem⟩ := geometry_spec cb chunk (p + d.offset) name2 hwf hq
    refine ⟨_, hq1, ?_⟩
    rw [mem_map_make_quad, hmem d.opposite, add_offset_opposite]
    exact ⟨Or.inr htp, fun h => hdiff h.2⟩

/-- The statement of C9 for glass next to water: the stone-free chunk has both blocks
transparent, so both faces of the shared boundary are there. -/
theorem transparent_neighbour_face_witness :
    (∃ quads, make_geometry_for_block pair_builder ⟨0, 0, 0⟩ glass_water_chunk (some "glass")
          = some quads ∧
        make_quad face_id.RIGHT 1 (pair_builder.get_texture_location "glass") ∈ quads) ∧
      (transparent_at pair_builder glass_water_chunk ⟨0, 0, 0⟩ →
        ∃ quads, make_geometry_for_block pair_builder (⟨0, 0, 0⟩ + face_id.RIGHT.offset)
            glass_water_chunk (some "water") = some quads ∧
          make_quad face_id.RIGHT.opposite 1 (pair_builder.get_texture_location "water")
            ∈ quads) :=
  transparent_neighbour_face pair_builder glass_water_chunk ⟨0, 0, 0⟩ face_id.RIGHT
    "glass" "water" (by decide) (by decide) (by decide)
    (by decide) (by decide)

/-- C11. Normal and tangent table: for every size and texture location, each of the four
vertices of `make_quad` carries the normal and the tangent of its face, LEFT `(-1,0,0)` and
`(0,0,1)`, RIGHT `(1,0,0)` and `(0,0,-1)`, BOTTOM `(0,-1,0)` and `(-1,0,0)`, TOP `(0,1,0)`
and `(1,0,0)`, BACK `(0,0,-1)` and `(-1,0,0)`, FRONT `(0,0,1)` and `(1,0,0)`. -/
theorem normal_tangent_table (s : ℚ) (t : texture_location) (i : Fin 4) :
    (((make_quad face_id.LEFT s t).vertices i).normal = ⟨-1, 0, 0⟩ ∧
        ((make_quad face_id.LEFT s t).vertices i).tangent = ⟨0, 0, 1⟩) ∧
      (((make_quad face_id.RIGHT s t).vertices i).normal = ⟨1, 0, 0⟩ ∧
        ((make_quad face_id.RIGHT s t).vertices i).tangent = ⟨0, 0, -1⟩) ∧
      (((make_quad face_id.BOTTOM s t).vertices i).normal = ⟨0, -1, 0⟩ ∧
        ((make_quad face_id.BOTTOM s t).vertices i).tangent = ⟨-1, 0, 0⟩) ∧
      (((make_quad face_id.TOP s t).vertices i).normal = ⟨0, 1, 0⟩ ∧
        ((make_quad face_id.TOP s t).vertices i).tangent = ⟨1, 0, 0⟩) ∧
      (((make_quad face_id.BACK s t).vertices i).normal = ⟨0, 0, -1⟩ ∧
        ((make_quad face_id.BACK s t).vertices i).tangent = ⟨-1, 0, 0⟩) ∧
      (((make_quad face_id.FRONT s t).vertices i).normal = ⟨0, 0, 1⟩ ∧
        ((make_quad face_id.FRONT s t).vertices i).tangent = ⟨1, 0, 0⟩) := by
  simp [make_quad]

/-- C12, at an input where the code departs from it. With `CHUNK_WIDTH = 1`,
`CHUNK_HEIGHT = 1`, `CHUNK_DEPTH = 2` and a predicate that holds of every definition, the
selector returns `(0,0,0)` and `(1,0,0)`: the second is out of bounds, and the in-bounds cell
`(0,0,1)`, whose definition satisfies the predicate, is missing. With `CHUNK_WIDTH = 2` and
`CHUNK_DEPTH = 1` the loops read outside the array of blocks. -/
theorem selector_bounds_swapped :
    deep_chunk.well_formed deep_builder ∧
      get_blocks_that_match_filter deep_builder deep_chunk (fun _ => true)
        = some [⟨0, 0, 0⟩, ⟨1, 0, 0⟩] ∧
      ¬ deep_builder.in_bounds ⟨1, 0, 0⟩ ∧
      deep_builder.in_bounds ⟨0, 0, 1⟩ ∧
      filter_matches_at deep_builder deep_chunk (fun _ => true) 0 0 1 = true ∧
      (⟨0, 0, 1⟩ : ivec3) ∉ [(⟨0, 0, 0⟩ : ivec3), ⟨1, 0, 0⟩] ∧
      stone_glass_chunk.well_formed pair_builder ∧
      get_blocks_that_match_filter pair_builder stone_glass_chunk (fun _ => true) = none := by
  decide

/-- C13, at an input where the code departs from it. With `CHUNK_WIDTH = 2`,
`CHUNK_HEIGHT = 1`, `CHUNK_DEPTH = 1`, the well-formed chunk of a stone and a glass block and
a predicate that holds of no definition, the outer loop of the selector takes `z = 1`, whose
index `0 + 0 * 2 + 1 * 2 * 1 = 2` is outside the array of two blocks: the read has no defined
result and no list is returned. With `CHUNK_WIDTH = 1` and `CHUNK_DEPTH = 2` the reads stay
in the array and the selector returns the empty list; `make_mesh_for_blocks` on the empty
list returns a mesh with no vertex and no index. -/
theorem empty_filter_out_of_array :
    stone_glass_chunk.well_formed pair_builder ∧
      (∀ b ∈ stone_glass_chunk.blocks,
        (fun _ => false : mc_block_definition → Bool) (pair_builder.definition b.id) = false) ∧
      (1 : Int) ∈ loop_range pair_builder.CHUNK_WIDTH ∧
      (0 : Int) ∈ loop_range pair_builder.CHUNK_HEIGHT ∧
      (0 : Int) ∈ loop_range pair_builder.CHUNK_DEPTH ∧
      (0 : Int) + 0 * pair_builder.CHUNK_WIDTH
        + 1 * pair_builder.CHUNK_WIDTH * pair_builder.CHUNK_HEIGHT = 2 ∧
      stone_glass_chunk.blocks.length = 2 ∧
      stone_glass_chunk.block 2 = none ∧
      get_blocks_that_match_filter pair_builder stone_glass_chunk (fun _ => false) = none ∧
      get_blocks_that_match_filter deep_builder deep_chunk (fun _ => false) = some [] ∧
      make_mesh_for_blocks pair_builder [] stone_glass_chunk =
        some { vertex_format := format.POS_UV_LIGHTMAPUV_NORMAL_TANGENT
               vertex_data := []
               indices := []
               position := ⟨0, 0, 0⟩ } := by
  refine ⟨by decide, by decide, by decide, by decide, by decide, by decide, by decide,
    by decide, by decide, by decide, rfl⟩

/-- C14. Unsupported geometry is skipped: `put_block` does not fail on a listed block whose
definition is not a cube and returns the buffers as they were; the mesh of a block list is
the mesh of the list without its non-cube blocks; and a mesh is returned for every list of
in-bounds blocks of a well-formed chunk. -/
theorem non_cube_skipped (cb : chunk_builder) (blocks : List ivec3) (chunk : mc_chunk) :
    (∀ (buf : mesh_buffers) (p : ivec3), is_non_cube_at cb chunk p = true →
        put_block cb chunk buf p = some buf) ∧
      make_mesh_for_blocks cb blocks chunk =
        make_mesh_for_blocks cb (blocks.filter (fun p => !is_non_cube_at cb chunk p)) chunk ∧
      (chunk.well_formed cb → (∀ p ∈ blocks, cb.in_bounds p) →
        ∃ mesh, make_mesh_for_blocks cb blocks chunk = some mesh) := by
  refine ⟨fun buf p h => put_block_non_cube cb chunk buf p h, ?_, mesh_defined cb blocks chunk⟩
  unfold make_mesh_for_blocks
  rw [← put_blocks_filter]

/-- The statement of C14 for the stone and torch chunk: the torch adds nothing. -/
theorem non_cube_skipped_witness :
    put_block torch_builder stone_torch_chunk { vertices := [], indices := [], cur_index := 0 }
        ⟨1, 0, 0⟩ = some { vertices := [], indices := [], cur_index := 0 } ∧
      make_mesh_for_blocks torch_builder [⟨0, 0, 0⟩, ⟨1, 0, 0⟩] stone_torch_chunk =
        make_mesh_for_blocks torch_builder [⟨0, 0, 0⟩] stone_torch_chunk ∧
      ∃ mesh, make_mesh_for_blocks torch_builder [⟨0, 0, 0⟩, ⟨1, 0, 0⟩] stone_torch_chunk
        = some mesh :=
  ⟨(non_cube_skipped torch_builder [⟨0, 0, 0⟩, ⟨1, 0, 0⟩] stone_torch_chunk).1 _ ⟨1, 0, 0⟩
      (by decide),
    (non_cube_skipped torch_builder [⟨0, 0, 0⟩, ⟨1, 0, 0⟩] stone_torch_chunk).2.1,
    (non_cube_skipped torch_builder [⟨0, 0, 0⟩, ⟨1, 0, 0⟩] stone_torch_chunk).2.2
      (by decide) (by decide)⟩

/-- C15, as stated, fails. The chunk of one cell holds the block id 99, which has no entry in
the table of `single_builder`; the selector returns the list `[(0,0,0)]` and the mesh
builder returns a mesh (an empty one), with or without the table as state. -/
theorem missing_definition_counterexample :
    single_builder.block_definitions.lookup 99 = none ∧
      unknown_block_chunk.block (pos_to_idx single_builder ⟨0, 0, 0⟩) = some ⟨99⟩ ∧
      get_blocks_that_match_filter single_builder unknown_block_chunk (fun _ => true)
        = some [⟨0, 0, 0⟩] ∧
      make_mesh_for_blocks single_builder [⟨0, 0, 0⟩] unknown_block_chunk =
        some { vertex_format := format.POS_UV_LIGHTMAPUV_NORMAL_TANGENT
               vertex_data := []
               indices := []
               position := ⟨0, 0, 0⟩ } ∧
      (get_blocks_that_match_filter_st single_builder unknown_block_chunk
        (fun _ => true)).map (fun r => r.1) = some [⟨0, 0, 0⟩] ∧
      (make_mesh_for_blocks_st single_builder [⟨0, 0, 0⟩] unknown_block_chunk).map
        (fun r => r.1) =
        some { vertex_format := format.POS_UV_LIGHTMAPUV_NORMAL_TANGENT
               vertex_data := []
               indices := []
               position := ⟨0, 0, 0⟩ } := by
  decide

/-- C15, amended. A block id without an entry in the table is not fatal: the selector
returns a list whenever its reads stay in the array, whatever the ids; at a cell whose id
has no entry the body of its loop applies the predicate to the value-initialised
definition; and `put_block` on a listed block whose id has no entry returns the buffers
unchanged. -/
theorem missing_definition_not_fatal (cb : chunk_builder) (chunk : mc_chunk)
    (filter : mc_block_definition → Bool) :
    (chunk.sized cb → cb.CHUNK_WIDTH ≤ cb.CHUNK_DEPTH →
        ∃ l, get_blocks_that_match_filter cb chunk filter = some l) ∧
      (∀ (x y z : Int) (acc : List ivec3) (b : mc_block),
        chunk.block (pos_to_idx cb ⟨x, y, z⟩) = some b →
        cb.block_definitions.lookup b.id = none →
        filter_cell cb chunk filter z y acc x =
          some (if filter mc_block_definition.value_initialized then acc ++ [⟨x, y, z⟩]
            else acc)) ∧
      ∀ (p : ivec3) (buf : mesh_buffers) (b : mc_block),
        chunk.block (pos_to_idx cb p) = some b → cb.block_definitions.lookup b.id = none →
        put_block cb chunk buf p = some buf := by
  refine ⟨get_blocks_defined cb chunk filter, ?_, ?_⟩
  · intro x y z acc b hb hl
    unfold pos_to_idx at hb
    simp only at hb
    simp only [filter_cell, hb, chunk_builder.definition, hl]
    split_ifs <;> rfl
  · intro p buf b hb hl
    exact put_block_missing cb chunk buf p b hb hl

/-- The amended C15 for the chunk whose block id 99 has no definition. -/
theorem missing_definition_not_fatal_witness :
    (∃ l, get_blocks_that_match_filter single_builder unknown_block_chunk (fun _ => true)
        = some l) ∧
      filter_cell single_builder unknown_block_chunk (fun _ => true) 0 0 [] 0 =
        some (if (fun _ => true) mc_block_definition.value_initialized then [] ++ [⟨0, 0, 0⟩]
          else []) ∧
      put_block single_builder unknown_block_chunk
        { vertices := [], indices := [], cur_index := 0 } ⟨0, 0, 0⟩ =
        some { vertices := [], indices := [], cur_index := 0 } :=
  ⟨(missing_definition_not_fatal single_builder unknown_block_chunk (fun _ => true)).1
      (by decide) (by decide),
    (missing_definition_not_fatal single_builder unknown_block_chunk (fun _ => true)).2.1
      0 0 0 [] ⟨99⟩ (by decide) (by decide),
    (missing_definition_not_fatal single_builder unknown_block_chunk (fun _ => true)).2.2
      ⟨0, 0, 0⟩ _ ⟨99⟩ (by decide) (by decide)⟩

/-- C16, as stated, fails. In the chunk of one stone block the listed coordinate
`p = (16777217, 0, -16777217)` has index 0, so the block read is the stone cube, and all six
faces are made, the top face first. Its vertex 0 has the `make_quad` position `(0, 1, 0)`;
the position appended to the vertex buffer is `(16777216, 1, -16777216)`, which is not
`(0, 1, 0) + p = (16777217, 1, -16777217)`: `16777217` is not a float. -/
theorem vertex_translation_counterexample :
    pos_to_idx single_builder ⟨16777217, 0, -16777217⟩ = 0 ∧
      definition_at single_builder single_stone_chunk ⟨16777217, 0, -16777217⟩ = some stone ∧
      stone.is_cube = true ∧
      ((make_quad face_id.TOP 1 unit_texture).vertices 0).position = ⟨0, 1, 0⟩ ∧
      (make_mesh_for_blocks single_builder [⟨16777217, 0, -16777217⟩] single_stone_chunk).map
          (fun mesh => mesh.vertex_data.take 3) = some [16777216, 1, -16777216] ∧
      ([16777216, 1, -16777216] : List ℚ) ≠
        [(0 : ℚ) + ((16777217 : Int) : ℚ), 1 + ((0 : Int) : ℚ), 0 + ((-16777217 : Int) : ℚ)] := by
  have hd : definition_at single_builder single_stone_chunk ⟨16777217, 0, -16777217⟩
      = some stone := by decide
  have hf : faces_to_make single_builder ⟨16777217, 0, -16777217⟩ single_stone_chunk =
      some [face_id.TOP, face_id.BOTTOM, face_id.RIGHT, face_id.LEFT, face_id.FRONT,
        face_id.BACK] := by decide
  have hput := (put_block_of_faces single_builder single_stone_chunk
    { vertices := [], indices := [], cur_index := 0 } ⟨16777217, 0, -16777217⟩ stone "stone" _
    hd rfl rfl hf).2
  have hv := foldl_put_face_vertices ⟨16777217, 0, -16777217⟩
    (single_builder.get_texture_location "stone")
    [face_id.TOP, face_id.BOTTOM, face_id.RIGHT, face_id.LEFT, face_id.FRONT, face_id.BACK]
    { vertices := [], indices := [], cur_index := 0 }
  have e1 : to_float 16777216 = 16777216 := by
    simpa using to_float_int 16777216 (by decide)
  have e2 : to_float (-16777216) = -16777216 := by
    simpa using to_float_int (-16777216) (by decide)
  refine ⟨by decide, hd, rfl, by simp [make_quad, array4], ?_, by norm_num⟩
  have hm : ∀ buf1, put_block single_builder single_stone_chunk
      { vertices := [], indices := [], cur_index := 0 } ⟨16777217, 0, -16777217⟩ = some buf1 →
      (make_mesh_for_blocks single_builder [⟨16777217, 0, -16777217⟩] single_stone_chunk).map
        (fun mesh => mesh.vertex_data.take 3) = some (buf1.vertices.take 3) := by
    intro buf1 h
    simp only [make_mesh_for_blocks, put_blocks, h, Option.map_some']
  rw [hm _ hput, hv]
  simp [translated_quad, translated_floats, make_quad, array4, List.finRange, to_float_zero,
    to_float_one, to_float_16777217, to_float_neg_16777217, e1, e2]

/-- C16, amended. The vertex buffer of a returned mesh is the concatenation, over the listed
blocks in order, of their vertex data. For a listed cube block at `p` this data is, for each
visible face and each of its four vertices, the 13 floats of the vertex of
`make_quad(face, 1, tex)` with the position replaced by the float sum of the position and of
`p` converted to float, and the UV, lightmap UV, normal and tangent unchanged. When the three
coordinates of `p` are at least `-2 ^ 24` and less than `2 ^ 24`, this position is the
`make_quad` position plus `(p.x, p.y, p.z)`. A mesh is returned for every list of in-bounds
blocks of a well-formed chunk. -/
theorem vertex_translation_in_range (cb : chunk_builder) (blocks : List ivec3)
    (chunk : mc_chunk) :
    (chunk.well_formed cb → (∀ p ∈ blocks, cb.in_bounds p) →
        ∃ mesh, make_mesh_for_blocks cb blocks chunk = some mesh) ∧
      (∀ mesh : mesh_definition, make_mesh_for_blocks cb blocks chunk = some mesh →
        mesh.vertex_data = blocks.flatMap (block_vertex_data cb chunk)) ∧
      (∀ (p : ivec3) (d : mc_block_definition) (name : String) (faces : List face_id),
        definition_at cb chunk p = some d → d.is_cube = true → d.texture_name = some name →
        faces_to_make cb p chunk = some faces →
        block_vertex_data cb chunk p =
          faces.flatMap (fun face => (List.finRange 4).flatMap (fun i =>
            [to_float (((make_quad face 1 (cb.get_texture_location name)).vertices i).position.x
                + to_float (p.x : ℚ)),
              to_float (((make_quad face 1 (cb.get_texture_location name)).vertices i).position.y
                + to_float (p.y : ℚ)),
              to_float (((make_quad face 1 (cb.get_texture_location name)).vertices i).position.z
                + to_float (p.z : ℚ)),
              ((make_quad face 1 (cb.get_texture_location name)).vertices i).uv.x,
              ((make_quad face 1 (cb.get_texture_location name)).vertices i).uv.y,
              ((make_quad face 1 (cb.get_texture_location name)).vertices i).lightmap_uv.x,
              ((make_quad face 1 (cb.get_texture_location name)).vertices i).lightmap_uv.y,
              ((make_quad face 1 (cb.get_texture_location name)).vertices i).normal.x,
              ((make_quad face 1 (cb.get_texture_location name)).vertices i).normal.y,
              ((make_quad face 1 (cb.get_texture_location name)).vertices i).normal.z,
              ((make_quad face 1 (cb.get_texture_location name)).vertices i).tangent.x,
              ((make_quad face 1 (cb.get_texture_location name)).vertices i).tangent.y,
              ((make_quad face 1 (cb.get_texture_location name)).vertices i).tangent.z]))) ∧
      ∀ (p : ivec3) (d : mc_block_definition) (name : String) (faces : List face_id),
        definition_at cb chunk p = some d → d.is_cube = true → d.texture_name = some name →
        faces_to_make cb p chunk = some faces →
        (-16777216 ≤ p.x ∧ p.x < 16777216) → (-16777216 ≤ p.y ∧ p.y < 16777216) →
        (-16777216 ≤ p.z ∧ p.z < 16777216) →
        block_vertex_data cb chunk p =
          faces.flatMap (fun face => (List.finRange 4).flatMap (fun i =>
            [((make_quad face 1 (cb.get_texture_location name)).vertices i).position.x + (p.x : ℚ),
              ((make_quad face 1 (cb.get_texture_location name)).vertices i).position.y + (p.y : ℚ),
              ((make_quad face 1 (cb.get_texture_location name)).vertices i).position.z + (p.z : ℚ),
              ((make_quad face 1 (cb.get_texture_location name)).vertices i).uv.x,
              ((make_quad face 1 (cb.get_texture_location name)).vertices i).uv.y,
              ((make_quad face 1 (cb.get_texture_location name)).vertices i).lightmap_uv.x,
              ((make_quad face 1 (cb.get_texture_location name)).vertices i).lightmap_uv.y,
              ((make_quad face 1 (cb.get_texture_location name)).vertices i).normal.x,
              ((make_quad face 1 (cb.get_texture_location name)).vertices i).normal.y,
              ((make_quad face 1 (cb.get_texture_location name)).vertices i).normal.z,
              ((make_quad face 1 (cb.get_texture_location name)).vertices i).tangent.x,
              ((make_quad face 1 (cb.get_texture_location name)).vertices i).tangent.y,
              ((make_quad face 1 (cb.get_texture_location name)).vertices i).tangent.z])) := by
  refine ⟨mesh_defined cb blocks chunk, ?_, ?_, ?_⟩
  · intro mesh h
    unfold make_mesh_for_blocks at h
    cases hb : put_blocks cb chunk blocks { vertices := [], indices := [], cur_index := 0 } with
    | none => simp [hb] at h
    | some buf =>
      simp only [hb, Option.some.injEq] at h
      rw [← h]
      simpa using put_blocks_vertices cb chunk blocks _ buf hb
  · intro p d name faces hd hc hn hf
    simp only [block_vertex_data, hd, hc, hn, hf, if_true, translated_quad, translated_floats]
  · intro p d name faces hd hc hn hf hx hy hz
    simp only [block_vertex_data, hd, hc, hn, hf, if_true, translated_quad,
      translated_floats_exact _ _ p _ hx hy hz]

/-- The amended C16 for the stone and glass chunk: a mesh is returned, its vertex buffer is
the vertex data of the two blocks, and the first float of the data of the glass block at
`(1, 0, 0)`, whose first visible face is the top one, is `0 + 1`. -/
theorem vertex_translation_in_range_witness :
    (∃ mesh, make_mesh_for_blocks pair_builder [⟨0, 0, 0⟩, ⟨1, 0, 0⟩] stone_glass_chunk
        = some mesh ∧
      mesh.vertex_data =
        [(⟨0, 0, 0⟩ : ivec3), ⟨1, 0, 0⟩].flatMap
          (block_vertex_data pair_builder stone_glass_chunk)) ∧
      (block_vertex_data pair_builder stone_glass_chunk ⟨1, 0, 0⟩).head? = some (0 + 1) := by
  obtain ⟨mesh, h⟩ :=
    (vertex_translation_in_range pair_builder [⟨0, 0, 0⟩, ⟨1, 0, 0⟩] stone_glass_chunk).1
      (by decide) (by decide)
  have hdata :=
    (vertex_translation_in_range pair_builder [⟨0, 0, 0⟩, ⟨1, 0, 0⟩] stone_glass_chunk).2.2.2
      ⟨1, 0, 0⟩ glass "glass"
      [face_id.TOP, face_id.BOTTOM, face_id.RIGHT, face_id.FRONT, face_id.BACK]
      (by decide) rfl rfl (by decide) (by decide) (by decide) (by decide)
  refine ⟨⟨mesh, h,
    (vertex_translation_in_range pair_builder [⟨0, 0, 0⟩, ⟨1, 0, 0⟩] stone_glass_chunk).2.1
      mesh h⟩, ?_⟩
  rw [hdata]
  simp [List.finRange, make_quad, array4]

/-- C17. World offset: `make_mesh_for_blocks` returns a mesh for every list of in-bounds
blocks of a well-formed chunk, and every mesh it returns, whatever the block list, has the
position `(chunk.x, 0, chunk.z)` and the vertex format `POS_UV_LIGHTMAPUV_NORMAL_TANGENT`. -/
theorem world_offset (cb : chunk_builder) (blocks : List ivec3) (chunk : mc_chunk) :
    (chunk.well_formed cb → (∀ p ∈ blocks, cb.in_bounds p) →
        ∃ mesh, make_mesh_for_blocks cb blocks chunk = some mesh) ∧
      ∀ mesh : mesh_definition, make_mesh_for_blocks cb blocks chunk = some mesh →
        mesh.position = ⟨chunk.x, 0, chunk.z⟩ ∧
          mesh.vertex_format = format.POS_UV_LIGHTMAPUV_NORMAL_TANGENT := by
  refine ⟨mesh_defined cb blocks chunk, ?_⟩
  intro mesh h
  unfold make_mesh_for_blocks at h
  cases hb : put_blocks cb chunk blocks { vertices := [], indices := [], cur_index := 0 } with
  | none => simp [hb] at h
  | some buf =>
    simp only [hb, Option.some.injEq] at h
    rw [← h]
    exact ⟨rfl, rfl⟩

/-- The statement of C17 for the two cells of the stone and glass chunk. -/
theorem world_offset_witness :
    ∃ mesh, make_mesh_for_blocks pair_builder [⟨0, 0, 0⟩, ⟨1, 0, 0⟩] stone_glass_chunk
        = some mesh ∧
      mesh.position = ⟨stone_glass_chunk.x, 0, stone_glass_chunk.z⟩ ∧
      mesh.vertex_format = format.POS_UV_LIGHTMAPUV_NORMAL_TANGENT := by
  obtain ⟨mesh, h⟩ := (world_offset pair_builder [⟨0, 0, 0⟩, ⟨1, 0, 0⟩] stone_glass_chunk).1
    (by decide) (by decide)
  exact ⟨mesh, h, (world_offset pair_builder [⟨0, 0, 0⟩, ⟨1, 0, 0⟩] stone_glass_chunk).2 mesh h⟩

/-- C18. Triangulation covers the quad: for every face and every size `s ≠ 0`, the positions
`p0 .. p3` of `make_quad` satisfy `p0 + p3 = p1 + p2`, the triangles `(p0, p1, p2)` and
`(p1, p2, p3)` have non-zero cross products of their edges (their corners are not collinear),
and every point `p0 + a (p1 - p0) + b (p2 - p0)` of the parallelogram, `0 ≤ a, b ≤ 1`, is a
convex combination of the corners of one of the two triangles. -/
theorem triangulation_covers (d : face_id) (s : ℚ) (t : texture_location) (hs : s ≠ 0) :
    quad_position d s t 0 + quad_position d s t 3 =
        quad_position d s t 1 + quad_position d s t 2 ∧
      vec3.cross (quad_position d s t 1 - quad_position d s t 0)
        (quad_position d s t 2 - quad_position d s t 0) ≠ ⟨0, 0, 0⟩ ∧
      vec3.cross (quad_position d s t 2 - quad_position d s t 1)
        (quad_position d s t 3 - quad_position d s t 1) ≠ ⟨0, 0, 0⟩ ∧
      ∀ a b : ℚ, 0 ≤ a → a ≤ 1 → 0 ≤ b → b ≤ 1 →
        ∃ w0 w1 w2 : ℚ, 0 ≤ w0 ∧ 0 ≤ w1 ∧ 0 ≤ w2 ∧ w0 + w1 + w2 = 1 ∧
          (quad_position d s t 0
                + vec3.scale a (quad_position d s t 1 - quad_position d s t 0)
                + vec3.scale b (quad_position d s t 2 - quad_position d s t 0)
              = vec3.scale w0 (quad_position d s t 0) + vec3.scale w1 (quad_position d s t 1)
                + vec3.scale w2 (quad_position d s t 2) ∨
            quad_position d s t 0
                + vec3.scale a (quad_position d s t 1 - quad_position d s t 0)
                + vec3.scale b (quad_position d s t 2 - quad_position d s t 0)
              = vec3.scale w0 (quad_position d s t 1) + vec3.scale w1 (quad_position d s t 2)
                + vec3.scale w2 (quad_position d s t 3)) := by
  refine ⟨?_, ?_, ?_, ?_⟩
  · cases d <;> simp [quad_position, make_quad, array4, vec3_add_def]
  · cases d <;> simp [quad_position, make_quad, array4, vec3_sub_def, vec3.cross, hs]
  · cases d <;> simp [quad_position, make_quad, array4, vec3_sub_def, vec3.cross, hs]
  · intro a b ha0 ha1 hb0 hb1
    by_cases hab : a + b ≤ 1
    · refine ⟨1 - a - b, a, b, by linarith, ha0, hb0, by ring, Or.inl ?_⟩
      cases d <;>
        simp only [quad_position, make_quad, array4, vec3_sub_def, vec3_add_def, vec3.scale,
          vec3.mk.injEq] <;>
        (refine ⟨?_, ?_, ?_⟩ <;> ring)
    · refine ⟨1 - b, 1 - a, a + b - 1, by linarith, by linarith, by linarith, by ring,
        Or.inr ?_⟩
      cases d <;>
        simp only [quad_position, make_quad, array4, vec3_sub_def, vec3_add_def, vec3.scale,
          vec3.mk.injEq] <;>
        (refine ⟨?_, ?_, ?_⟩ <;> ring)

/-- The statement of C18 for the top face of the unit cube. -/
theorem triangulation_covers_witness :
    (1 : ℚ) ≠ 0 ∧
      quad_position face_id.TOP 1 unit_texture 0 + quad_position face_id.TOP 1 unit_texture 3 =
        quad_position face_id.TOP 1 unit_texture 1 + quad_position face_id.TOP 1 unit_texture 2 ∧
      vec3.cross (quad_position face_id.TOP 1 unit_texture 1 - quad_position face_id.TOP 1 unit_texture 0)
        (quad_position face_id.TOP 1 unit_texture 2 - quad_position face_id.TOP 1 unit_texture 0)
          ≠ ⟨0, 0, 0⟩ ∧
      vec3.cross (quad_position face_id.TOP 1 unit_texture 2 - quad_position face_id.TOP 1 unit_texture 1)
        (quad_position face_id.TOP 1 unit_texture 3 - quad_position face_id.TOP 1 unit_texture 1)
          ≠ ⟨0, 0, 0⟩ :=
  ⟨one_ne_zero, (triangulation_covers face_id.TOP 1 unit_texture one_ne_zero).1,
    (triangulation_covers face_id.TOP 1 unit_texture one_ne_zero).2.1,
    (triangulation_covers face_id.TOP 1 unit_texture one_ne_zero).2.2.1⟩

/-- C19. Face corners and outward normal: for every face and every size `s > 0`, the four
positions of `make_quad` are pairwise different, each of their coordinates is `0` or `s`,
the coordinate along the axis of the normal is `s` on RIGHT, TOP and FRONT and `0` on LEFT,
BOTTOM and BACK, and `(p - c) . normal > 0` for each position `p`, `c = (s/2, s/2, s/2)`
being the centre of the cube. -/
theorem face_corners_outward (d : face_id) (s : ℚ) (t : texture_location) (hs : 0 < s) :
    (∀ i j : Fin 4, i ≠ j → quad_position d s t i ≠ quad_position d s t j) ∧
      (∀ i : Fin 4,
        ((quad_position d s t i).x = 0 ∨ (quad_position d s t i).x = s) ∧
          ((quad_position d s t i).y = 0 ∨ (quad_position d s t i).y = s) ∧
          ((quad_position d s t i).z = 0 ∨ (quad_position d s t i).z = s)) ∧
      (∀ i : Fin 4,
        (quad_position face_id.RIGHT s t i).x = s ∧ (quad_position face_id.TOP s t i).y = s ∧
          (quad_position face_id.FRONT s t i).z = s ∧ (quad_position face_id.LEFT s t i).x = 0 ∧
          (quad_position face_id.BOTTOM s t i).y = 0 ∧ (quad_position face_id.BACK s t i).z = 0) ∧
      ∀ i : Fin 4,
        0 < vec3.dot (quad_position d s t i - ⟨s / 2, s / 2, s / 2⟩)
          ((make_quad d s t).vertices i).normal := by
  have hne : s ≠ 0 := ne_of_gt hs
  have hne2 : (0 : ℚ) ≠ s := ne_of_lt hs
  refine ⟨?_, ?_, ?_, ?_⟩
  · intro i j hij
    cases d <;> fin_cases i <;> fin_cases j <;>
      first
      | exact absurd rfl hij
      | simp [quad_position, make_quad, array4, hne, hne2]
  · intro i
    cases d <;> fin_cases i <;> simp [quad_position, make_quad, array4]
  · intro i
    fin_cases i <;> simp [quad_position, make_quad, array4]
  · intro i
    cases d <;> fin_cases i <;>
      simp [quad_position, make_quad, array4, vec3_sub_def, vec3.dot] <;> linarith

/-- The statement of C19 for the right face of the unit cube. -/
theorem face_corners_outward_witness :
    (0 : ℚ) < 1 ∧
      (∀ i j : Fin 4, i ≠ j →
        quad_position face_id.RIGHT 1 unit_texture i ≠ quad_position face_id.RIGHT 1 unit_texture j) ∧
      ∀ i : Fin 4,
        0 < vec3.dot (quad_position face_id.RIGHT 1 unit_texture i - ⟨1 / 2, 1 / 2, 1 / 2⟩)
          ((make_quad face_id.RIGHT 1 unit_texture).vertices i).normal :=
  ⟨one_pos, (face_corners_outward face_id.RIGHT 1 unit_texture one_pos).1,
    (face_corners_outward face_id.RIGHT 1 unit_texture one_pos).2.2.2⟩

/-- C20, as stated, fails. On the chunk of one cell whose block id 99 has no definition, the
table after the selector, and the table after the mesh builder, is the table of
`single_builder` followed by an entry for 99; it is not the table before the call. -/
theorem table_read_only_counterexample :
    unknown_block_chunk.block (pos_to_idx single_builder ⟨0, 0, 0⟩) = some ⟨99⟩ ∧
      (get_blocks_that_match_filter_st single_builder unknown_block_chunk
          (fun _ => true)).map (fun r => r.2.block_definitions) =
        some (single_builder.block_definitions ++
          [(99, mc_block_definition.value_initialized)]) ∧
      (make_mesh_for_blocks_st single_builder [⟨0, 0, 0⟩] unknown_block_chunk).map
          (fun r => r.2.block_definitions) =
        some (single_builder.block_definitions ++
          [(99, mc_block_definition.value_initialized)]) ∧
      single_builder.block_definitions ++ [(99, mc_block_definition.value_initialized)]
        ≠ single_builder.block_definitions := by
  decide

/-- C20, amended. Whatever the selector or the mesh builder returns with the table as
state, the table has only grown: the builder after the call has the table before the call
followed by value-initialised entries for ids that had no entry and that a block of the
chunk carries. The lookups do insert: after the selector the table has an entry for the id
of every block that its loops have read, and after the mesh builder for the id of every
listed block; the entry is the one the table had before, and the value-initialised
definition when the table had none. The builder after the call is the builder before the
call when every block id of the chunk has an entry. The state-passing functions return
exactly when `get_blocks_that_match_filter` and `make_mesh_for_blocks` do, with the same
list and mesh. -/
theorem table_only_grows (cb : chunk_builder) (chunk : mc_chunk)
    (filter : mc_block_definition → Bool) (blocks : List ivec3) :
    (∀ l cb1, get_blocks_that_match_filter_st cb chunk filter = some (l, cb1) →
        get_blocks_that_match_filter cb chunk filter = some l ∧ table_grows chunk cb cb1 ∧
          (∀ z ∈ loop_range cb.CHUNK_WIDTH, ∀ y ∈ loop_range cb.CHUNK_HEIGHT,
            ∀ x ∈ loop_range cb.CHUNK_DEPTH,
              ∃ b, chunk.block
                  (x + y * cb.CHUNK_WIDTH + z * cb.CHUNK_WIDTH * cb.CHUNK_HEIGHT) = some b ∧
                cb1.block_definitions.lookup b.id = some (cb.definition b.id) ∧
                (cb.block_definitions.lookup b.id = none →
                  cb1.block_definitions.lookup b.id =
                    some mc_block_definition.value_initialized)) ∧
          ((∀ b ∈ chunk.blocks, cb.block_definitions.lookup b.id ≠ none) → cb1 = cb)) ∧
      (∀ mesh cb1, make_mesh_for_blocks_st cb blocks chunk = some (mesh, cb1) →
        make_mesh_for_blocks cb blocks chunk = some mesh ∧ table_grows chunk cb cb1 ∧
          (∀ p ∈ blocks,
            ∃ b, chunk.block (pos_to_idx cb p) = some b ∧
              cb1.block_definitions.lookup b.id = some (cb.definition b.id) ∧
              (cb.block_definitions.lookup b.id = none →
                cb1.block_definitions.lookup b.id =
                  some mc_block_definition.value_initialized)) ∧
          ((∀ b ∈ chunk.blocks, cb.block_definitions.lookup b.id ≠ none) → cb1 = cb)) ∧
      (∀ l, get_blocks_that_match_filter cb chunk filter = some l →
        ∃ cb1, get_blocks_that_match_filter_st cb chunk filter = some (l, cb1)) ∧
      ∀ mesh, make_mesh_for_blocks cb blocks chunk = some mesh →
        ∃ cb1, make_mesh_for_blocks_st cb blocks chunk = some (mesh, cb1) := by
  obtain ⟨h1, h2⟩ := st_of_refines chunk cb _ _ (get_blocks_st_refines chunk cb filter)
  obtain ⟨h3, h4⟩ := st_of_refines chunk cb _ _ (make_mesh_st_refines chunk cb blocks)
  refine ⟨?_, ?_, h2, h4⟩
  · intro l cb1 h
    obtain ⟨hv, hg⟩ := h1 l cb1 h
    exact ⟨hv, hg, get_blocks_st_entries chunk cb filter l cb1 h,
      table_grows_eq chunk cb cb1 hg⟩
  · intro mesh cb1 h
    obtain ⟨hv, hg⟩ := h3 mesh cb1 h
    exact ⟨hv, hg, make_mesh_st_entries chunk cb blocks mesh cb1 h,
      table_grows_eq chunk cb cb1 hg⟩

/-- The amended C20 for the chunk of one cell whose block id 99 has no definition: the
selector and the mesh builder return, and the table after each has the value-initialised
entry for 99 that the table before the call lacks. For a chunk all of whose block ids are
defined, both return with the builder they started from. -/
theorem table_only_grows_witness :
    single_builder.block_definitions.lookup 99 = none ∧
      (∃ l cb1, get_blocks_that_match_filter_st single_builder unknown_block_chunk
          (fun _ => true) = some (l, cb1) ∧
        cb1.block_definitions.lookup 99 = some mc_block_definition.value_initialized) ∧
      (∃ mesh cb1, make_mesh_for_blocks_st single_builder [⟨0, 0, 0⟩] unknown_block_chunk
          = some (mesh, cb1) ∧
        cb1.block_definitions.lookup 99 = some mc_block_definition.value_initialized) ∧
      (∃ l cb1, get_blocks_that_match_filter_st deep_builder deep_chunk (fun _ => true)
        = some (l, cb1) ∧ cb1 = deep_builder) ∧
      ∃ mesh cb1, make_mesh_for_blocks_st deep_builder [⟨0, 0, 0⟩, ⟨0, 0, 1⟩] deep_chunk
        = some (mesh, cb1) ∧ cb1 = deep_builder := by
  have hnone : single_builder.block_definitions.lookup 99 = none := by decide
  have hblock : unknown_block_chunk.block 0 = some ⟨99⟩ := by decide
  have hsel : get_blocks_that_match_filter single_builder unknown_block_chunk (fun _ => true)
      = some [⟨0, 0, 0⟩] := by decide
  obtain ⟨mesh0, hmesh0⟩ : ∃ mesh,
      make_mesh_for_blocks single_builder [⟨0, 0, 0⟩] unknown_block_chunk = some mesh :=
    ⟨_, rfl⟩
  obtain ⟨u1, hu1⟩ :=
    (table_only_grows single_builder unknown_block_chunk (fun _ => true) [⟨0, 0, 0⟩]).2.2.1
      _ hsel
  obtain ⟨u2, hu2⟩ :=
    (table_only_grows single_builder unknown_block_chunk (fun _ => true) [⟨0, 0, 0⟩]).2.2.2
      mesh0 hmesh0
  obtain ⟨b1, hb1, -, hins1⟩ :=
    ((table_only_grows single_builder unknown_block_chunk (fun _ => true)
      [⟨0, 0, 0⟩]).1 _ u1 hu1).2.2.1 0 (by decide) 0 (by decide) 0 (by decide)
  obtain ⟨b2, hb2, -, hins2⟩ :=
    ((table_only_grows single_builder unknown_block_chunk (fun _ => true)
      [⟨0, 0, 0⟩]).2.1 mesh0 u2 hu2).2.2.1 ⟨0, 0, 0⟩ (by decide)
  have e1 : b1 = ⟨99⟩ := Option.some.inj (hb1.symm.trans hblock)
  have e2 : b2 = ⟨99⟩ := Option.some.inj (hb2.symm.trans hblock)
  subst e1
  subst e2
  have hd : ∀ b ∈ deep_chunk.blocks, deep_builder.block_definitions.lookup b.id ≠ none := by
    decide
  obtain ⟨l, hl⟩ := get_blocks_defined deep_builder deep_chunk (fun _ => true)
    (by decide) (by decide)
  obtain ⟨mesh, hm⟩ := mesh_defined deep_builder [⟨0, 0, 0⟩, ⟨0, 0, 1⟩] deep_chunk
    (by decide) (by decide)
  obtain ⟨c1, hc1⟩ :=
    (table_only_grows deep_builder deep_chunk (fun _ => true) [⟨0, 0, 0⟩, ⟨0, 0, 1⟩]).2.2.1 l hl
  obtain ⟨c2, hc2⟩ :=
    (table_only_grows deep_builder deep_chunk (fun _ => true) [⟨0, 0, 0⟩, ⟨0, 0, 1⟩]).2.2.2
      mesh hm
  exact ⟨hnone, ⟨_, u1, hu1, hins1 hnone⟩, ⟨mesh0, u2, hu2, hins2 hnone⟩,
    ⟨l, c1, hc1,
      ((table_only_grows deep_builder deep_chunk (fun _ => true)
        [⟨0, 0, 0⟩, ⟨0, 0, 1⟩]).1 l c1 hc1).2.2.2 hd⟩,
    ⟨mesh, c2, hc2,
      ((table_only_grows deep_builder deep_chunk (fun _ => true)
        [⟨0, 0, 0⟩, ⟨0, 0, 1⟩]).2.1 mesh c2 hc2).2.2.2 hd⟩⟩

/-- C21. Selector order: every list that `get_blocks_that_match_filter` returns is strictly
increasing in the lexicographic order on `(z, y, x)`: of two of its entries the earlier one
is below the later one. The selector returns a list when the chunk has its
`CHUNK_WIDTH * CHUNK_HEIGHT * CHUNK_DEPTH` blocks and `CHUNK_WIDTH ≤ CHUNK_DEPTH`. -/
theorem selector_order (cb : chunk_builder) (chunk : mc_chunk)
    (filter : mc_block_definition → Bool) :
    (chunk.sized cb → cb.CHUNK_WIDTH ≤ cb.CHUNK_DEPTH →
        ∃ l, get_blocks_that_match_filter cb chunk filter = some l) ∧
      ∀ l, get_blocks_that_match_filter cb chunk filter = some l → l.Pairwise zyx_lt := by
  refine ⟨get_blocks_defined cb chunk filter, ?_⟩
  intro l hl
  rw [get_blocks_spec cb chunk filter l hl]
  exact selector_volume_pairwise (filter_matches_at cb chunk filter) _ _ _
    (loop_range_pairwise _) (loop_range_pairwise _) (loop_range_pairwise _)

/-- The statement of C21 for the 3 x 3 x 3 chunk and the predicate that holds of every
definition. -/
theorem selector_order_witness :
    ∃ l, get_blocks_that_match_filter cube27_builder cube27_chunk (fun _ => true) = some l ∧
      l.Pairwise zyx_lt := by
  obtain ⟨l, hl⟩ := (selector_order cube27_builder cube27_chunk (fun _ => true)).1
    (by decide) (by decide)
  exact ⟨l, hl, (selector_order cube27_builder cube27_chunk (fun _ => true)).2 l hl⟩

/-- C22. Cell indexing is safe and injective: for an in-bounds coordinate, `pos_to_idx` is
`x + y * CHUNK_WIDTH + z * CHUNK_WIDTH * CHUNK_HEIGHT` and lies in
`[0, CHUNK_WIDTH * CHUNK_HEIGHT * CHUNK_DEPTH)`; two in-bounds coordinates with the same
index are equal; and in a chunk with its `CHUNK_WIDTH * CHUNK_HEIGHT * CHUNK_DEPTH` blocks
the read at the index of an in-bounds neighbour finds a block, so that
`block_at_pos_is_opaque` has a result at every position and the neighbour read of
`block_at_offset_is_same` is inside the array. -/
theorem indexing_safe_injective (cb : chunk_builder) (chunk : mc_chunk) :
    (∀ p : ivec3, pos_to_idx cb p =
        p.x + p.y * cb.CHUNK_WIDTH + p.z * cb.CHUNK_WIDTH * cb.CHUNK_HEIGHT) ∧
      (∀ p : ivec3, cb.in_bounds p →
        0 ≤ pos_to_idx cb p ∧
          pos_to_idx cb p < cb.CHUNK_WIDTH * cb.CHUNK_HEIGHT * cb.CHUNK_DEPTH) ∧
      (∀ p q : ivec3, cb.in_bounds p → cb.in_bounds q → p ≠ q →
        pos_to_idx cb p ≠ pos_to_idx cb q) ∧
      (chunk.sized cb →
        (∀ q : ivec3, cb.in_bounds q →
          ∃ b, chunk.block (pos_to_idx cb q) = some b ∧
            chunk.blocks[(pos_to_idx cb q).toNat]? = some b) ∧
        (∀ q : ivec3, ∃ r, block_at_pos_is_opaque cb q chunk = some r) ∧
        ∀ p off : ivec3, cb.in_bounds (p + off) →
          ∃ b, chunk.block (pos_to_idx cb (p + off)) = some b) := by
  have hread : chunk.sized cb → ∀ q : ivec3, cb.in_bounds q →
      ∃ b, chunk.block (pos_to_idx cb q) = some b ∧
        chunk.blocks[(pos_to_idx cb q).toNat]? = some b := by
    intro hs q hq
    obtain ⟨h0, h1⟩ := pos_to_idx_range cb q hq
    unfold mc_chunk.sized at hs
    have hlt : (pos_to_idx cb q).toNat < chunk.blocks.length := by omega
    exact ⟨chunk.blocks[(pos_to_idx cb q).toNat],
      by simp [mc_chunk.block, h0, List.getElem?_eq_getElem hlt],
      List.getElem?_eq_getElem hlt⟩
  refine ⟨fun p => rfl, pos_to_idx_range cb, ?_, ?_⟩
  · intro p q hp hq hne h
    exact hne (pos_to_idx_injective cb p q hp hq h)
  · intro hs
    refine ⟨hread hs, ?_, ?_⟩
    · intro q
      by_cases hq : cb.in_bounds q
      · obtain ⟨b, hb, -⟩ := hread hs q hq
        exact ⟨_, is_opaque_in_bounds cb chunk q (cb.definition b.id) hq
          (by simp [definition_at, hb])⟩
      · exact ⟨false, is_opaque_out_of_bounds cb chunk q hq⟩
    · intro p off hq
      obtain ⟨b, hb, -⟩ := hread hs (p + off) hq
      exact ⟨b, hb⟩

/-- The statement of C22 for the 3 x 3 x 3 chunk: the cells `(1,1,1)` and `(2,1,1)` have
different indices, and the read at the index of `(1,1,1) + (1,0,0)` finds a block. -/
theorem indexing_safe_injective_witness :
    pos_to_idx cube27_builder ⟨1, 1, 1⟩ ≠ pos_to_idx cube27_builder ⟨2, 1, 1⟩ ∧
      ∃ b, cube27_chunk.block (pos_to_idx cube27_builder (⟨1, 1, 1⟩ + ⟨1, 0, 0⟩)) = some b :=
  ⟨(indexing_safe_injective cube27_builder cube27_chunk).2.2.1 ⟨1, 1, 1⟩ ⟨2, 1, 1⟩
      (by decide) (by decide) (by decide),
    ((indexing_safe_injective cube27_builder cube27_chunk).2.2.2 (by decide)).2.2
      ⟨1, 1, 1⟩ ⟨1, 0, 0⟩ (by decide)⟩

/-- C23. Culling direction matches geometry: for an in-bounds cell `p` of a well-formed
chunk, every quad that `make_geometry_for_block` returns is the quad of a face `d` whose
test at the offset `o` of `d` succeeded; its normal is `o` at the four vertices; and each
of its positions, translated by `p`, has along the axis of `o` the coordinate of `p` plus 1
when `o` is positive there and plus 0 when `o` is negative there. -/
theorem culling_matches_geometry (cb : chunk_builder) (chunk : mc_chunk) (p : ivec3)
    (name : String) (hwf : chunk.well_formed cb) (hp : cb.in_bounds p) :
    ∃ quads, make_geometry_for_block cb p chunk (some name) = some quads ∧
      ∀ q ∈ quads, ∃ d : face_id,
        q = make_quad d 1 (cb.get_texture_location name) ∧
        face_is_needed cb p d.offset chunk = some true ∧
        ∀ i : Fin 4,
          (q.vertices i).normal = d.offset.to_vec3 ∧
          (d.offset.x = 1 → ((q.vertices i).position + p.to_vec3).x = (p.x : ℚ) + 1) ∧
          (d.offset.x = -1 → ((q.vertices i).position + p.to_vec3).x = (p.x : ℚ) + 0) ∧
          (d.offset.y = 1 → ((q.vertices i).position + p.to_vec3).y = (p.y : ℚ) + 1) ∧
          (d.offset.y = -1 → ((q.vertices i).position + p.to_vec3).y = (p.y : ℚ) + 0) ∧
          (d.offset.z = 1 → ((q.vertices i).position + p.to_vec3).z = (p.z : ℚ) + 1) ∧
          (d.offset.z = -1 → ((q.vertices i).position + p.to_vec3).z = (p.z : ℚ) + 0) := by
  obtain ⟨faces, hf, -, hq, -⟩ := geometry_spec cb chunk p name hwf hp
  obtain ⟨l, hl, -, hmem⟩ := faces_to_make_spec cb chunk p hwf hp
  have hfl : faces = l := by
    rw [hf] at hl
    exact Option.some.inj hl
  refine ⟨_, hq, ?_⟩
  intro q hqm
  obtain ⟨d, hd, hqd⟩ := List.mem_map.mp hqm
  refine ⟨d, hqd.symm, (hmem d).mp (hfl ▸ hd), ?_⟩
  intro i
  rw [← hqd]
  exact ⟨make_quad_normal d 1 _ i, quad_plane d _ p i⟩

/-- The statement of C23 for the stone cell of the stone and glass chunk. -/
theorem culling_matches_geometry_witness :
    ∃ quads, make_geometry_for_block pair_builder ⟨0, 0, 0⟩ stone_glass_chunk (some "stone")
        = some quads ∧
      ∀ q ∈ quads, ∃ d : face_id,
        q = make_quad d 1 (pair_builder.get_texture_location "stone") ∧
        face_is_needed pair_builder ⟨0, 0, 0⟩ d.offset stone_glass_chunk = some true ∧
        ∀ i : Fin 4, (q.vertices i).normal = d.offset.to_vec3 := by
  obtain ⟨quads, h, hq⟩ := culling_matches_geometry pair_builder stone_glass_chunk ⟨0, 0, 0⟩
    "stone" (by decide) (by decide)
  refine ⟨quads, h, ?_⟩
  intro q hqm
  obtain ⟨d, h1, h2, h3⟩ := hq q hqm
  exact ⟨d, h1, h2, fun i => (h3 i).1⟩

/-- C24. Solid chunk yields only its hull: for positive chunk dimensions, a well-formed
chunk all of whose blocks are opaque cubes, and a list that holds every in-bounds coordinate
once, `make_mesh_for_blocks` returns a mesh of `Q` quads (`4 * Q` vertices of 13 floats and
`6 * Q` indices) with `Q = 2 * (W * H + H * D + W * D)`; and the faces of an in-bounds cell
are those whose neighbour is out of bounds, each once. -/
theorem solid_chunk_hull (cb : chunk_builder) (chunk : mc_chunk) (blocks : List ivec3)
    (hwf : chunk.well_formed cb)
    (hsolid : ∀ b ∈ chunk.blocks, (cb.definition b.id).is_cube = true ∧
      (cb.definition b.id).is_transparent = false)
    (hW : 0 < cb.CHUNK_WIDTH) (hH : 0 < cb.CHUNK_HEIGHT) (hD : 0 < cb.CHUNK_DEPTH)
    (hnd : blocks.Nodup) (hall : ∀ p, p ∈ blocks ↔ cb.in_bounds p) :
    (∃ (mesh : mesh_definition) (Q : Nat),
        make_mesh_for_blocks cb blocks chunk = some mesh ∧
        (Q : Int) = 2 * (cb.CHUNK_WIDTH * cb.CHUNK_HEIGHT + cb.CHUNK_HEIGHT * cb.CHUNK_DEPTH
          + cb.CHUNK_WIDTH * cb.CHUNK_DEPTH) ∧
        quad_count cb chunk blocks = Q ∧
        mesh.vertex_data.length = 4 * Q * 13 ∧ mesh.indices.length = 6 * Q) ∧
      ∀ p, cb.in_bounds p →
        ∃ faces, faces_to_make cb p chunk = some faces ∧ faces.Nodup ∧
          ∀ d : face_id, d ∈ faces ↔ ¬ cb.in_bounds (p + d.offset) := by
  constructor
  · obtain ⟨mesh, hm⟩ := mesh_defined cb blocks chunk hwf (fun p hp => (hall p).mp hp)
    obtain ⟨h1, h2⟩ := mesh_buffers_spec cb blocks chunk mesh hm
    have hq := quad_count_solid cb chunk blocks hwf hsolid hW hH hD hnd hall
    refine ⟨mesh, quad_count cb chunk blocks, hm, ?_, rfl, h1, ?_⟩
    · rw [hq]
      push_cast
      rw [Int.toNat_of_nonneg (le_of_lt hW), Int.toNat_of_nonneg (le_of_lt hH),
        Int.toNat_of_nonneg (le_of_lt hD)]
    · rw [h2, quad_indices_length]
  · intro p hp
    obtain ⟨faces, hf, -, hnd2, hmem⟩ :=
      faces_to_make_solid cb chunk p hwf (fun b hb => (hsolid b hb).2) hp
    exact ⟨faces, hf, hnd2, hmem⟩

/-- The statement of C24 for the chunk of stone and dirt, 2 x 1 x 1 cells: 10 quads. -/
theorem solid_chunk_hull_witness :
    ∃ (mesh : mesh_definition) (Q : Nat),
      make_mesh_for_blocks pair_builder [⟨0, 0, 0⟩, ⟨1, 0, 0⟩] stone_dirt_chunk = some mesh ∧
      (Q : Int) = 2 * (pair_builder.CHUNK_WIDTH * pair_builder.CHUNK_HEIGHT
        + pair_builder.CHUNK_HEIGHT * pair_builder.CHUNK_DEPTH
        + pair_builder.CHUNK_WIDTH * pair_builder.CHUNK_DEPTH) ∧
      quad_count pair_builder stone_dirt_chunk [⟨0, 0, 0⟩, ⟨1, 0, 0⟩] = Q ∧
      mesh.vertex_data.length = 4 * Q * 13 ∧ mesh.indices.length = 6 * Q :=
  (solid_chunk_hull pair_builder stone_dirt_chunk [⟨0, 0, 0⟩, ⟨1, 0, 0⟩] (by decide) (by decide)
    (by decide) (by decide) (by decide) (by decide)
    (by
      intro p
      have h2 : pair_builder.CHUNK_WIDTH = 2 := rfl
      have h3 : pair_builder.CHUNK_HEIGHT = 1 := rfl
      have h4 : pair_builder.CHUNK_DEPTH = 1 := rfl
      simp only [List.mem_cons, List.mem_singleton, List.not_mem_nil, or_false,
        chunk_builder.in_bounds, h2, h3, h4]
      constructor
      · rintro (h | h) <;> rw [h] <;> decide
      · rintro ⟨⟨hx0, hx1⟩, ⟨hy0, hy1⟩, ⟨hz0, hz1⟩⟩
        have hx : p.x = 0 ∨ p.x = 1 := by omega
        rcases hx with hx | hx
        · exact Or.inl (ivec3_eq p ⟨0, 0, 0⟩ hx (show p.y = 0 by omega) (show p.z = 0 by omega))
        · exact Or.inr (ivec3_eq p ⟨1, 0, 0⟩ hx (show p.y = 0 by omega) (show p.z = 0 by omega)))).1

/-- C25. The two triangles of a quad have opposite winding: for every face and size, the
positions `p0 .. p3` of `make_quad` satisfy
`(p2 - p1) x (p3 - p1) = -((p1 - p0) x (p2 - p0))`. -/
theorem opposite_winding (d : face_id) (s : ℚ) (t : texture_location) :
    vec3.cross (quad_position d s t 2 - quad_position d s t 1)
        (quad_position d s t 3 - quad_position d s t 1) =
      -(vec3.cross (quad_position d s t 1 - quad_position d s t 0)
        (quad_position d s t 2 - quad_position d s t 0)) := by
  cases d <;>
    simp [quad_position, make_quad, array4, vec3_sub_def, vec3_neg_def, vec3.cross]

/-- C26. Winding versus declared normal: for every size `s`, the cross product
`(p1 - p0) x (p2 - p0)` of the positions of `make_quad` is `s^2` times the normal of the
quad on LEFT, TOP and BACK, and `-s^2` times the normal on RIGHT, BOTTOM and FRONT; so for
`s ≠ 0` it is `s^2` times the normal on these three faces only. -/
theorem winding_versus_normal (s : ℚ) (t : texture_location) :
    (vec3.cross (quad_position face_id.LEFT s t 1 - quad_position face_id.LEFT s t 0)
          (quad_position face_id.LEFT s t 2 - quad_position face_id.LEFT s t 0) =
        vec3.scale (s ^ 2) (quad_normal face_id.LEFT s t) ∧
      vec3.cross (quad_position face_id.TOP s t 1 - quad_position face_id.TOP s t 0)
          (quad_position face_id.TOP s t 2 - quad_position face_id.TOP s t 0) =
        vec3.scale (s ^ 2) (quad_normal face_id.TOP s t) ∧
      vec3.cross (quad_position face_id.BACK s t 1 - quad_position face_id.BACK s t 0)
          (quad_position face_id.BACK s t 2 - quad_position face_id.BACK s t 0) =
        vec3.scale (s ^ 2) (quad_normal face_id.BACK s t)) ∧
      (vec3.cross (quad_position face_id.RIGHT s t 1 - quad_position face_id.RIGHT s t 0)
          (quad_position face_id.RIGHT s t 2 - quad_position face_id.RIGHT s t 0) =
        vec3.scale (-(s ^ 2)) (quad_normal face_id.RIGHT s t) ∧
      vec3.cross (quad_position face_id.BOTTOM s t 1 - quad_position face_id.BOTTOM s t 0)
          (quad_position face_id.BOTTOM s t 2 - quad_position face_id.BOTTOM s t 0) =
        vec3.scale (-(s ^ 2)) (quad_normal face_id.BOTTOM s t) ∧
      vec3.cross (quad_position face_id.FRONT s t 1 - quad_position face_id.FRONT s t 0)
          (quad_position face_id.FRONT s t 2 - quad_position face_id.FRONT s t 0) =
        vec3.scale (-(s ^ 2)) (quad_normal face_id.FRONT s t)) ∧
      (∀ i : Fin 4, ∀ d : face_id, ((make_quad d s t).vertices i).normal = quad_normal d s t) ∧
      (s ≠ 0 → ∀ d : face_id,
        (vec3.cross (quad_position d s t 1 - quad_position d s t 0)
            (quad_position d s t 2 - quad_position d s t 0) =
          vec3.scale (s ^ 2) (quad_normal d s t) ↔
        d = face_id.LEFT ∨ d = face_id.TOP ∨ d = face_id.BACK)) := by
  refine ⟨?_, ?_, ?_, ?_⟩
  · simp [quad_position, quad_normal, make_quad, array4, vec3_sub_def, vec3.cross, vec3.scale,
      pow_two]
  · simp [quad_position, quad_normal, make_quad, array4, vec3_sub_def, vec3.cross, vec3.scale,
      pow_two]
  · intro i d
    cases d <;> simp [quad_normal, make_quad]
  · intro hs d
    have h2 : s * s ≠ 0 := mul_ne_zero hs hs
    have h3 : ¬ (s * s = -(s * s)) := by
      intro h
      apply h2
      linarith
    have h4 : ¬ (-(s * s) = s * s) := fun h => h3 h.symm
    cases d <;>
      simp [quad_position, quad_normal, make_quad, array4, vec3_sub_def, vec3.cross,
        vec3.scale, pow_two, hs, h3, h4]

/-- The statement of C26 for the unit cube: the first triangle agrees with the declared
normal on LEFT, TOP and BACK only. -/
theorem winding_versus_normal_witness :
    (1 : ℚ) ≠ 0 ∧ ∀ d : face_id,
      (vec3.cross (quad_position d 1 unit_texture 1 - quad_position d 1 unit_texture 0)
          (quad_position d 1 unit_texture 2 - quad_position d 1 unit_texture 0) =
        vec3.scale (1 ^ 2) (quad_normal d 1 unit_texture) ↔
      d = face_id.LEFT ∨ d = face_id.TOP ∨ d = face_id.BACK) :=
  ⟨one_ne_zero, (winding_versus_normal 1 unit_texture).2.2.2 one_ne_zero⟩

/-- C27. Tangent frame: for every face, the normal and the tangent that `make_quad` gives
to its four vertices are plus or minus a basis vector, their dot product is zero, and for
`s ≠ 0` the tangent is plus or minus `(p1 - p0) / s` or plus or minus `(p2 - p0) / s`. -/
theorem tangent_frame (d : face_id) (s : ℚ) (t : texture_location) :
    (∀ i : Fin 4, ((make_quad d s t).vertices i).normal = quad_normal d s t ∧
        ((make_quad d s t).vertices i).tangent = quad_tangent d s t) ∧
      (quad_normal d s t).is_unit_axis ∧ (quad_tangent d s t).is_unit_axis ∧
      vec3.dot (quad_normal d s t) (quad_tangent d s t) = 0 ∧
      (s ≠ 0 →
        quad_tangent d s t = vec3.scale (1 / s) (quad_position d s t 1 - quad_position d s t 0) ∨
        quad_tangent d s t = vec3.scale (-(1 / s)) (quad_position d s t 1 - quad_position d s t 0) ∨
        quad_tangent d s t = vec3.scale (1 / s) (quad_position d s t 2 - quad_position d s t 0) ∨
        quad_tangent d s t = vec3.scale (-(1 / s)) (quad_position d s t 2 - quad_position d s t 0)) := by
  refine ⟨?_, ?_, ?_, ?_, ?_⟩
  · intro i
    cases d <;> simp [quad_normal, quad_tangent, make_quad]
  · cases d <;> simp [quad_normal, make_quad, vec3.is_unit_axis]
  · cases d <;> simp [quad_tangent, make_quad, vec3.is_unit_axis]
  · cases d <;> simp [quad_normal, quad_tangent, make_quad, vec3.dot]
  · intro hs
    have h1 : 1 / s * s = 1 := by field_simp
    have h2 : -(1 / s) * s = -1 := by field_simp
    cases d
    · right; right; left
      simp [quad_tangent, quad_position, make_quad, array4, vec3_sub_def, vec3.scale, hs]
    · right; right; right
      simp [quad_tangent, quad_position, make_quad, array4, vec3_sub_def, vec3.scale, hs]
    · left
      simp [quad_tangent, quad_position, make_quad, array4, vec3_sub_def, vec3.scale, hs]
    · right; left
      simp [quad_tangent, quad_position, make_quad, array4, vec3_sub_def, vec3.scale, hs]
    · right; right; left
      simp [quad_tangent, quad_position, make_quad, array4, vec3_sub_def, vec3.scale, hs]
    · right; right; right
      simp [quad_tangent, quad_position, make_quad, array4, vec3_sub_def, vec3.scale, hs]

/-- The statement of C27 for the right face of the unit cube. -/
theorem tangent_frame_witness :
    (1 : ℚ) ≠ 0 ∧
      (quad_tangent face_id.RIGHT 1 unit_texture =
          vec3.scale (1 / 1)
            (quad_position face_id.RIGHT 1 unit_texture 1 - quad_position face_id.RIGHT 1 unit_texture 0) ∨
        quad_tangent face_id.RIGHT 1 unit_texture =
          vec3.scale (-(1 / 1))
            (quad_position face_id.RIGHT 1 unit_texture 1 - quad_position face_id.RIGHT 1 unit_texture 0) ∨
        quad_tangent face_id.RIGHT 1 unit_texture =
          vec3.scale (1 / 1)
            (quad_position face_id.RIGHT 1 unit_texture 2 - quad_position face_id.RIGHT 1 unit_texture 0) ∨
        quad_tangent face_id.RIGHT 1 unit_texture =
          vec3.scale (-(1 / 1))
            (quad_position face_id.RIGHT 1 unit_texture 2 - quad_position face_id.RIGHT 1 unit_texture 0)) :=
  ⟨one_ne_zero, (tangent_frame face_id.RIGHT 1 unit_texture).2.2.2.2 one_ne_zero⟩
